import Mathlib

/-!
# Alien Advance (src/main.c): a shallow embedding and its verified properties

The program is a single C file for an 8-bit AVR board: an interrupt routine
that debounces seven buttons and a main loop that runs a small state machine
(connecting, intro, countdown, gameplay, game over).

Conventions of the embedding

* Global variables of the C file are the fields of `World`; every function of
  the C file becomes a function on `World` that keeps the C name.
* `unsigned char` values are natural numbers reduced modulo 256 where the C
  code can wrap, `unsigned int` (16 bit on AVR) modulo 65536.
* `float` quantities are exact rationals.  `cos`, `sin`, `atan2`, `rand` and
  `RAND_MAX` come from the C library, which is not part of the repository;
  they are the fields of `Env`.  `rand` is the sequence of values the calls
  return, `World.rand_calls` counts the calls made so far.
* Unbounded `while (1)` loops take a fuel argument and return `none` when the
  fuel runs out.
* `send_debug_string` appends to `World.log`; drawing calls have no effect on
  the globals and are left out.
-/

namespace AlienAdvance

/-! ## Bit operations (lines 30-36) -/

/-- `GET_BIT(port, pin)`: `(port >> pin) & 1`. -/
def GET_BIT (port pin : Nat) : Nat := (port >>> pin) &&& 1

/-- `SET_BIT(port, pin, val)` for an `unsigned char` target:
`port = (port & ~(1 << pin)) | (val << pin)`; the operands are promoted to
the 16-bit `int`, the result is truncated to 8 bits by the assignment. -/
def SET_BIT (port pin val : Nat) : Nat :=
  ((port &&& (0xFFFF ^^^ (1 <<< pin))) ||| (val <<< pin)) % 256

/-! ## Constants -/

def NUM_BUTTONS : Nat := 7
def BTN_DPAD_LEFT : Nat := 0
def BTN_DPAD_RIGHT : Nat := 1
def BTN_DPAD_UP : Nat := 2
def BTN_DPAD_DOWN : Nat := 3
def BTN_DPAD_CENTER : Nat := 4
def BTN_LEFT : Nat := 5
def BTN_RIGHT : Nat := 6
def BTN_STATE_UP : Nat := 0
def BTN_STATE_DOWN : Nat := 1

def PWIDTH : Nat := 5
def PHEIGHT : Nat := 5
def NUM_ENEMIES : Nat := 6
def EWIDTH : Nat := 5
def EHEIGHT : Nat := 5
def MSWIDTH : Nat := 12
def MSHEIGHT : Nat := 12
def MOTHER_MAX_HEALTH : Nat := 15
def NUM_MISSILES : Nat := 5
def MWIDTH : Nat := 2
def MHEIGHT : Nat := 2

/-- `PI` as written in the source, 3.141592653589. -/
def PI : ℚ := 3141592653589 / 1000000000000

/-- `TIMER1_TIME`, `1 / 7812.5`. -/
def TIMER1_TIME : ℚ := 2 / 15625

/-- `TIMER1_OVERFLOW`, `TIMER1_TIME * 0xFFFF`. -/
def TIMER1_OVERFLOW : ℚ := TIMER1_TIME * 65535

/-! ## Data model -/

/-- The `Sprite` record of the graphics library, as far as the game logic
uses it: position, velocity and the visibility flag. -/
structure Sprite where
  x : ℚ
  y : ℚ
  dx : ℚ
  dy : ℚ
  is_visible : Nat

/-- The lines the program hands to `send_debug_string`. -/
inductive DebugMsg where
  /-- "Greetings! You are connected via USB to Alien Advance." -/
  | greeting
  /-- "Use the WASD keys to move player and press space to shoot." -/
  | controls
  /-- "Player's current position: (%d, %d)" -/
  | playerPosition (x y : Nat)
  /-- "Player's current aim: %.1f" -/
  | playerAim (degrees : ℚ)
  /-- "Alien killed the player" -/
  | alienKilledPlayer
  /-- "Mothership destroyed the player" -/
  | mothershipDestroyedPlayer
  /-- "Player killed an alien" -/
  | playerKilledAlien
  /-- "Player destroyed the mothership" -/
  | playerDestroyedMothership
  deriving DecidableEq

/-- The C library functions the program calls. -/
structure Env where
  cos : ℚ → ℚ
  sin : ℚ → ℚ
  atan2 : ℚ → ℚ → ℚ
  rand : Nat → Nat
  RAND_MAX : Nat

/-- The raw input registers read by the debounce interrupt. -/
structure Pins where
  PINB : Nat
  PIND : Nat
  PINF : Nat

/-- The global variables of the program. -/
structure World where
  btn_hists : Nat → Nat
  btn_states : Nat → Nat
  btn_right_pressed : Nat
  usb_left : Nat
  usb_right : Nat
  usb_up : Nat
  usb_down : Nat
  usb_shoot : Nat
  GAME_STATE : Int
  mothership_battle : Nat
  lives : Nat
  score : Nat
  countdown : Nat
  time : ℚ
  last_clock : ℚ
  DT : ℚ
  light_timer : ℚ
  debug_timer : ℚ
  input_timer : ℚ
  first_input_time : ℚ
  player : Sprite
  enemies : Nat → Sprite
  enemy_timers : Nat → ℚ
  enemies_alive : Nat
  mothership : Sprite
  mother_missile : Sprite
  mother_health : Nat
  mother_move_timer : ℚ
  mother_shoot_timer : ℚ
  missiles : Nat → Sprite
  rand_calls : Nat
  log : List DebugMsg

/-- Array store `a[i] = v`. -/
def setAt {α : Type} (a : Nat → α) (i : Nat) (v : α) : Nat → α :=
  fun j => if j = i then v else a j

/-- Conversion of a non-negative `float` to `unsigned char`: truncation, then
reduction to 8 bits. -/
def toU8 (q : ℚ) : Nat := (Rat.floor q).toNat % 256

/-- `send_debug_string`: one more line on the debug channel. -/
def send_debug_string (m : DebugMsg) (w : World) : World :=
  { w with log := w.log ++ [m] }

/-! ## The debounce interrupt, `ISR(TIMER0_COMPA_vect)` (lines 927-971) -/

/-- The `switch (i)` of the interrupt: the raw sample of button `i`. -/
def rawSample (p : Pins) (i : Nat) : Nat :=
  match i with
  | 0 => GET_BIT p.PINB 1
  | 1 => GET_BIT p.PIND 0
  | 2 => GET_BIT p.PIND 1
  | 3 => GET_BIT p.PINB 7
  | 4 => GET_BIT p.PINB 0
  | 5 => GET_BIT p.PINF 6
  | 6 => GET_BIT p.PINF 5
  | _ => 0

/-- The two statements that push a sample into a history byte:
`h = h << 1; SET_BIT(h, 0, state)`. -/
def histPush (h state : Nat) : Nat := SET_BIT ((h <<< 1) % 256) 0 state

/-- The body of the `for` loop of the interrupt for button `i`. -/
def isrButton (p : Pins) (i : Nat) (w : World) : World :=
  let state := rawSample p i
  let h := histPush (w.btn_hists i) state
  let w1 := { w with btn_hists := setAt w.btn_hists i h }
  if w1.btn_states i = BTN_STATE_DOWN ∧ h = 0x00 then
    { w1 with btn_states := setAt w1.btn_states i BTN_STATE_UP }
  else if w1.btn_states i = BTN_STATE_UP ∧ h = 0xFF then
    { w1 with
      btn_states := setAt w1.btn_states i BTN_STATE_DOWN
      btn_right_pressed := if i = BTN_RIGHT then 1 else w1.btn_right_pressed }
  else w1

/-- `ISR(TIMER0_COMPA_vect)`: one debounce tick over the seven buttons. -/
def ISR_TIMER0_COMPA (p : Pins) (w : World) : World :=
  (List.range NUM_BUTTONS).foldl (fun acc i => isrButton p i acc) w

/-- A run of debounce ticks, oldest sample first. -/
def runTicks (ps : List Pins) (w : World) : World :=
  ps.foldl (fun acc p => ISR_TIMER0_COMPA p acc) w

/-! ## Spawn placement (lines 306-360) -/

/-- The quotient `((float) rand()) / RAND_MAX` for the call number `k`. -/
def randFrac (env : Env) (k : Nat) : ℚ := (env.rand k : ℚ) / (env.RAND_MAX : ℚ)

/-- The rectangle test of the program: `!(ax >= bx + bw || ax + aw <= bx ||
ay >= by + bh || ay + ah <= by)`. -/
def overlaps (ax ay aw ah bx b_y bw bh : ℚ) : Prop :=
  ¬ (ax ≥ bx + bw ∨ ax + aw ≤ bx ∨ ay ≥ b_y + bh ∨ ay + ah ≤ b_y)

instance (ax ay aw ah bx b_y bw bh : ℚ) : Decidable (overlaps ax ay aw ah bx b_y bw bh) :=
  inferInstanceAs (Decidable (¬ (ax ≥ bx + bw ∨ ax + aw ≤ bx ∨ ay ≥ b_y + bh ∨ ay + ah ≤ b_y)))

/-- The test of line 316 and of line 865: the candidate `(x, y)` of size
`width`, `height` lies inside the player's box grown by 2 on every side. -/
def hitsPaddedPlayer (w : World) (x y width height : Nat) : Prop :=
  ¬ ((x : ℚ) ≥ w.player.x + PWIDTH + 2 ∨ ((x + width : Nat) : ℚ) ≤ w.player.x - 2 ∨
     (y : ℚ) ≥ w.player.y + PHEIGHT + 2 ∨ ((y + height : Nat) : ℚ) ≤ w.player.y - 2)

instance (w : World) (x y width height : Nat) : Decidable (hitsPaddedPlayer w x y width height) :=
  inferInstanceAs (Decidable (¬ (_ ∨ _ ∨ _ ∨ _)))

/-- The test of line 326: the candidate lies inside the box of enemy `i` grown
by 2 on every side. -/
def hitsPaddedEnemy (w : World) (i x y width height : Nat) : Prop :=
  ¬ ((x : ℚ) ≥ (w.enemies i).x + EWIDTH + 2 ∨ ((x + width : Nat) : ℚ) ≤ (w.enemies i).x - 2 ∨
     (y : ℚ) ≥ (w.enemies i).y + EHEIGHT + 2 ∨ ((y + height : Nat) : ℚ) ≤ (w.enemies i).y - 2)

instance (w : World) (i x y width height : Nat) : Decidable (hitsPaddedEnemy w i x y width height) :=
  inferInstanceAs (Decidable (¬ (_ ∨ _ ∨ _ ∨ _)))

/-- The candidate `x` drawn at call `k`: `1 + (82 - width) * (rand() / RAND_MAX)`. -/
def candX (env : Env) (width k : Nat) : Nat :=
  toU8 (1 + (((82 : Int) - (width : Int) : Int) : ℚ) * randFrac env k)

/-- The candidate `y` drawn at call `k`: `9 + (38 - height) * (rand() / RAND_MAX)`. -/
def candY (env : Env) (height k : Nat) : Nat :=
  toU8 (9 + (((38 : Int) - (height : Int) : Int) : ℚ) * randFrac env k)

/-- `find_empty_position`: the `while (1)` loop with `fuel` rounds at most.
`k` is the number of `rand` calls made before; the result is the accepted
`(x, y)` and the number of calls made after. -/
def find_empty_position (env : Env) (w : World) (width height check_player : Nat) :
    Nat → Nat → Option (Nat × Nat × Nat)
  | 0, _ => none
  | fuel + 1, k =>
    let x := candX env width k
    let y := candY env height (k + 1)
    let okay : Nat := if check_player ≠ 0 ∧ hitsPaddedPlayer w x y width height then 0 else 1
    if okay ≠ 0 ∧ (List.range NUM_ENEMIES).all
        (fun i => decide (¬ hitsPaddedEnemy w i x y width height)) then
      some (x, y, k + 2)
    else find_empty_position env w width height check_player fuel (k + 2)

/-- A `for` loop over the indices `l` whose body may fail to return. -/
def forM {σ : Type} (body : Nat → σ → Option σ) : List Nat → σ → Option σ
  | [], s => some s
  | i :: l, s => (body i s).bind (forM body l)

/-- The body of the second loop of `reset_enemies` (lines 352-356). -/
def placeEnemy (env : Env) (fuel check_player i : Nat) (w : World) : Option World :=
  match find_empty_position env w EWIDTH EHEIGHT check_player fuel w.rand_calls with
  | none => none
  | some (x, y, k) =>
    some { w with
      enemies := setAt w.enemies i { w.enemies i with x := x, y := y, is_visible := 1 }
      enemy_timers := setAt w.enemy_timers i (2 + 2 * randFrac env k)
      rand_calls := k + 1 }

/-- The first loop of `reset_enemies`: every enemy goes to (0, 0). -/
def enemiesToOrigin (w : World) : World :=
  (List.range NUM_ENEMIES).foldl
    (fun acc i => { acc with enemies := setAt acc.enemies i { acc.enemies i with x := 0, y := 0 } }) w

/-- `reset_enemies(check_player)`. -/
def reset_enemies (env : Env) (fuel check_player : Nat) (w : World) : Option World :=
  (forM (placeEnemy env fuel check_player) (List.range NUM_ENEMIES) (enemiesToOrigin w)).map
    (fun w1 => { w1 with enemies_alive := NUM_ENEMIES })

/-- `get_shooting_angle` for the converter reading `adc`. -/
def get_shooting_angle (adc : Nat) : ℚ := (adc : ℚ) / 1023 * PI * 4

/-- `get_system_time` for the overflow count `clock_overflow` and the counter
reading `tcnt1`: `(clock_overflow * 65536 + TCNT1) * TIMER1_TIME`.  The sum is
a 32-bit `long` in C; it is exact for `clock_overflow < 32768`. -/
def get_system_time (clock_overflow tcnt1 : Nat) : ℚ :=
  ((clock_overflow * 65536 + tcnt1 : Nat) : ℚ) * TIMER1_TIME

/-- `get_system_clock` for the counter reading `tcnt1`. -/
def get_system_clock (tcnt1 : Nat) : ℚ := TIMER1_TIME * (tcnt1 : ℚ)

/-! ## The main loop (lines 375-922) -/

/-- What one iteration of the main loop reads from the hardware: whether the
serial channel gets ready (Connecting state), the counter `TCNT1` at the three
calls of `get_system_clock` (lines 378, 380 and 459), the converter reading
`ADC`, and the characters `usb_serial_getchar` returns before it returns -1. -/
structure Input where
  usb_ready : Bool
  tcnt1_dt : Nat
  tcnt1_last : Nat
  tcnt1_init : Nat
  adc : Nat
  usb : List Int

/-- The clamp of one coordinate of an enemy or of the mothership: the new
value and whether `end_path` is raised.
`if (v < lo) { v = lo; end_path = 1; } else if (v > hi) { v = hi; end_path = 1; }` -/
def clampAxis (v lo hi : ℚ) : ℚ × Nat :=
  if v < lo then (lo, 1) else if v > hi then (hi, 1) else (v, 0)

/-- `lives--; send_debug_string(...)`, the first two statements of a hit. -/
def loseLife (msg : DebugMsg) (w : World) : World :=
  send_debug_string msg { w with lives := (w.lives + 255) % 256 }

/-- The respawn of the player at `(x, y)`: `player.x = x; player.y = y;
light_timer = 0.5`, with `k` the count of `rand` calls after the search. -/
def respawnPlayer (x y k : Nat) (w : World) : World :=
  { w with
    player := { w.player with x := x, y := y }
    light_timer := 1 / 2
    rand_calls := k }

/-- The block run on every hit of the player (lines 592-607, 646-662,
720-735): one life less, a debug line, then game over or a respawn. -/
def playerHit (env : Env) (fuel : Nat) (msg : DebugMsg) (w : World) : Option World :=
  if (loseLife msg w).lives ≤ 0 then some { loseLife msg w with GAME_STATE := 3 }
  else
    match find_empty_position env (loseLife msg w) PWIDTH PHEIGHT 0 fuel
        (loseLife msg w).rand_calls with
    | none => none
    | some (x, y, k) => some (respawnPlayer x y k (loseLife msg w))

/-- Draining the serial channel (lines 500-533), one character. -/
def usbKey (w : World) (c : Int) : World :=
  if c = 97 then { w with usb_left := 1 }
  else if c = 100 then { w with usb_right := 1 }
  else if c = 119 then { w with usb_up := 1 }
  else if c = 115 then { w with usb_down := 1 }
  else if c = 32 then { w with usb_shoot := 1 }
  else w

/-- Draining the serial channel (lines 500-533). -/
def drainUsb (cs : List Int) (w : World) : World :=
  cs.foldl usbKey
    { w with usb_left := 0, usb_right := 0, usb_up := 0, usb_down := 0, usb_shoot := 0 }

/-- Movement of the mothership (lines 541-578): the new world and `end_path`. -/
def mothershipMove (env : Env) (w : World) : World × Nat :=
  if w.mother_move_timer > 0 then
    ({ w with mother_move_timer := w.mother_move_timer - w.DT }, 0)
  else
    let m := w.mothership
    let angle := env.atan2
      (w.player.y + ((PHEIGHT / 2 : Nat) : ℚ) - (m.y + ((MSHEIGHT / 2 : Nat) : ℚ)))
      (w.player.x + ((PWIDTH / 2 : Nat) : ℚ) - (m.x + ((MSWIDTH / 2 : Nat) : ℚ)))
    let m1 := if m.dx = 0 then { m with dx := 2 * env.cos angle, dy := 2 * env.sin angle } else m
    let cx := clampAxis (m1.x + m1.dx * w.DT) 1 ((83 - MSWIDTH : Nat) : ℚ)
    let cy := clampAxis (m1.y + m1.dy * w.DT) 9 ((47 - MSHEIGHT : Nat) : ℚ)
    ({ w with mothership := { m1 with x := cx.1, y := cy.1 } },
      if cy.2 ≠ 0 then 1 else cx.2)

/-- The end of the mothership's path (lines 612-614): it stops and waits. -/
def stopMothership (env : Env) (w : World) : World :=
  { w with
    mothership := { w.mothership with dx := 0, dy := 0 }
    mother_move_timer := 2 + 2 * randFrac env w.rand_calls
    rand_calls := w.rand_calls + 1 }

/-- Contact of the mothership with the player and the end of its path
(lines 588-615). -/
def mothershipContact (env : Env) (fuel : Nat) (end_path : Nat) (w : World) : Option World :=
  let hit := (if overlaps w.mothership.x w.mothership.y MSWIDTH MSHEIGHT
        w.player.x w.player.y PWIDTH PHEIGHT then
      (playerHit env fuel DebugMsg.mothershipDestroyedPlayer w).map
        (fun w1 => (w1, if w.mother_move_timer ≤ 0 then 1 else end_path))
    else some (w, end_path))
  hit.map (fun r => if r.2 ≠ 0 then stopMothership env r.1 else r.1)

/-- The shoot timer of the mothership (lines 617-630). -/
def mothershipShoot (env : Env) (w : World) : World :=
  if w.mother_shoot_timer > 0 then
    { w with mother_shoot_timer := w.mother_shoot_timer - w.DT }
  else if w.mother_missile.is_visible = 0 then
    let m := w.mothership
    let angle := env.atan2
      (w.player.y + ((PHEIGHT / 2 : Nat) : ℚ) - (m.y + ((MSHEIGHT / 2 : Nat) : ℚ)))
      (w.player.x + ((PWIDTH / 2 : Nat) : ℚ) - (m.x + ((MSWIDTH / 2 : Nat) : ℚ)))
    { w with
      mother_missile :=
        { x := m.x + ((MSWIDTH / 2 : Nat) : ℚ) + 4 * env.cos angle
          y := m.y + ((MSHEIGHT / 2 : Nat) : ℚ) + 4 * env.sin angle
          dx := 10 * env.cos angle
          dy := 10 * env.sin angle
          is_visible := 1 }
      mother_shoot_timer := 2 + 2 * randFrac env w.rand_calls
      rand_calls := w.rand_calls + 1 }
  else w

/-- The mothership's missile after `x += dx * DT; y += dy * DT` (lines 634-635). -/
def movedMotherMissile (w : World) : Sprite :=
  { w.mother_missile with
    x := w.mother_missile.x + w.mother_missile.dx * w.DT
    y := w.mother_missile.y + w.mother_missile.dy * w.DT }

/-- The world with the mothership's missile moved. -/
def advanceMotherMissile (w : World) : World :=
  { w with mother_missile := movedMotherMissile w }

/-- The world with the mothership's missile moved and made invisible. -/
def dropMotherMissile (w : World) : World :=
  { w with mother_missile := { movedMotherMissile w with is_visible := 0 } }

/-- The missile of the mothership (lines 632-666): the new world and whether
the `continue` of line 640 is taken. -/
def motherMissileStep (env : Env) (fuel : Nat) (w : World) : Option (World × Bool) :=
  if w.mother_missile.is_visible ≠ 0 then
    if (movedMotherMissile w).x < 1 ∨ (movedMotherMissile w).x > ((83 - MWIDTH : Nat) : ℚ) ∨
        (movedMotherMissile w).y < 9 ∨ (movedMotherMissile w).y > ((47 - MHEIGHT : Nat) : ℚ) then
      some (dropMotherMissile w, true)
    else if overlaps (movedMotherMissile w).x (movedMotherMissile w).y MWIDTH MHEIGHT
        w.player.x w.player.y PWIDTH PHEIGHT then
      (playerHit env fuel DebugMsg.mothershipDestroyedPlayer (dropMotherMissile w)).map
        (fun w1 => (w1, false))
    else some (advanceMotherMissile w, false)
  else some (w, false)

/-- The boss branch of a gameplay frame (lines 537-666). -/
def mothershipPhase (env : Env) (fuel : Nat) (w : World) : Option (World × Bool) :=
  let r := mothershipMove env w
  (mothershipContact env fuel r.2 r.1).bind
    (fun w1 => motherMissileStep env fuel (mothershipShoot env w1))

/-- Movement of enemy `i` (lines 677-714): the new world and `end_path`. -/
def enemyMove (env : Env) (i : Nat) (w : World) : World × Nat :=
  if w.enemy_timers i > 0 then
    ({ w with enemy_timers := setAt w.enemy_timers i (w.enemy_timers i - w.DT) }, 0)
  else
    let e := w.enemies i
    let angle := env.atan2
      (w.player.y + ((PHEIGHT / 2 : Nat) : ℚ) - (e.y + ((EHEIGHT / 2 : Nat) : ℚ)))
      (w.player.x + ((PWIDTH / 2 : Nat) : ℚ) - (e.x + ((EWIDTH / 2 : Nat) : ℚ)))
    let e1 := if e.dx = 0 then { e with dx := 4 * env.cos angle, dy := 4 * env.sin angle } else e
    let cx := clampAxis (e1.x + e1.dx * w.DT) 1 ((83 - EWIDTH : Nat) : ℚ)
    let cy := clampAxis (e1.y + e1.dy * w.DT) 9 ((47 - EHEIGHT : Nat) : ℚ)
    ({ w with enemies := setAt w.enemies i { e1 with x := cx.1, y := cy.1 } },
      if cy.2 ≠ 0 then 1 else cx.2)

/-- The end of the path of enemy `i` (lines 740-742): it stops and waits. -/
def stopEnemy (env : Env) (i : Nat) (w : World) : World :=
  { w with
    enemies := setAt w.enemies i { w.enemies i with dx := 0, dy := 0 }
    enemy_timers := setAt w.enemy_timers i (2 + 2 * randFrac env w.rand_calls)
    rand_calls := w.rand_calls + 1 }

/-- Contact of enemy `i` with the player and the end of its path
(lines 716-743). -/
def enemyContact (env : Env) (fuel : Nat) (i end_path : Nat) (w : World) : Option World :=
  let hit := (if overlaps (w.enemies i).x (w.enemies i).y EWIDTH EHEIGHT
        w.player.x w.player.y PWIDTH PHEIGHT then
      (playerHit env fuel DebugMsg.alienKilledPlayer w).map
        (fun w1 => (w1, if w.enemy_timers i ≤ 0 then 1 else end_path))
    else some (w, end_path))
  hit.map (fun r => if r.2 ≠ 0 then stopEnemy env i r.1 else r.1)

/-- The body of the enemy loop (lines 674-745). -/
def enemyStep (env : Env) (fuel : Nat) (i : Nat) (w : World) : Option World :=
  if (w.enemies i).is_visible = 0 then some w
  else
    let r := enemyMove env i w
    enemyContact env fuel i r.2 r.1

/-- The normal branch of a gameplay frame (lines 672-746). -/
def enemiesPhase (env : Env) (fuel : Nat) (w : World) : Option World :=
  forM (enemyStep env fuel) (List.range NUM_ENEMIES) w

/-- The local variable `x_axis` after lines 751-755: one step left for the
left button or the serial `a`, one step right for the right button or `d`. -/
def x_axis (w : World) : Int :=
  (if w.btn_states BTN_DPAD_LEFT = BTN_STATE_DOWN ∨ w.usb_left ≠ 0 then -1 else 0) +
  (if w.btn_states BTN_DPAD_RIGHT = BTN_STATE_DOWN ∨ w.usb_right ≠ 0 then 1 else 0)

/-- The local variable `y_axis` after lines 752-757. -/
def y_axis (w : World) : Int :=
  (if w.btn_states BTN_DPAD_UP = BTN_STATE_DOWN ∨ w.usb_up ≠ 0 then -1 else 0) +
  (if w.btn_states BTN_DPAD_DOWN = BTN_STATE_DOWN ∨ w.usb_down ≠ 0 then 1 else 0)

/-- Movement of the player (lines 751-771). -/
def playerStep (w : World) : World :=
  let px :=
    if x_axis w ≠ 0 then
      let x1 := w.player.x + ((12 * x_axis w : Int) : ℚ) * w.DT
      let x2 : ℚ := if x1 < 1 then 1 else x1
      if x2 > ((83 - PWIDTH : Nat) : ℚ) then ((83 - PWIDTH : Nat) : ℚ) else x2
    else w.player.x
  let py :=
    if y_axis w ≠ 0 then
      let y1 := w.player.y + ((12 * y_axis w : Int) : ℚ) * w.DT
      let y2 : ℚ := if y1 < 9 then 9 else y1
      if y2 > ((47 - PHEIGHT : Nat) : ℚ) then ((47 - PHEIGHT : Nat) : ℚ) else y2
    else w.player.y
  { w with player := { w.player with x := px, y := py } }

/-- The search for the position of the mothership (lines 856-871).  `okay` is
the C variable of that name: it is set to 1 before the loop and to 0 by every
candidate inside the player's padded box. -/
def motherSearch (env : Env) (w : World) : Nat → Nat → Nat → Option (Nat × Nat × Nat)
  | 0, _, _ => none
  | fuel + 1, okay, k =>
    let x := candX env MSWIDTH k
    let y := candY env MSHEIGHT (k + 1)
    let okay1 : Nat := if hitsPaddedPlayer w x y MSWIDTH MSHEIGHT then 0 else okay
    if okay1 ≠ 0 then some (x, y, k + 2)
    else motherSearch env w fuel okay1 (k + 2)

/-- The assignments of lines 848-854: the flag, the mothership made visible
and stopped, its two timers, its health. -/
def bossSetup (env : Env) (w : World) : World :=
  { w with
    mothership_battle := 1
    mothership := { w.mothership with is_visible := 1, dx := 0, dy := 0 }
    mother_move_timer := 2 + 2 * randFrac env w.rand_calls
    mother_shoot_timer := 2 + 2 * randFrac env (w.rand_calls + 1)
    mother_health := MOTHER_MAX_HEALTH
    rand_calls := w.rand_calls + 2 }

/-- `mothership.x = x; mothership.y = y` (lines 873-874), with `k` the count
of `rand` calls after the search. -/
def placeMothership (x y k : Nat) (w : World) : World :=
  { w with mothership := { w.mothership with x := x, y := y }, rand_calls := k }

/-- The switch to the mothership battle (lines 848-874). -/
def enterBoss (env : Env) (fuel : Nat) (w : World) : Option World :=
  match motherSearch env (bossSetup env w) fuel 1 (bossSetup env w).rand_calls with
  | none => none
  | some (x, y, k) => some (placeMothership x y k (bossSetup env w))

/-- The assignments of lines 836-842: missile `i` and enemy `j` go, the live
count drops, the score rises, a debug line is sent. -/
def killEnemy (i j : Nat) (w : World) : World :=
  send_debug_string DebugMsg.playerKilledAlien
    { w with
      missiles := setAt w.missiles i { w.missiles i with is_visible := 0 }
      enemies := setAt w.enemies j { w.enemies j with is_visible := 0, dx := 0, dy := 0 }
      enemies_alive := (w.enemies_alive + 255) % 256
      score := (w.score + 1) % 65536 }

/-- The body of the loop over the enemies for missile `i` (lines 831-876). -/
def missileEnemy (env : Env) (fuel : Nat) (i j : Nat) (w : World) : Option World :=
  if (w.enemies j).is_visible = 0 then some w
  else if overlaps (w.missiles i).x (w.missiles i).y MWIDTH MHEIGHT
      (w.enemies j).x (w.enemies j).y EWIDTH EHEIGHT then
    if (killEnemy i j w).enemies_alive ≤ 0 then enterBoss env fuel (killEnemy i j w)
    else some (killEnemy i j w)
  else some w

/-- The assignments of lines 812-813: missile `i` goes, the mothership loses
one point of health. -/
def hitMothership (i : Nat) (w : World) : World :=
  { w with
    missiles := setAt w.missiles i { w.missiles i with is_visible := 0 }
    mother_health := (w.mother_health + 255) % 256 }

/-- The statements of lines 819-821: the debug line, the flag cleared, ten
points. -/
def bossDefeated (w : World) : World :=
  { w with
    log := w.log ++ [DebugMsg.playerDestroyedMothership]
    mothership_battle := 0
    score := (w.score + 10) % 65536 }

/-- The statement of line 823, `mother_missile.is_visible = 0`. -/
def clearMotherMissile (w : World) : World :=
  { w with mother_missile := { w.mother_missile with is_visible := 0 } }

/-- Missile `i` against the mothership (lines 809-825). -/
def missileMothership (env : Env) (fuel : Nat) (i : Nat) (w : World) : Option World :=
  if overlaps (w.missiles i).x (w.missiles i).y MWIDTH MHEIGHT
      w.mothership.x w.mothership.y MSWIDTH MSHEIGHT then
    if (hitMothership i w).mother_health ≤ 0 then
      (reset_enemies env fuel 1 (bossDefeated (hitMothership i w))).map clearMotherMissile
    else some (hitMothership i w)
  else some w

/-- Missile `i` after `x += dx * DT; y += dy * DT` (lines 797-798). -/
def movedMissile (i : Nat) (w : World) : Sprite :=
  { w.missiles i with
    x := (w.missiles i).x + (w.missiles i).dx * w.DT
    y := (w.missiles i).y + (w.missiles i).dy * w.DT }

/-- The world with missile `i` moved. -/
def advanceMissile (i : Nat) (w : World) : World :=
  { w with missiles := setAt w.missiles i (movedMissile i w) }

/-- The world with missile `i` moved and made invisible (line 803). -/
def dropMissile (i : Nat) (w : World) : World :=
  { w with missiles := setAt w.missiles i { movedMissile i w with is_visible := 0 } }

/-- The missile set up by lines 882-886: at the player's centre, two units
along the aim angle, with speed 10 along it. -/
def firedMissile (env : Env) (angle : ℚ) (w : World) : Sprite :=
  { x := w.player.x + ((PWIDTH / 2 : Nat) : ℚ) + 2 * env.cos angle
    y := w.player.y + ((PHEIGHT / 2 : Nat) : ℚ) + 2 * env.sin angle
    dx := 10 * env.cos angle
    dy := 10 * env.sin angle
    is_visible := 1 }

/-- The world with slot `i` activated at the player (lines 882-886). -/
def spawnMissile (env : Env) (angle : ℚ) (i : Nat) (w : World) : World :=
  { w with missiles := setAt w.missiles i (firedMissile env angle w) }

/-- The body of the missile loop (lines 795-888); the state is the world and
the local variable `fire_missile`. -/
def missileStep (env : Env) (fuel : Nat) (angle : ℚ) (i : Nat) (s : World × Nat) :
    Option (World × Nat) :=
  if (s.1.missiles i).is_visible ≠ 0 then
    if (movedMissile i s.1).x < 1 ∨ (movedMissile i s.1).x > ((83 - MWIDTH : Nat) : ℚ) ∨
        (movedMissile i s.1).y < 9 ∨ (movedMissile i s.1).y > ((47 - MHEIGHT : Nat) : ℚ) then
      some (dropMissile i s.1, s.2)
    else if (advanceMissile i s.1).mothership_battle ≠ 0 then
      (missileMothership env fuel i (advanceMissile i s.1)).map (fun w2 => (w2, s.2))
    else
      (forM (missileEnemy env fuel i) (List.range NUM_ENEMIES) (advanceMissile i s.1)).map
        (fun w2 => (w2, s.2))
  else if s.2 ≠ 0 then some (spawnMissile env angle i s.1, 0)
  else some s

/-- The missile part of a gameplay frame (lines 785-889). -/
def missilesPhase (env : Env) (fuel : Nat) (angle : ℚ) (w : World) : Option World :=
  let s : World × Nat :=
    if w.btn_right_pressed ≠ 0 ∨ w.usb_shoot ≠ 0 then ({ w with btn_right_pressed := 0 }, 1)
    else (w, 0)
  (forM (missileStep env fuel angle) (List.range NUM_MISSILES) s).map (fun r => r.1)

/-- The debug timer at the top of a gameplay frame (lines 487-498). -/
def debugStep (angle : ℚ) (w : World) : World :=
  if w.debug_timer > 0 then { w with debug_timer := w.debug_timer - w.DT }
  else
    { w with
      log := w.log ++ [DebugMsg.playerPosition (toU8 w.player.x) (toU8 w.player.y)] ++
        [DebugMsg.playerAim (angle * (180 / PI))]
      debug_timer := 1 / 2 }

/-- The top of a gameplay frame (lines 484-533): the round time, the debug
timer with the aim angle just read, the serial channel. -/
def frameEntry (inp : Input) (w : World) : World :=
  drainUsb inp.usb (debugStep (get_shooting_angle inp.adc) { w with time := w.time + w.DT })

/-- One gameplay frame, the branch `GAME_STATE == 2` (lines 484-894). -/
def gameplayFrame (env : Env) (fuel : Nat) (inp : Input) (w : World) : Option World :=
  if (frameEntry inp w).mothership_battle ≠ 0 then
    (mothershipPhase env fuel (frameEntry inp w)).bind (fun r =>
      if r.2 then some r.1
      else missilesPhase env fuel (get_shooting_angle inp.adc) (playerStep r.1))
  else
    (enemiesPhase env fuel (frameEntry inp w)).bind (fun w2 =>
      missilesPhase env fuel (get_shooting_angle inp.adc) (playerStep w2))

/-- The assignments of lines 454-459. -/
def sessionReset (inp : Input) (w : World) : World :=
  { w with
    GAME_STATE := 2
    time := 0
    score := 0
    lives := 5
    mothership_battle := 0
    last_clock := get_system_clock inp.tcnt1_init }

/-- The assignments of lines 462-463. -/
def hideMothership (w : World) : World :=
  { w with
    mothership := { w.mothership with is_visible := 0 }
    mother_missile := { w.mother_missile with is_visible := 0 } }

/-- The assignments of lines 469-470, with `k` the count of `rand` calls after
the search. -/
def placePlayer (x y k : Nat) (w : World) : World :=
  { w with player := { w.player with x := x, y := y }, rand_calls := k }

/-- The body of the loop of lines 473-476, `missiles[i].is_visible = 0`. -/
def freeSlot (i : Nat) (w : World) : World :=
  { w with missiles := setAt w.missiles i { w.missiles i with is_visible := 0 } }

/-- The loop of lines 473-476: every missile slot is made free. -/
def clearMissiles (w : World) : World :=
  (List.range NUM_MISSILES).foldl (fun acc i => freeSlot i acc) w

/-- Round initialisation (lines 452-476). -/
def roundInit (env : Env) (fuel : Nat) (inp : Input) (w : World) : Option World :=
  (reset_enemies env fuel 0 (sessionReset inp w)).bind (fun w2 =>
    match find_empty_position env (hideMothership w2) PWIDTH PHEIGHT 0 fuel
        (hideMothership w2).rand_calls with
    | none => none
    | some (x, y, k) => some (clearMissiles (placePlayer x y k (hideMothership w2))))

/-- The delta time of lines 378-380. -/
def deltaTime (inp : Input) (w : World) : World :=
  let dt := get_system_clock inp.tcnt1_dt - w.last_clock
  { w with
    DT := if dt < 0 then dt + TIMER1_OVERFLOW else dt
    last_clock := get_system_clock inp.tcnt1_last }

/-- The seed taken at the first button press (lines 383-397).  The call of
`srand` itself has no counterpart: `Env.rand` is the sequence drawn after it. -/
def seedStep (w : World) : World :=
  if w.first_input_time ≠ -1 then
    if (List.range NUM_BUTTONS).any
        (fun i => decide (i ≠ BTN_DPAD_CENTER ∧ w.btn_states i = BTN_STATE_DOWN)) then
      { w with first_input_time := -1 }
    else { w with first_input_time := w.first_input_time + w.DT }
  else w

/-- The light timer (lines 399-410). -/
def lightStep (w : World) : World :=
  if w.light_timer > 0 then { w with light_timer := w.light_timer - w.DT } else w

/-- The top of an iteration (lines 377-410): delta time, the seed taken at the
first button press, the light timer. -/
def frameStart (inp : Input) (w : World) : World :=
  lightStep (seedStep (deltaTime inp w))

/-- The dispatch on `GAME_STATE` (lines 414-910). -/
def stateStep (env : Env) (fuel : Nat) (inp : Input) (w : World) : Option World :=
  if w.GAME_STATE = -1 then
    if inp.usb_ready then
      some { w with
        GAME_STATE := 0
        log := w.log ++ [DebugMsg.greeting] ++ [DebugMsg.controls] }
    else none
  else if w.GAME_STATE = 0 then
    if w.input_timer > 0 then some { w with input_timer := w.input_timer - w.DT }
    else if w.btn_states BTN_LEFT = BTN_STATE_DOWN ∨ w.btn_states BTN_RIGHT = BTN_STATE_DOWN then
      some { w with GAME_STATE := 1, countdown := 4 }
    else some w
  else if w.GAME_STATE = 1 then
    if w.countdown > 1 then some { w with countdown := w.countdown - 1 }
    else roundInit env fuel inp w
  else if w.GAME_STATE = 2 then gameplayFrame env fuel inp w
  else if w.GAME_STATE = 3 then
    if w.btn_states BTN_LEFT = BTN_STATE_DOWN ∨ w.btn_states BTN_RIGHT = BTN_STATE_DOWN then
      some { w with GAME_STATE := 0, input_timer := 1 / 2 }
    else some w
  else some w

/-- One iteration of the `while (1)` loop of `main`. -/
def mainIteration (env : Env) (fuel : Nat) (inp : Input) (w0 : World) : Option World :=
  stateStep env fuel inp (frameStart inp w0)

end AlienAdvance


/-! ## Definitions used to state the properties -/

namespace AlienAdvance

/-- The history byte reached from `h0` by pushing the samples `rs`, the newest
sample first in the list. -/
def regR (h0 : Nat) : List Nat → Nat
  | [] => h0
  | s :: t => histPush (regR h0 t) s

/-- The raw samples of button `i` in a run of ticks, the newest first. -/
def samplesOf (i : Nat) (ps : List Pins) : List Nat :=
  ps.reverse.map (fun q => rawSample q i)

/-- The latched state of a button after a tick, from its state before and its
new history byte (lines 961-969). -/
def latch (state hist : Nat) : Nat :=
  if state = BTN_STATE_DOWN ∧ hist = 0x00 then BTN_STATE_UP
  else if state = BTN_STATE_UP ∧ hist = 0xFF then BTN_STATE_DOWN
  else state

end AlienAdvance

namespace AlienAdvance

/-- The sprite `init_sprite` leaves behind: the given position, no velocity,
visible. -/
def init_sprite (x y : ℚ) : Sprite := { x := x, y := y, dx := 0, dy := 0, is_visible := 1 }

/-- The globals when `main` enters its loop: the initialisers of the C file
(zero where there is none) and the sprites set up by `init` (lines 261-279). -/
def powerOn : World :=
  { btn_hists := fun _ => 0
    btn_states := fun _ => 0
    btn_right_pressed := 0
    usb_left := 0
    usb_right := 0
    usb_up := 0
    usb_down := 0
    usb_shoot := 0
    GAME_STATE := -1
    mothership_battle := 0
    lives := 10
    score := 0
    countdown := 4
    time := 0
    last_clock := 0
    DT := 0
    light_timer := 0
    debug_timer := 1 / 2
    input_timer := 0
    first_input_time := 0
    player := init_sprite 39 28
    enemies := fun _ => init_sprite 0 0
    enemy_timers := fun _ => 0
    enemies_alive := NUM_ENEMIES
    mothership := init_sprite 0 0
    mother_missile := init_sprite 0 0
    mother_health := MOTHER_MAX_HEALTH
    mother_move_timer := 0
    mother_shoot_timer := 0
    missiles := fun _ => init_sprite 0 0
    rand_calls := 0
    log := [] }

/-- Input registers with every button line high. -/
def pinsAllHigh : Pins := { PINB := 0xFF, PIND := 0xFF, PINF := 0xFF }

/-- Input registers with every button line low. -/
def pinsAllLow : Pins := { PINB := 0, PIND := 0, PINF := 0 }

end AlienAdvance

namespace AlienAdvance

/-- The world with the part that `reset_enemies` writes blanked out: the
enemy sprites, their timers, the live count and the count of `rand` calls. -/
def hideEnemies (w : World) : World :=
  { w with
    enemies := fun _ => init_sprite 0 0
    enemy_timers := fun _ => 0
    enemies_alive := 0
    rand_calls := 0 }

/-- The world with the part that the switch to the mothership battle writes
blanked out. -/
def hideBoss (w : World) : World :=
  { w with
    mothership_battle := 0
    mothership := init_sprite 0 0
    mother_move_timer := 0
    mother_shoot_timer := 0
    mother_health := 0
    rand_calls := 0 }

/-- The world with everything the missile loop may write blanked out: the
missile slots, the enemy field, the mothership, its missile, score, log and
the count of `rand` calls. -/
def hideMissileStep (w : World) : World :=
  { hideBoss (hideEnemies w) with
    missiles := fun _ => init_sprite 0 0
    mother_missile := init_sprite 0 0
    score := 0
    log := [] }

/-- The world with everything the two phase branches and the player movement
may write blanked out: the player, the enemies and their timers, the
mothership, its timers and its missile, lives, log, `GAME_STATE`, the light
timer and the count of `rand` calls. -/
def hidePhase (w : World) : World :=
  { w with
    player := init_sprite 0 0
    enemies := fun _ => init_sprite 0 0
    enemy_timers := fun _ => 0
    mothership := init_sprite 0 0
    mother_move_timer := 0
    mother_shoot_timer := 0
    mother_missile := init_sprite 0 0
    lives := 0
    log := []
    GAME_STATE := 0
    light_timer := 0
    rand_calls := 0 }

/-- The world with everything the top of a gameplay frame may write blanked
out: the round time, the debug timer, the log and the five serial flags. -/
def hideEntry (w : World) : World :=
  { w with
    time := 0
    debug_timer := 0
    log := []
    usb_left := 0
    usb_right := 0
    usb_up := 0
    usb_down := 0
    usb_shoot := 0 }

/-- The slots that were free before and hold a missile after. -/
def firedSlots (w w' : World) : List Nat :=
  (List.range NUM_MISSILES).filter
    (fun i => decide ((w.missiles i).is_visible = 0 ∧ (w'.missiles i).is_visible ≠ 0))

/-- The slots that are free. -/
def freeSlots (w : World) : List Nat :=
  (List.range NUM_MISSILES).filter (fun i => decide ((w.missiles i).is_visible = 0))

end AlienAdvance

namespace AlienAdvance

/-- What the processor does next: the debounce interrupt with the registers
as they are, or one iteration of the main loop. -/
inductive Event where
  | tick (p : Pins)
  | iteration (inp : Input)

/-- One event. -/
def step (env : Env) (fuel : Nat) (e : Event) (w : World) : Option World :=
  match e with
  | Event.tick p => some (ISR_TIMER0_COMPA p w)
  | Event.iteration inp => mainIteration env fuel inp w

/-- An interleaving of debounce ticks and main-loop iterations, in order. -/
def run (env : Env) (fuel : Nat) : List Event → World → Option World
  | [], w => some w
  | e :: es, w => (step env fuel e w).bind (run env fuel es)

/-- A C library for the examples: `rand` steps through its range, angle 0 is
the only angle asked for (`atan2` of a point on the positive x axis, and the
converter reading 0), and `cos 0 = 1`, `sin 0 = 0`. -/
def demoEnv : Env :=
  { cos := fun _ => 1
    sin := fun _ => 0
    atan2 := fun _ _ => 0
    rand := fun k => (k * 4001) % 32768
    RAND_MAX := 32767 }

/-- The input of an iteration at counter reading `t` with the serial channel
ready, the converter at 0 and the characters `cs` pending. -/
def inputAt (t : Nat) (cs : List Int) : Input :=
  { usb_ready := true, tcnt1_dt := t, tcnt1_last := t, tcnt1_init := t, adc := 0, usb := cs }

/-- An iteration with the input `inputAt t cs`. -/
def iterAt (t : Nat) (cs : List Int) : Event := Event.iteration (inputAt t cs)

/-- Registers with only the left button (PF6) high. -/
def pinsLeft : Pins := { PINB := 0, PIND := 0, PINF := 0x40 }

/-- Registers with only the right button, the fire button (PF5), high. -/
def pinsFire : Pins := { PINB := 0, PIND := 0, PINF := 0x20 }

/-- The number of missile slots in flight. -/
def missilesInFlight (w : World) : Nat :=
  ((List.range NUM_MISSILES).filter (fun i => decide ((w.missiles i).is_visible ≠ 0))).length

/-- From power-on to the first gameplay frame: the channel gets ready, the
left button is pressed and released, the intro hands over, the countdown runs
and the round is initialised. -/
def startRound : List Event :=
  [iterAt 0 []] ++ List.replicate 8 (Event.tick pinsLeft) ++ [iterAt 100 []] ++
    List.replicate 8 (Event.tick pinsAllLow) ++
    [iterAt 200 [], iterAt 300 [], iterAt 400 [], iterAt 500 []]

/-- Five frames that each fire one missile over the serial channel. -/
def fillPool : List Event :=
  [iterAt 600 [32], iterAt 700 [32], iterAt 800 [32], iterAt 900 [32], iterAt 1000 [32]]

/-- One press of the fire button: eight ticks with the line high. -/
def pressFire : List Event := List.replicate 8 (Event.tick pinsFire)

/-- The release of the fire button: eight ticks with the line low. -/
def releaseFire : List Event := List.replicate 8 (Event.tick pinsAllLow)

end AlienAdvance

namespace AlienAdvance

/-- A world together with two counts kept along a run: the changes of the
fire button from Up to Down, and the missile slots activated. -/
structure Tally where
  world : World
  presses : Nat
  fired : Nat

/-- One event, with the two counts brought up to date. -/
def tallyStep (env : Env) (fuel : Nat) (e : Event) (t : Tally) : Option Tally :=
  match e with
  | Event.tick p =>
    some
      { world := ISR_TIMER0_COMPA p t.world
        presses := t.presses +
          (if t.world.btn_states BTN_RIGHT = BTN_STATE_UP ∧
              (ISR_TIMER0_COMPA p t.world).btn_states BTN_RIGHT = BTN_STATE_DOWN then 1 else 0)
        fired := t.fired }
  | Event.iteration inp =>
    (mainIteration env fuel inp t.world).map (fun w' =>
      { world := w'
        presses := t.presses
        fired := t.fired + (firedSlots t.world w').length })

/-- A run with the two counts. -/
def tally (env : Env) (fuel : Nat) : List Event → Tally → Option Tally
  | [], t => some t
  | e :: es, t => (tallyStep env fuel e t).bind (tally env fuel es)

/-- The world the example run `es` reaches from power-on. -/
def afterRun (es : List Event) : World := (run demoEnv 10 es powerOn).getD powerOn

/-- The input of an example frame: nothing pending on the serial channel,
the converter at 0. -/
def quietInput : Input :=
  { usb_ready := true, tcnt1_dt := 0, tcnt1_last := 0, tcnt1_init := 0, adc := 0, usb := [] }

end AlienAdvance

namespace AlienAdvance

/-- The world with the missile slots blanked out. -/
def hideMissiles (w : World) : World := { w with missiles := fun _ => init_sprite 0 0 }

/-- The world with what the top of an iteration writes blanked out: the delta
time, the clock reading, the seed timer and the light timer. -/
def hideStart (w : World) : World :=
  { w with DT := 0, last_clock := 0, first_input_time := 0, light_timer := 0 }

/-- The events from power-on up to the Countdown state with value `2`. -/
def countdownAtTwo : List Event :=
  [iterAt 0 []] ++ List.replicate 8 (Event.tick pinsLeft) ++
    [iterAt 100 [], iterAt 200 [], iterAt 300 []]

end AlienAdvance

namespace AlienAdvance

/-- The debug line of an enemy kill. -/
def isKill : DebugMsg → Bool
  | DebugMsg.playerKilledAlien => true
  | _ => false

/-- The debug line of a mothership kill. -/
def isBossKill : DebugMsg → Bool
  | DebugMsg.playerDestroyedMothership => true
  | _ => false

/-- The debug lines of a hit of the player. -/
def isHit : DebugMsg → Bool
  | DebugMsg.alienKilledPlayer => true
  | DebugMsg.mothershipDestroyedPlayer => true
  | _ => false

/-- The enemy kills a piece of log records. -/
def killsLogged (l : List DebugMsg) : Nat := l.countP isKill

/-- The mothership kills a piece of log records. -/
def bossKillsLogged (l : List DebugMsg) : Nat := l.countP isBossKill

/-- The hits of the player a piece of log records. -/
def hitsLogged (l : List DebugMsg) : Nat := l.countP isHit

/-- The number of enemies whose visibility flag is set. -/
def visibleCount (w : World) : Nat :=
  (List.range NUM_ENEMIES).countP (fun i => decide ((w.enemies i).is_visible ≠ 0))

/-- The books of a stretch of execution from `w0` to `w`: the log has grown
by `new`, the score by one for each enemy kill and ten for each mothership
kill in `new`, and lives have dropped by one for each hit in `new`, both in
the arithmetic of their C types (`unsigned int` of 16 bits, `unsigned char`). -/
def Acct (w0 w : World) : Prop :=
  ∃ new : List DebugMsg, w.log = w0.log ++ new ∧
    w.score % 65536 = (w0.score + killsLogged new + 10 * bossKillsLogged new) % 65536 ∧
    (w.lives + hitsLogged new) % 256 = w0.lives % 256 ∧
    (w0.score < 65536 → w.score < 65536)

end AlienAdvance

namespace AlienAdvance

/-- The draws of the example `rowEnv`: six enemies at (30,20), (30,27),
(60,9), (60,30), (70,20), (45,38), each with a think timer of 4, the player
at (23,20), three respawns at (23,20), one at (23,24), one at (23,20). -/
def rowDraws : List Nat :=
  [12341, 10923, 32767, 12341, 17873, 32767, 25108, 0, 32767, 25108, 20852, 32767,
   29363, 10923, 32767, 18724, 28796, 32767,
   9362, 10923, 9362, 10923, 9362, 10923, 9362, 10923, 9362, 14895, 9362, 10923]

/-- A C library whose `rand` returns `rowDraws` and then 0. -/
def rowEnv : Env := { demoEnv with rand := fun k => rowDraws.getD k 0 }

/-- The player walks right into enemy 0 (a frame of 0.2 s with `d` pending)
and the contact is registered (a frame of 0.1 s), the pair starting at
counter reading `t`. -/
def walkIntoEnemy (t : Nat) : List Event := [iterAt (t + 1562) [100], iterAt (t + 2343) []]

/-- From power-on: the round starts and the player walks into enemy 0 four
times, each time respawning left of it, the last time level with the gap
between enemies 0 and 1; then it walks right once more. -/
def fourHitsThenStep : List Event :=
  startRound ++ walkIntoEnemy 500 ++ walkIntoEnemy 2843 ++ walkIntoEnemy 5186 ++
    walkIntoEnemy 7529 ++ [iterAt 11434 [100]]

/-- The events from power-on to the frame before a missile reaches enemy 1:
the round starts, the player steps down, fires to the right, and the missile
flies for one frame. -/
def missileNearEnemy : List Event :=
  startRound ++ [iterAt 4406 [115], iterAt 8312 [32], iterAt 12218 []]

/-- The part of the log of `w'` written after `w`. -/
def logSince (w w' : World) : List DebugMsg := w'.log.drop w.log.length

end AlienAdvance

namespace AlienAdvance

/-- The state right after the switch to the mothership battle, and as long as
the mothership has only been hit since: the flag is set, no enemy is visible
or counted, the mothership is visible and at rest, its health is at most the
maximum, and its two timers lie in [2, 4] when `rand` stays within
`RAND_MAX`. -/
def BossFresh (env : Env) (w : World) : Prop :=
  w.mothership_battle = 1 ∧ w.enemies_alive = 0 ∧
  (∀ j, j < NUM_ENEMIES → (w.enemies j).is_visible = 0) ∧
  w.mothership.is_visible = 1 ∧ w.mothership.dx = 0 ∧ w.mothership.dy = 0 ∧
  w.mother_health ≤ MOTHER_MAX_HEALTH ∧
  ((∀ k, env.rand k ≤ env.RAND_MAX) →
    2 ≤ w.mother_move_timer ∧ w.mother_move_timer ≤ 4 ∧
    2 ≤ w.mother_shoot_timer ∧ w.mother_shoot_timer ≤ 4)

/-- Normal phase with the live count in step with the visible enemies and
with the kills logged since `w0`. -/
def NormalCounted (w0 w : World) : Prop :=
  w.mothership_battle = 0 ∧ w.enemies_alive = visibleCount w ∧
  killsLogged w0.log ≤ killsLogged w.log ∧
  killsLogged w.log + w.enemies_alive = killsLogged w0.log + w0.enemies_alive ∧
  (killsLogged w0.log < killsLogged w.log → 1 ≤ w.enemies_alive)

/-- The invariant of the missile loop of a frame that entered it at `w0` in
normal phase, with `n` rounds of the loop still to run: either the phase is
still normal and the counts agree, or the last enemy has been killed in this
frame and the mothership has at least `11 + n` health. -/
def MissileInv (env : Env) (w0 : World) (n : Nat) (w : World) : Prop :=
  NormalCounted w0 w ∨
  (BossFresh env w ∧ killsLogged w.log = killsLogged w0.log + w0.enemies_alive ∧
    1 ≤ w0.enemies_alive ∧ 11 + n ≤ w.mother_health)

end AlienAdvance

namespace AlienAdvance

/-- The world of the example run in which a missile is about to reach enemy 1,
with enemy 1 the only enemy left. -/
def lastEnemyWorld : World :=
  { afterRun missileNearEnemy with
    enemies := fun j =>
      if j = 1 then (afterRun missileNearEnemy).enemies 1
      else { (afterRun missileNearEnemy).enemies j with is_visible := 0 }
    enemies_alive := 1 }

/-- The same world with a second missile in flight in slot 1, at (46, 32) and
flying right. -/
def lastEnemyTwoMissiles : World :=
  { lastEnemyWorld with
    missiles := setAt lastEnemyWorld.missiles 1
      { x := 46, y := 32, dx := 10, dy := 0, is_visible := 1 } }

end AlienAdvance

namespace AlienAdvance

/-- The library `demoEnv` with the draws 22 and 23 changed to 5000, which
makes the first candidate of the mothership search (11, 12). -/
def stuckEnv : Env :=
  { demoEnv with rand := fun k => if k = 22 ∨ k = 23 then 5000 else demoEnv.rand k }

/-- The world in which the switch to the mothership battle is made in the
frame that starts at `lastEnemyWorld`: the enemy branch and the player
movement have run, missile 0 has moved onto enemy 1 and killed it. -/
def lastKillWorld : World :=
  killEnemy 0 1 (advanceMissile 0 (playerStep
    ((enemiesPhase demoEnv 10 (frameEntry quietInput lastEnemyWorld)).getD powerOn)))

/-- The boss phase the example run enters from `lastEnemyWorld`, with the
mothership at (49, 30), brought down to health 1, and with missile 1 moved
onto the mothership, at (51, 32). -/
def bossOneHealth : World :=
  { (gameplayFrame demoEnv 10 quietInput lastEnemyWorld).getD powerOn with
    mother_health := 1
    missiles := fun j =>
      if j = 1 then { x := 51, y := 32, dx := 10, dy := 0, is_visible := 1 }
      else ((gameplayFrame demoEnv 10 quietInput lastEnemyWorld).getD powerOn).missiles j }

end AlienAdvance


/-! ## Definitions used to state the later properties -/

namespace AlienAdvance

/-- The enemies with index outside `rest` keep clear of each other's grown
boxes. -/
def PlacedApart (rest : List Nat) (w : World) : Prop :=
  ∀ a b, a < NUM_ENEMIES → b < NUM_ENEMIES → a ∉ rest → b ∉ rest → a ≠ b →
    ¬ overlaps (w.enemies a).x (w.enemies a).y EWIDTH EHEIGHT
      ((w.enemies b).x - 2) ((w.enemies b).y - 2) ((EWIDTH : ℚ) + 4) ((EHEIGHT : ℚ) + 4)

end AlienAdvance

namespace AlienAdvance

/-- An example world for the clamps: the example round with the think timer of
enemy 0 and the move timer of the mothership expired, enemy 0 dashing left
from (1, 13), the mothership dashing down and right from (70, 34), `a` and `w`
pending on the serial channel, and a frame of half a second. -/
def clampDemo : World :=
  { afterRun startRound with
    enemy_timers := fun _ => 0
    enemies := setAt (afterRun startRound).enemies 0
      { x := 1, y := 13, dx := -4, dy := 0, is_visible := 1 }
    mother_move_timer := 0
    mothership := { x := 70, y := 34, dx := 2, dy := 2, is_visible := 1 }
    usb_left := 1
    usb_up := 1
    DT := 1 / 2 }

end AlienAdvance

namespace AlienAdvance

/-- The delta times of the iterations of a run, added up. -/
def elapsed (env : Env) (fuel : Nat) : List Event → World → ℚ
  | [], _ => 0
  | Event.tick p :: es, w => elapsed env fuel es (ISR_TIMER0_COMPA p w)
  | Event.iteration inp :: es, w =>
    (frameStart inp w).DT +
      (match mainIteration env fuel inp w with
        | some w1 => elapsed env fuel es w1
        | none => 0)

/-- The state is Intro before every event of the run and after the last. -/
def staysIntro (env : Env) (fuel : Nat) : List Event → World → Bool
  | [], w => decide (w.GAME_STATE = 0)
  | e :: es, w =>
    decide (w.GAME_STATE = 0) &&
      (match step env fuel e w with
        | some w1 => staysIntro env fuel es w1
        | none => true)

/-- Every reading of the counter in the run fits its 16 bits. -/
def sixteenBit (es : List Event) : Bool :=
  es.all (fun e =>
    match e with
    | Event.tick _ => true
    | Event.iteration inp => decide (inp.tcnt1_dt < 65536 ∧ inp.tcnt1_last < 65536))

/-- The example run with `rowEnv` after its last frame, which ended the game,
and a press of the left button. -/
def gameOverWorld : World :=
  (run rowEnv 10 (fourHitsThenStep ++ [iterAt 12215 []] ++
    List.replicate 8 (Event.tick pinsLeft)) powerOn).getD powerOn

end AlienAdvance

namespace AlienAdvance

/-- The world at line 632 of a boss frame: the mothership has moved, its
contact with the player has been dealt with and its shoot timer has run. -/
def atMotherMissile (env : Env) (fuel : Nat) (w : World) : Option World :=
  (mothershipContact env fuel (mothershipMove env w).2 (mothershipMove env w).1).map
    (mothershipShoot env)

/-- The test of line 637 on the missile of the mothership: it has left the
playfield. -/
def outOfField (m : Sprite) : Prop :=
  m.x < 1 ∨ m.x > ((83 - MWIDTH : Nat) : ℚ) ∨ m.y < 9 ∨ m.y > ((47 - MHEIGHT : Nat) : ℚ)

instance (m : Sprite) : Decidable (outOfField m) :=
  inferInstanceAs (Decidable (_ ∨ _ ∨ _ ∨ _))

/-- The `continue` of line 640 is reached: the frame is a boss frame, the
missile of the mothership is in flight at line 632 and its move takes it out
of the playfield. -/
def cutShort (env : Env) (fuel : Nat) (inp : Input) (w : World) : Bool :=
  decide ((frameEntry inp w).mothership_battle ≠ 0) &&
    (match atMotherMissile env fuel (frameEntry inp w) with
      | some v => decide (v.mother_missile.is_visible ≠ 0 ∧ outOfField (movedMotherMissile v))
      | none => false)

/-- The boss phase the example run enters from `lastEnemyWorld`, with the
missile of the mothership in flight at (80, 20), flying right, and the fire
flag latched. -/
def cutShortDemo : World :=
  { (gameplayFrame demoEnv 10 quietInput lastEnemyWorld).getD powerOn with
    mother_missile := { x := 80, y := 20, dx := 10, dy := 0, is_visible := 1 }
    btn_right_pressed := 1 }

/-- The input of a frame with a space pending on the serial channel. -/
def spaceInput : Input := { quietInput with usb := [32] }

end AlienAdvance

namespace AlienAdvance

/-- A world whose clock of the iteration before was read at the top of the
counter, 65535. -/
def clockAtTop : World := { powerOn with last_clock := get_system_clock 65535 }

end AlienAdvance

namespace AlienAdvance

/-- The example run with `rowEnv` after two frames of the round: the player
has fired at enemy 0, at (30, 20), and has killed it, and has stepped right
and down into enemy 1. -/
def respawnWorld : World :=
  (run rowEnv 10 (startRound ++ [iterAt 2062 [32], iterAt 3624 [100, 115]]) powerOn).getD
    powerOn

/-- The same world with the dead enemy 0 lying at (26, 20) instead. -/
def respawnWorldMoved : World :=
  { respawnWorld with
    enemies := setAt respawnWorld.enemies 0 { respawnWorld.enemies 0 with x := 26 } }

end AlienAdvance

namespace AlienAdvance

/-- The live count is in step: `enemies_alive` is the number of enemies whose
visibility flag is set, and it is 0 when the flag of the mothership battle is
set. -/
def LiveCountInStep (w : World) : Prop :=
  w.enemies_alive = visibleCount w ∧ (w.mothership_battle ≠ 0 → w.enemies_alive = 0)

instance (w : World) : Decidable (LiveCountInStep w) :=
  inferInstanceAs (Decidable (_ ∧ _))

end AlienAdvance

namespace AlienAdvance

/-- The input of a frame with `d` and a space pending on the serial channel:
a step to the right and a shot are asked for. -/
def moveFireInput : Input := { quietInput with usb := [100, 32] }

end AlienAdvance


/-! ## Frames whose search does not return

The three searches for a free position (`find_empty_position` for the player
and for an enemy, and the inline search for the mothership) are `while (1)`
loops.  The definitions above give `none` when a search has not returned
after `fuel` rounds.  The definitions below follow the same source lines and
keep, in that case, the globals as they are when the search is entered; the
count of `rand` calls, which the search goes on raising, is the one at its
entry. -/

namespace AlienAdvance

/-- What a stretch of the main loop comes to: it is done, with a result, or
one of its searches spins, in the world given. -/
inductive Outcome (α : Type) where
  | done (a : α) : Outcome α
  | spins (w : World) : Outcome α

/-- The result, when there is one. -/
def Outcome.returned {α : Type} : Outcome α → Option α
  | Outcome.done a => some a
  | Outcome.spins _ => none

/-- The result changed by `f`. -/
def Outcome.map {α β : Type} (f : α → β) : Outcome α → Outcome β
  | Outcome.done a => Outcome.done (f a)
  | Outcome.spins w => Outcome.spins w

/-- The stretch followed by `f`. -/
def Outcome.bind {α β : Type} (o : Outcome α) (f : α → Outcome β) : Outcome β :=
  match o with
  | Outcome.done a => f a
  | Outcome.spins w => Outcome.spins w

/-- The globals the stretch ends with: those of its result, or those of the
search that spins. -/
def Outcome.world : Outcome World → World
  | Outcome.done w => w
  | Outcome.spins w => w

/-- The property `P` of the result, or `Q` of the world of the search that
spins. -/
def Outcome.holds {α : Type} (P : α → Prop) (Q : World → Prop) : Outcome α → Prop
  | Outcome.done a => P a
  | Outcome.spins w => Q w

/-- A loop `for (i = ...)` whose body may hold a search. -/
def forMOutcome {σ : Type} (body : Nat → σ → Outcome σ) : List Nat → σ → Outcome σ
  | [], s => Outcome.done s
  | i :: l, s => (body i s).bind (forMOutcome body l)

/-- The placement of enemy `i` (lines 349-358). -/
def placeEnemyOutcome (env : Env) (fuel check_player i : Nat) (w : World) : Outcome World :=
  match find_empty_position env w EWIDTH EHEIGHT check_player fuel w.rand_calls with
  | none => Outcome.spins w
  | some (x, y, k) =>
    Outcome.done { w with
      enemies := setAt w.enemies i { w.enemies i with x := x, y := y, is_visible := 1 }
      enemy_timers := setAt w.enemy_timers i (2 + 2 * randFrac env k)
      rand_calls := k + 1 }

/-- The function `reset_enemies` (lines 338-360). -/
def reset_enemiesOutcome (env : Env) (fuel check_player : Nat) (w : World) : Outcome World :=
  (forMOutcome (placeEnemyOutcome env fuel check_player) (List.range NUM_ENEMIES)
    (enemiesToOrigin w)).map (fun w1 => { w1 with enemies_alive := NUM_ENEMIES })

/-- A hit of the player (lines 590-610, 644-664, 718-738). -/
def playerHitOutcome (env : Env) (fuel : Nat) (msg : DebugMsg) (w : World) : Outcome World :=
  if (loseLife msg w).lives ≤ 0 then Outcome.done { loseLife msg w with GAME_STATE := 3 }
  else
    match find_empty_position env (loseLife msg w) PWIDTH PHEIGHT 0 fuel
        (loseLife msg w).rand_calls with
    | none => Outcome.spins (loseLife msg w)
    | some (x, y, k) => Outcome.done (respawnPlayer x y k (loseLife msg w))

/-- Contact of the mothership with the player and the end of its path
(lines 588-615). -/
def mothershipContactOutcome (env : Env) (fuel : Nat) (end_path : Nat) (w : World) :
    Outcome World :=
  let hit := (if overlaps w.mothership.x w.mothership.y MSWIDTH MSHEIGHT
        w.player.x w.player.y PWIDTH PHEIGHT then
      (playerHitOutcome env fuel DebugMsg.mothershipDestroyedPlayer w).map
        (fun w1 => (w1, if w.mother_move_timer ≤ 0 then 1 else end_path))
    else Outcome.done (w, end_path))
  hit.map (fun r => if r.2 ≠ 0 then stopMothership env r.1 else r.1)

/-- The missile of the mothership (lines 632-666). -/
def motherMissileStepOutcome (env : Env) (fuel : Nat) (w : World) : Outcome (World × Bool) :=
  if w.mother_missile.is_visible ≠ 0 then
    if (movedMotherMissile w).x < 1 ∨ (movedMotherMissile w).x > ((83 - MWIDTH : Nat) : ℚ) ∨
        (movedMotherMissile w).y < 9 ∨ (movedMotherMissile w).y > ((47 - MHEIGHT : Nat) : ℚ) then
      Outcome.done (dropMotherMissile w, true)
    else if overlaps (movedMotherMissile w).x (movedMotherMissile w).y MWIDTH MHEIGHT
        w.player.x w.player.y PWIDTH PHEIGHT then
      (playerHitOutcome env fuel DebugMsg.mothershipDestroyedPlayer (dropMotherMissile w)).map
        (fun w1 => (w1, false))
    else Outcome.done (advanceMotherMissile w, false)
  else Outcome.done (w, false)

/-- The boss branch of a gameplay frame (lines 537-666). -/
def mothershipPhaseOutcome (env : Env) (fuel : Nat) (w : World) : Outcome (World × Bool) :=
  let r := mothershipMove env w
  (mothershipContactOutcome env fuel r.2 r.1).bind
    (fun w1 => motherMissileStepOutcome env fuel (mothershipShoot env w1))

/-- Contact of enemy `i` with the player and the end of its path
(lines 716-743). -/
def enemyContactOutcome (env : Env) (fuel : Nat) (i end_path : Nat) (w : World) :
    Outcome World :=
  let hit := (if overlaps (w.enemies i).x (w.enemies i).y EWIDTH EHEIGHT
        w.player.x w.player.y PWIDTH PHEIGHT then
      (playerHitOutcome env fuel DebugMsg.alienKilledPlayer w).map
        (fun w1 => (w1, if w.enemy_timers i ≤ 0 then 1 else end_path))
    else Outcome.done (w, end_path))
  hit.map (fun r => if r.2 ≠ 0 then stopEnemy env i r.1 else r.1)

/-- The body of the enemy loop (lines 674-745). -/
def enemyStepOutcome (env : Env) (fuel : Nat) (i : Nat) (w : World) : Outcome World :=
  if (w.enemies i).is_visible = 0 then Outcome.done w
  else
    let r := enemyMove env i w
    enemyContactOutcome env fuel i r.2 r.1

/-- The normal branch of a gameplay frame (lines 672-746). -/
def enemiesPhaseOutcome (env : Env) (fuel : Nat) (w : World) : Outcome World :=
  forMOutcome (enemyStepOutcome env fuel) (List.range NUM_ENEMIES) w

/-- The switch to the mothership battle (lines 848-874): the assignments of
lines 848-854 are made before the search of lines 856-871 is entered. -/
def enterBossOutcome (env : Env) (fuel : Nat) (w : World) : Outcome World :=
  match motherSearch env (bossSetup env w) fuel 1 (bossSetup env w).rand_calls with
  | none => Outcome.spins (bossSetup env w)
  | some (x, y, k) => Outcome.done (placeMothership x y k (bossSetup env w))

/-- The body of the loop over the enemies for missile `i` (lines 831-876). -/
def missileEnemyOutcome (env : Env) (fuel : Nat) (i j : Nat) (w : World) : Outcome World :=
  if (w.enemies j).is_visible = 0 then Outcome.done w
  else if overlaps (w.missiles i).x (w.missiles i).y MWIDTH MHEIGHT
      (w.enemies j).x (w.enemies j).y EWIDTH EHEIGHT then
    if (killEnemy i j w).enemies_alive ≤ 0 then enterBossOutcome env fuel (killEnemy i j w)
    else Outcome.done (killEnemy i j w)
  else Outcome.done w

/-- Missile `i` against the mothership (lines 809-825). -/
def missileMothershipOutcome (env : Env) (fuel : Nat) (i : Nat) (w : World) : Outcome World :=
  if overlaps (w.missiles i).x (w.missiles i).y MWIDTH MHEIGHT
      w.mothership.x w.mothership.y MSWIDTH MSHEIGHT then
    if (hitMothership i w).mother_health ≤ 0 then
      (reset_enemiesOutcome env fuel 1 (bossDefeated (hitMothership i w))).map
        clearMotherMissile
    else Outcome.done (hitMothership i w)
  else Outcome.done w

/-- The body of the missile loop (lines 795-888); the state is the world and
the local variable `fire_missile`. -/
def missileStepOutcome (env : Env) (fuel : Nat) (angle : ℚ) (i : Nat) (s : World × Nat) :
    Outcome (World × Nat) :=
  if (s.1.missiles i).is_visible ≠ 0 then
    if (movedMissile i s.1).x < 1 ∨ (movedMissile i s.1).x > ((83 - MWIDTH : Nat) : ℚ) ∨
        (movedMissile i s.1).y < 9 ∨ (movedMissile i s.1).y > ((47 - MHEIGHT : Nat) : ℚ) then
      Outcome.done (dropMissile i s.1, s.2)
    else if (advanceMissile i s.1).mothership_battle ≠ 0 then
      (missileMothershipOutcome env fuel i (advanceMissile i s.1)).map (fun w2 => (w2, s.2))
    else
      (forMOutcome (missileEnemyOutcome env fuel i) (List.range NUM_ENEMIES)
        (advanceMissile i s.1)).map (fun w2 => (w2, s.2))
  else if s.2 ≠ 0 then Outcome.done (spawnMissile env angle i s.1, 0)
  else Outcome.done s

/-- The missile part of a gameplay frame (lines 785-889). -/
def missilesPhaseOutcome (env : Env) (fuel : Nat) (angle : ℚ) (w : World) : Outcome World :=
  let s : World × Nat :=
    if w.btn_right_pressed ≠ 0 ∨ w.usb_shoot ≠ 0 then ({ w with btn_right_pressed := 0 }, 1)
    else (w, 0)
  (forMOutcome (missileStepOutcome env fuel angle) (List.range NUM_MISSILES) s).map
    (fun r => r.1)

/-- One gameplay frame, the branch `GAME_STATE == 2` (lines 484-894). -/
def gameplayFrameOutcome (env : Env) (fuel : Nat) (inp : Input) (w : World) : Outcome World :=
  if (frameEntry inp w).mothership_battle ≠ 0 then
    (mothershipPhaseOutcome env fuel (frameEntry inp w)).bind (fun r =>
      if r.2 then Outcome.done r.1
      else missilesPhaseOutcome env fuel (get_shooting_angle inp.adc) (playerStep r.1))
  else
    (enemiesPhaseOutcome env fuel (frameEntry inp w)).bind (fun w2 =>
      missilesPhaseOutcome env fuel (get_shooting_angle inp.adc) (playerStep w2))

end AlienAdvance

namespace AlienAdvance

/-- The kills and the visible enemies are tied from `w0` to `w`: the enemy
kills logged and the enemies visible, taken together, have changed by six for
each mothership kill logged. -/
def KillsTied (w0 w : World) : Prop :=
  killsLogged w.log + visibleCount w + 6 * bossKillsLogged w0.log =
    killsLogged w0.log + visibleCount w0 + 6 * bossKillsLogged w.log

/-- The world `lastEnemyWorld` with the score the five kills before it have
made: one enemy alive, score 5. -/
def lastEnemyAtFive : World := { lastEnemyWorld with score := 5 }

/-- The boss phase the example run enters from `lastEnemyWorld`, with the
mothership at (49, 30), brought down to health 1, a missile in slot 1 at
(46, 32) flying right, and the score at 65526: no enemy is alive, and the
mothership has been destroyed 4095 times since the round began. -/
def bossAtTopScore : World :=
  { (gameplayFrame demoEnv 10 quietInput lastEnemyWorld).getD powerOn with
    score := 65526
    mother_health := 1
    missiles := setAt ((gameplayFrame demoEnv 10 quietInput lastEnemyWorld).getD powerOn).missiles
      1 { x := 46, y := 32, dx := 10, dy := 0, is_visible := 1 } }

end AlienAdvance

namespace AlienAdvance

/-- From `w` to `u` nothing was killed: the flag of the mothership battle, the
live count and the visibility of every enemy are the same, and the log has
grown by lines that record no kill. -/
def Quiet (w u : World) : Prop :=
  u.mothership_battle = w.mothership_battle ∧ u.enemies_alive = w.enemies_alive ∧
  (∀ k, (u.enemies k).is_visible = (w.enemies k).is_visible) ∧
  ∃ new : List DebugMsg, u.log = w.log ++ new ∧ killsLogged new = 0 ∧ bossKillsLogged new = 0

/-- The search of the switch to the mothership battle spins at `v`, in a
missile part entered at `w0`: the flag is set at `v`, no enemy is alive, and
the kills logged since `w0` are the enemies alive at `w0`, at least one. -/
def SwitchSpins (w0 v : World) : Prop :=
  v.mothership_battle = 1 ∧ v.enemies_alive = 0 ∧
  killsLogged v.log = killsLogged w0.log + w0.enemies_alive ∧
  1 ≤ w0.enemies_alive ∧ ∃ new : List DebugMsg, v.log = w0.log ++ new

end AlienAdvance

namespace AlienAdvance

/-- The world at line 833 of the frame of the example run in which missile 0
reaches enemy 1: the enemy branch and the player movement have run and the
missile has moved, to about (30, 27), onto the enemy at (29, 25). -/
def missileOnEnemy : World :=
  advanceMissile 0 (playerStep
    ((enemiesPhase demoEnv 10 (frameEntry quietInput (afterRun missileNearEnemy))).getD powerOn))

/-- The boss phase the example run enters from `lastEnemyWorld`, with the
score at 6 (six kills made), the mothership at (49, 30), the player under it
at (50, 31), and the missile of the mothership in flight at (44, 32), flying
right: its next move takes it to about (49, 32), onto the player. -/
def playerUnderMothership : World :=
  { (gameplayFrame demoEnv 10 quietInput lastEnemyWorld).getD powerOn with
    score := 6
    player :=
      { ((gameplayFrame demoEnv 10 quietInput lastEnemyWorld).getD powerOn).player with
        x := 50, y := 31 }
    mother_missile := { x := 44, y := 32, dx := 10, dy := 0, is_visible := 1 } }

end AlienAdvance

namespace AlienAdvance

/-- The world `bossOneHealth` with the score at 6, the score of the first
boss phase of a round. -/
def bossAtSix : World := { bossOneHealth with score := 6 }

end AlienAdvance


/-! ## The debounce interrupt -/

namespace AlienAdvance

set_option maxRecDepth 100000 in
theorem SET_BIT_zero_table : ∀ a < 256, ∀ s < 2, SET_BIT a 0 s = a - a % 2 + s := by
  decide

theorem GET_BIT_lt (port pin : Nat) : GET_BIT port pin < 2 := by
  unfold GET_BIT
  have := @Nat.and_le_right (port >>> pin) 1
  omega

theorem rawSample_lt (p : Pins) (i : Nat) : rawSample p i < 2 := by
  unfold rawSample
  split <;> first | exact GET_BIT_lt _ _ | norm_num

theorem histPush_eq (h s : Nat) (hs : s < 2) : histPush h s = (2 * h + s) % 256 := by
  unfold histPush
  rw [SET_BIT_zero_table _ (Nat.mod_lt _ (by norm_num)) s hs, Nat.shiftLeft_eq]
  omega

theorem histPush_low_ones (k : Nat) (hk : k < 8) (h s : Nat) (hs : s < 2)
    (e : histPush h s % 2 ^ (k + 1) = 2 ^ (k + 1) - 1) : s = 1 ∧ h % 2 ^ k = 2 ^ k - 1 := by
  rw [histPush_eq h s hs] at e
  interval_cases k <;> norm_num at e ⊢ <;> omega

theorem histPush_low_zeros (k : Nat) (hk : k < 8) (h s : Nat) (hs : s < 2)
    (e : histPush h s % 2 ^ (k + 1) = 0) : s = 0 ∧ h % 2 ^ k = 0 := by
  rw [histPush_eq h s hs] at e
  interval_cases k <;> norm_num at e ⊢ <;> omega

theorem regR_low_ones (k : Nat) : ∀ rs : List Nat, k ≤ 8 → (∀ s ∈ rs, s < 2) →
    regR 0 rs % 2 ^ k = 2 ^ k - 1 → k ≤ rs.length ∧ ∀ s ∈ rs.take k, s = 1 := by
  induction k with
  | zero => intro rs _ _ _; simp
  | succ k ih =>
    intro rs hk hrs e
    cases rs with
    | nil =>
      exfalso
      have h2 : 2 ≤ 2 ^ (k + 1) := by
        calc 2 = 2 ^ 1 := by norm_num
          _ ≤ 2 ^ (k + 1) := Nat.pow_le_pow_right (by norm_num) (by omega)
      simp only [regR, Nat.zero_mod] at e
      omega
    | cons s t =>
      have hs : s < 2 := hrs s (List.mem_cons_self _ _)
      have ht : ∀ a ∈ t, a < 2 := fun a ha => hrs a (List.mem_cons_of_mem _ ha)
      obtain ⟨e1, e2⟩ := histPush_low_ones k (by omega) _ s hs e
      obtain ⟨l1, l2⟩ := ih t (by omega) ht e2
      refine ⟨by simp only [List.length_cons]; omega, ?_⟩
      intro a ha
      rw [List.take_succ_cons, List.mem_cons] at ha
      rcases ha with rfl | ha
      · exact e1
      · exact l2 a ha

theorem regR_low_zeros (h0 k : Nat) : ∀ rs : List Nat, k ≤ 8 → (∀ s ∈ rs, s < 2) →
    k ≤ rs.length → regR h0 rs % 2 ^ k = 0 → ∀ s ∈ rs.take k, s = 0 := by
  induction k with
  | zero => intro rs _ _ _ _; simp
  | succ k ih =>
    intro rs hk hrs hlen e
    cases rs with
    | nil => simp at hlen
    | cons s t =>
      have hs : s < 2 := hrs s (List.mem_cons_self _ _)
      have ht : ∀ a ∈ t, a < 2 := fun a ha => hrs a (List.mem_cons_of_mem _ ha)
      obtain ⟨e1, e2⟩ := histPush_low_zeros k (by omega) _ s hs e
      have l2 := ih t (by omega) ht (by simp only [List.length_cons] at hlen; omega) e2
      intro a ha
      rw [List.take_succ_cons, List.mem_cons] at ha
      rcases ha with rfl | ha
      · exact e1
      · exact l2 a ha

/-- The loop body for button `j` leaves the other buttons alone. -/
theorem isrButton_other (p : Pins) (j i : Nat) (w : World) (h : i ≠ j) :
    (isrButton p j w).btn_hists i = w.btn_hists i ∧
    (isrButton p j w).btn_states i = w.btn_states i := by
  unfold isrButton
  simp only
  split_ifs <;> simp [setAt, h]

/-- The loop body for button `i`: the new history byte and the new latched state. -/
theorem isrButton_self (p : Pins) (i : Nat) (w : World) :
    (isrButton p i w).btn_hists i = histPush (w.btn_hists i) (rawSample p i) ∧
    (isrButton p i w).btn_states i =
      latch (w.btn_states i) (histPush (w.btn_hists i) (rawSample p i)) := by
  unfold isrButton latch
  simp only
  split_ifs <;> simp_all [setAt]

/-- One tick, seen from button `i`. -/
theorem ISR_button (p : Pins) (w : World) (i : Nat) (hi : i < NUM_BUTTONS) :
    (ISR_TIMER0_COMPA p w).btn_hists i = histPush (w.btn_hists i) (rawSample p i) ∧
    (ISR_TIMER0_COMPA p w).btn_states i =
      latch (w.btn_states i) (histPush (w.btn_hists i) (rawSample p i)) := by
  have key : ∀ (l : List Nat) (v : World), l.Nodup →
      ((l.foldl (fun acc j => isrButton p j acc) v).btn_hists i =
          (if i ∈ l then histPush (v.btn_hists i) (rawSample p i) else v.btn_hists i)) ∧
      ((l.foldl (fun acc j => isrButton p j acc) v).btn_states i =
          (if i ∈ l then latch (v.btn_states i) (histPush (v.btn_hists i) (rawSample p i))
            else v.btn_states i)) := by
    intro l
    induction l with
    | nil => intro v _; simp
    | cons j t ih =>
      intro v hnd
      rw [List.nodup_cons] at hnd
      rw [List.foldl_cons]
      have := ih (isrButton p j v) hnd.2
      by_cases hij : i = j
      · subst hij
        have hs := isrButton_self p i v
        simp only [hnd.1, if_false, List.mem_cons, true_or, if_true] at this ⊢
        rw [this.1, this.2, hs.1, hs.2]
        exact ⟨rfl, rfl⟩
      · have ho := isrButton_other p j i v hij
        simp only [List.mem_cons, hij, false_or]
        rw [this.1, this.2, ho.1, ho.2]
        exact ⟨rfl, rfl⟩
  have hmem : i ∈ List.range NUM_BUTTONS := List.mem_range.mpr hi
  have := key (List.range NUM_BUTTONS) w (List.nodup_range _)
  simpa only [hmem, if_true] using this

theorem runTicks_snoc (ps : List Pins) (p : Pins) (w : World) :
    runTicks (ps ++ [p]) w = ISR_TIMER0_COMPA p (runTicks ps w) := by
  simp [runTicks, List.foldl_append]

theorem samplesOf_snoc (i : Nat) (ps : List Pins) (p : Pins) :
    samplesOf i (ps ++ [p]) = rawSample p i :: samplesOf i ps := by
  simp [samplesOf]

theorem samplesOf_lt (i : Nat) (ps : List Pins) : ∀ s ∈ samplesOf i ps, s < 2 := by
  intro s hs
  simp only [samplesOf, List.mem_map] at hs
  obtain ⟨q, -, rfl⟩ := hs
  exact rawSample_lt q i

theorem samplesOf_length (i : Nat) (ps : List Pins) : (samplesOf i ps).length = ps.length := by
  simp [samplesOf]

/-- The history byte of button `i` after a run of ticks. -/
theorem runTicks_hist (i : Nat) (hi : i < NUM_BUTTONS) (w0 : World) (ps : List Pins) :
    (runTicks ps w0).btn_hists i = regR (w0.btn_hists i) (samplesOf i ps) := by
  induction ps using List.reverseRecOn with
  | nil => simp [runTicks, samplesOf, regR]
  | append_singleton ps p ih =>
    rw [runTicks_snoc, samplesOf_snoc, (ISR_button p _ i hi).1, ih, regR]

theorem regR_lt (h0 : Nat) (rs : List Nat) (hne : rs ≠ []) (hrs : ∀ s ∈ rs, s < 2) :
    regR h0 rs < 256 := by
  cases rs with
  | nil => exact absurd rfl hne
  | cons s t =>
    rw [regR, histPush_eq _ _ (hrs s (List.mem_cons_self _ _))]
    exact Nat.mod_lt _ (by norm_num)

/-- From power-on (history 0, state Up) a button is Up or Down, and Down only
after eight ticks at least. -/
theorem runTicks_state (i : Nat) (hi : i < NUM_BUTTONS) (w0 : World)
    (h0 : w0.btn_hists i = 0) (s0 : w0.btn_states i = BTN_STATE_UP) (ps : List Pins) :
    ((runTicks ps w0).btn_states i = BTN_STATE_UP ∨
      (runTicks ps w0).btn_states i = BTN_STATE_DOWN) ∧
    ((runTicks ps w0).btn_states i = BTN_STATE_DOWN → 8 ≤ ps.length) := by
  induction ps using List.reverseRecOn with
  | nil =>
    have e : (runTicks [] w0).btn_states i = BTN_STATE_UP := s0
    rw [e]
    exact ⟨Or.inl rfl, fun h => by simp [BTN_STATE_UP, BTN_STATE_DOWN] at h⟩
  | append_singleton ps p ih =>
    rw [runTicks_snoc, (ISR_button p _ i hi).2]
    have hh := runTicks_hist i hi w0 ps
    rw [h0] at hh
    rw [hh]
    have hreg : histPush (regR 0 (samplesOf i ps)) (rawSample p i) =
        regR 0 (samplesOf i (ps ++ [p])) := by rw [samplesOf_snoc, regR]
    rw [hreg]
    unfold latch
    simp only [List.length_append, List.length_singleton]
    split_ifs with c1 c2
    · exact ⟨Or.inl rfl, fun h => by simp [BTN_STATE_UP, BTN_STATE_DOWN] at h⟩
    · refine ⟨Or.inr rfl, fun _ => ?_⟩
      have := (regR_low_ones 8 _ (le_refl _) (samplesOf_lt i _) (by rw [c2.2]; norm_num)).1
      rw [samplesOf_length] at this
      simpa using this
    · exact ⟨ih.1, fun h => by have := ih.2 h; omega⟩

end AlienAdvance


namespace AlienAdvance

/-- C1. Debounce, for every button `i` and every run of ticks `pre ++ [p]` fed
to the interrupt from power-on (history byte 0, state Up, as the C runtime
leaves the arrays): if the latched state changes to Down at the last tick, the
eight newest raw samples exist and are all 1 (pressed); if it changes to Up,
they exist and are all 0 (not pressed); and when the eight newest samples
contain both a 0 and a 1 the state does not change at that tick. -/
theorem debounce_flip_needs_eight_equal_samples (i : Nat) (hi : i < NUM_BUTTONS) (w0 : World)
    (h0 : w0.btn_hists i = 0) (s0 : w0.btn_states i = BTN_STATE_UP)
    (pre : List Pins) (p : Pins) :
    ((runTicks pre w0).btn_states i ≠ BTN_STATE_DOWN →
      (ISR_TIMER0_COMPA p (runTicks pre w0)).btn_states i = BTN_STATE_DOWN →
      ((samplesOf i (pre ++ [p])).take 8).length = 8 ∧
        ∀ s ∈ (samplesOf i (pre ++ [p])).take 8, s = 1) ∧
    ((runTicks pre w0).btn_states i ≠ BTN_STATE_UP →
      (ISR_TIMER0_COMPA p (runTicks pre w0)).btn_states i = BTN_STATE_UP →
      ((samplesOf i (pre ++ [p])).take 8).length = 8 ∧
        ∀ s ∈ (samplesOf i (pre ++ [p])).take 8, s = 0) ∧
    ((∃ s ∈ (samplesOf i (pre ++ [p])).take 8, s = 0) →
      (∃ s ∈ (samplesOf i (pre ++ [p])).take 8, s = 1) →
      (ISR_TIMER0_COMPA p (runTicks pre w0)).btn_states i = (runTicks pre w0).btn_states i) := by
  have hst := runTicks_state i hi w0 h0 s0 pre
  have hh := runTicks_hist i hi w0 pre
  rw [h0] at hh
  have hreg : histPush (regR 0 (samplesOf i pre)) (rawSample p i) =
      regR 0 (samplesOf i (pre ++ [p])) := by rw [samplesOf_snoc, regR]
  have hlt := samplesOf_lt i (pre ++ [p])
  have hlen : (samplesOf i (pre ++ [p])).length = pre.length + 1 := by
    rw [samplesOf_length]; simp
  have ones : regR 0 (samplesOf i (pre ++ [p])) = 0xFF →
      ((samplesOf i (pre ++ [p])).take 8).length = 8 ∧
        ∀ s ∈ (samplesOf i (pre ++ [p])).take 8, s = 1 := by
    intro e
    have := regR_low_ones 8 _ (le_refl _) hlt (by rw [e]; norm_num)
    exact ⟨by rw [List.length_take]; omega, this.2⟩
  have zeros : (runTicks pre w0).btn_states i = BTN_STATE_DOWN →
      regR 0 (samplesOf i (pre ++ [p])) = 0x00 →
      ((samplesOf i (pre ++ [p])).take 8).length = 8 ∧
        ∀ s ∈ (samplesOf i (pre ++ [p])).take 8, s = 0 := by
    intro hd e
    have h8 := hst.2 hd
    have := regR_low_zeros 0 8 _ (le_refl _) hlt (by omega) (by rw [e]; norm_num)
    exact ⟨by rw [List.length_take]; omega, this⟩
  rw [(ISR_button p _ i hi).2, hh, hreg]
  unfold latch
  refine ⟨?_, ?_, ?_⟩
  · intro hb ha
    split_ifs at ha with c1 c2
    · exact absurd c1.1 hb
    · exact ones c2.2
    · exact absurd ha hb
  · intro hb ha
    split_ifs at ha with c1 c2
    · exact zeros c1.1 c1.2
    · simp [BTN_STATE_UP, BTN_STATE_DOWN] at ha
    · exact absurd ha hb
  · rintro ⟨a, ha, rfl⟩ ⟨b, hb, rfl⟩
    split_ifs with c1 c2
    · have := (zeros c1.1 c1.2).2 1 hb
      omega
    · have := (ones c2.2).2 0 ha
      omega
    · rfl

set_option maxRecDepth 1000000 in
/-- C1, witness: eight ticks with the fire line high, from power-on. -/
theorem debounce_flip_needs_eight_equal_samples_witness :
    BTN_RIGHT < NUM_BUTTONS ∧ powerOn.btn_hists BTN_RIGHT = 0 ∧
    powerOn.btn_states BTN_RIGHT = BTN_STATE_UP ∧
    (runTicks (List.replicate 7 pinsAllHigh) powerOn).btn_states BTN_RIGHT ≠ BTN_STATE_DOWN ∧
    (ISR_TIMER0_COMPA pinsAllHigh
      (runTicks (List.replicate 7 pinsAllHigh) powerOn)).btn_states BTN_RIGHT = BTN_STATE_DOWN ∧
    ∀ s ∈ (samplesOf BTN_RIGHT (List.replicate 7 pinsAllHigh ++ [pinsAllHigh])).take 8, s = 1 :=
  ⟨by decide, rfl, rfl, by decide, by decide,
    ((debounce_flip_needs_eight_equal_samples BTN_RIGHT (by decide) powerOn rfl rfl
      (List.replicate 7 pinsAllHigh) pinsAllHigh).1 (by decide) (by decide)).2⟩

end AlienAdvance


/-! ## Loops and the parts of the world each block leaves alone -/

namespace AlienAdvance

theorem forM_cons {σ : Type} (body : Nat → σ → Option σ) (i : Nat) (l : List Nat) (s : σ) :
    forM body (i :: l) s = (body i s).bind (forM body l) := rfl

/-- A property kept by every round of a loop holds when the loop returns. -/
theorem forM_invariant {σ : Type} (body : Nat → σ → Option σ) (P : σ → Prop) (l : List Nat)
    (hstep : ∀ i ∈ l, ∀ s s', P s → body i s = some s' → P s') :
    ∀ s s', P s → forM body l s = some s' → P s' := by
  induction l with
  | nil =>
    intro s s' hP h
    simp only [forM, Option.some.injEq] at h
    exact h ▸ hP
  | cons i t ih =>
    intro s s' hP h
    rw [forM_cons] at h
    cases hb : body i s with
    | none => rw [hb] at h; simp at h
    | some s1 =>
      rw [hb] at h
      exact ih (fun j hj => hstep j (List.mem_cons_of_mem _ hj)) s1 s'
        (hstep i (List.mem_cons_self _ _) s s1 hP hb) h

/-- A property that depends on the rounds still to run. -/
theorem forM_invariant_rest {σ : Type} (body : Nat → σ → Option σ) (P : List Nat → σ → Prop)
    (hstep : ∀ i l s s', P (i :: l) s → body i s = some s' → P l s') :
    ∀ l s s', P l s → forM body l s = some s' → P [] s' := by
  intro l
  induction l with
  | nil =>
    intro s s' hP h
    simp only [forM, Option.some.injEq] at h
    exact h ▸ hP
  | cons i t ih =>
    intro s s' hP h
    rw [forM_cons] at h
    cases hb : body i s with
    | none => rw [hb] at h; simp at h
    | some s1 =>
      rw [hb] at h
      exact ih s1 s' (hstep i t s s1 hP hb) h

theorem placeEnemy_hide (env : Env) (fuel cp i : Nat) (w w' : World)
    (h : placeEnemy env fuel cp i w = some w') : hideEnemies w' = hideEnemies w := by
  unfold placeEnemy at h
  split at h
  · simp at h
  · simp only [Option.some.injEq] at h
    subst h
    rfl

theorem enemiesToOrigin_hide (w : World) : hideEnemies (enemiesToOrigin w) = hideEnemies w := by
  unfold enemiesToOrigin
  generalize List.range NUM_ENEMIES = l
  induction l generalizing w with
  | nil => rfl
  | cons i t ih => rw [List.foldl_cons, ih]; rfl

/-- `reset_enemies` writes the enemy field and nothing else. -/
theorem reset_enemies_hide (env : Env) (fuel cp : Nat) (w w' : World)
    (h : reset_enemies env fuel cp w = some w') : hideEnemies w' = hideEnemies w := by
  unfold reset_enemies at h
  simp only [Option.map_eq_some'] at h
  obtain ⟨w1, h1, rfl⟩ := h
  have := forM_invariant (placeEnemy env fuel cp) (fun v => hideEnemies v = hideEnemies w) _
    (fun i _ s s' hP hb => (placeEnemy_hide env fuel cp i s s' hb).trans hP)
    (enemiesToOrigin w) w1 (enemiesToOrigin_hide w) h1
  exact this

/-- The switch to the mothership battle writes the mothership and nothing else. -/
theorem enterBoss_hide (env : Env) (fuel : Nat) (w w' : World)
    (h : enterBoss env fuel w = some w') : hideBoss w' = hideBoss w := by
  unfold enterBoss at h
  split at h
  · simp at h
  · simp only [Option.some.injEq] at h
    subst h
    rfl

end AlienAdvance


namespace AlienAdvance

theorem hideMissileStep_of_hideBoss (w w' : World) (h : hideBoss w' = hideBoss w) :
    hideMissileStep w' = hideMissileStep w := by
  have e := congrArg hideMissileStep h
  exact e

theorem hideMissileStep_of_hideEnemies (w w' : World)
    (h : hideEnemies w' = hideEnemies w) : hideMissileStep w' = hideMissileStep w := by
  have e := congrArg hideMissileStep h
  exact e

theorem setAt_same {α : Type} (a : Nat → α) (i : Nat) (v : α) : setAt a i v i = v := by
  simp [setAt]

theorem setAt_other {α : Type} (a : Nat → α) (i j : Nat) (v : α) (h : j ≠ i) :
    setAt a i v j = a j := by
  simp [setAt, h]

theorem reset_enemies_missiles (env : Env) (fuel cp : Nat) (w w' : World)
    (h : reset_enemies env fuel cp w = some w') : w'.missiles = w.missiles := by
  have e := congrArg World.missiles (reset_enemies_hide env fuel cp w w' h)
  exact e

theorem enterBoss_missiles (env : Env) (fuel : Nat) (w w' : World)
    (h : enterBoss env fuel w = some w') : w'.missiles = w.missiles := by
  have e := congrArg World.missiles (enterBoss_hide env fuel w w' h)
  exact e

theorem missileEnemy_hide (env : Env) (fuel i j : Nat) (w w' : World)
    (h : missileEnemy env fuel i j w = some w') :
    hideMissileStep w' = hideMissileStep w ∧ ∀ k, k ≠ i → w'.missiles k = w.missiles k := by
  have hk : hideMissileStep (killEnemy i j w) = hideMissileStep w := rfl
  have hm : ∀ k, k ≠ i → (killEnemy i j w).missiles k = w.missiles k :=
    fun k hk => setAt_other _ _ _ _ hk
  unfold missileEnemy at h
  split_ifs at h with c1 c2 c3
  · simp only [Option.some.injEq] at h; subst h; exact ⟨rfl, fun _ _ => rfl⟩
  · refine ⟨(hideMissileStep_of_hideBoss _ _ (enterBoss_hide env fuel _ _ h)).trans hk,
      fun k hk => ?_⟩
    rw [enterBoss_missiles env fuel _ _ h]
    exact hm k hk
  · simp only [Option.some.injEq] at h; subst h
    exact ⟨hk, hm⟩
  · simp only [Option.some.injEq] at h; subst h; exact ⟨rfl, fun _ _ => rfl⟩

theorem missileMothership_hide (env : Env) (fuel i : Nat) (w w' : World)
    (h : missileMothership env fuel i w = some w') :
    hideMissileStep w' = hideMissileStep w ∧ ∀ k, k ≠ i → w'.missiles k = w.missiles k := by
  have h1 : hideMissileStep (hitMothership i w) = hideMissileStep w := rfl
  have h2 : hideMissileStep (bossDefeated (hitMothership i w)) =
      hideMissileStep (hitMothership i w) := rfl
  have hm : ∀ k, k ≠ i → (hitMothership i w).missiles k = w.missiles k :=
    fun k hk => setAt_other _ _ _ _ hk
  unfold missileMothership at h
  split_ifs at h with c1 c2
  · simp only [Option.map_eq_some'] at h
    obtain ⟨w2, hr, rfl⟩ := h
    have h3 : hideMissileStep (clearMotherMissile w2) = hideMissileStep w2 := rfl
    refine ⟨h3.trans ((hideMissileStep_of_hideEnemies _ _
      (reset_enemies_hide env fuel 1 _ _ hr)).trans (h2.trans h1)), fun k hk => ?_⟩
    show w2.missiles k = w.missiles k
    rw [reset_enemies_missiles env fuel 1 _ _ hr]
    exact hm k hk
  · simp only [Option.some.injEq] at h; subst h
    exact ⟨h1, hm⟩
  · simp only [Option.some.injEq] at h; subst h; exact ⟨rfl, fun _ _ => rfl⟩

/-- One round of the missile loop for slot `i` writes nothing outside
`hideMissileStep` and no other slot. -/
theorem missileStep_hide (env : Env) (fuel : Nat) (angle : ℚ) (i : Nat) (s s' : World × Nat)
    (h : missileStep env fuel angle i s = some s') :
    hideMissileStep s'.1 = hideMissileStep s.1 ∧
    ∀ k, k ≠ i → s'.1.missiles k = s.1.missiles k := by
  have ha : hideMissileStep (advanceMissile i s.1) = hideMissileStep s.1 := rfl
  have hma : ∀ k, k ≠ i → (advanceMissile i s.1).missiles k = s.1.missiles k :=
    fun k hk => setAt_other _ _ _ _ hk
  unfold missileStep at h
  split_ifs at h with c1 c2 c3 c4
  · simp only [Option.some.injEq] at h; subst h
    exact ⟨rfl, fun k hk => setAt_other _ _ _ _ hk⟩
  · simp only [Option.map_eq_some'] at h
    obtain ⟨w2, h2, rfl⟩ := h
    have := missileMothership_hide env fuel i _ _ h2
    exact ⟨this.1.trans ha, fun k hk => (this.2 k hk).trans (hma k hk)⟩
  · simp only [Option.map_eq_some'] at h
    obtain ⟨w2, h2, rfl⟩ := h
    exact forM_invariant (missileEnemy env fuel i)
      (fun v => hideMissileStep v = hideMissileStep s.1 ∧
        ∀ k, k ≠ i → v.missiles k = s.1.missiles k) _
      (fun j _ v v' hP hb =>
        ⟨(missileEnemy_hide env fuel i j v v' hb).1.trans hP.1,
          fun k hk => ((missileEnemy_hide env fuel i j v v' hb).2 k hk).trans (hP.2 k hk)⟩)
      _ w2 ⟨ha, hma⟩ h2
  · simp only [Option.some.injEq] at h; subst h
    exact ⟨rfl, fun k hk => setAt_other _ _ _ _ hk⟩
  · simp only [Option.some.injEq] at h; subst h; exact ⟨rfl, fun _ _ => rfl⟩

/-- A round of the missile loop for slot `i`: the other slots and the latched
fire flag are as before. -/
theorem missileStep_others (env : Env) (fuel : Nat) (angle : ℚ) (i : Nat) (s s' : World × Nat)
    (h : missileStep env fuel angle i s = some s') :
    s'.1.btn_right_pressed = s.1.btn_right_pressed ∧
    ∀ k, k ≠ i → s'.1.missiles k = s.1.missiles k := by
  have hh := missileStep_hide env fuel angle i s s' h
  have e := congrArg World.btn_right_pressed hh.1
  exact ⟨e, hh.2⟩

/-- A round of the missile loop for a slot in flight leaves `fire_missile` alone. -/
theorem missileStep_visible (env : Env) (fuel : Nat) (angle : ℚ) (i : Nat) (s s' : World × Nat)
    (hv : (s.1.missiles i).is_visible ≠ 0)
    (h : missileStep env fuel angle i s = some s') : s'.2 = s.2 := by
  unfold missileStep at h
  rw [if_pos hv] at h
  split_ifs at h with c2 c3
  · simp only [Option.some.injEq] at h; subst h; rfl
  · simp only [Option.map_eq_some'] at h
    obtain ⟨w2, -, rfl⟩ := h
    rfl
  · simp only [Option.map_eq_some'] at h
    obtain ⟨w2, -, rfl⟩ := h
    rfl

/-- A round of the missile loop for a free slot: with `fire_missile` set the
slot is activated and the request is used up, otherwise nothing happens. -/
theorem missileStep_free (env : Env) (fuel : Nat) (angle : ℚ) (i : Nat) (s s' : World × Nat)
    (hv : (s.1.missiles i).is_visible = 0)
    (h : missileStep env fuel angle i s = some s') :
    (s.2 ≠ 0 → (s'.1.missiles i).is_visible = 1 ∧ s'.2 = 0) ∧ (s.2 = 0 → s' = s) := by
  unfold missileStep at h
  rw [if_neg (by simpa using hv)] at h
  split_ifs at h with c2
  · simp only [Option.some.injEq] at h; subst h
    exact ⟨fun _ => ⟨by simp [spawnMissile, firedMissile, setAt], rfl⟩, fun e => absurd e c2⟩
  · simp only [Option.some.injEq] at h; subst h
    exact ⟨fun e => absurd e c2, fun _ => rfl⟩

end AlienAdvance


/-! ## The fire flag and the missile pool -/

namespace AlienAdvance

/-- The loop body for a button other than the fire button leaves the fire
flag alone. -/
theorem isrButton_flag_other (p : Pins) (j : Nat) (w : World) (h : j ≠ BTN_RIGHT) :
    (isrButton p j w).btn_right_pressed = w.btn_right_pressed := by
  unfold isrButton
  dsimp only
  split_ifs <;> simp_all

/-- The loop body for the fire button: the flag is set on the change from Up
to Down and is otherwise left alone. -/
theorem isrButton_flag_self (p : Pins) (w : World) :
    (isrButton p BTN_RIGHT w).btn_right_pressed =
      if w.btn_states BTN_RIGHT = BTN_STATE_UP ∧
          histPush (w.btn_hists BTN_RIGHT) (rawSample p BTN_RIGHT) = 0xFF then 1
      else w.btn_right_pressed := by
  unfold isrButton
  dsimp only
  split_ifs <;> simp_all [BTN_STATE_UP, BTN_STATE_DOWN]

/-- One tick, seen from the fire flag. -/
theorem ISR_flag (p : Pins) (w : World) :
    (ISR_TIMER0_COMPA p w).btn_right_pressed =
      if w.btn_states BTN_RIGHT = BTN_STATE_UP ∧
          histPush (w.btn_hists BTN_RIGHT) (rawSample p BTN_RIGHT) = 0xFF then 1
      else w.btn_right_pressed := by
  have key : ∀ (l : List Nat) (v : World), BTN_RIGHT ∉ l →
      (l.foldl (fun acc j => isrButton p j acc) v).btn_right_pressed = v.btn_right_pressed ∧
      (l.foldl (fun acc j => isrButton p j acc) v).btn_hists BTN_RIGHT = v.btn_hists BTN_RIGHT ∧
      (l.foldl (fun acc j => isrButton p j acc) v).btn_states BTN_RIGHT =
        v.btn_states BTN_RIGHT := by
    intro l
    induction l with
    | nil => intro v _; exact ⟨rfl, rfl, rfl⟩
    | cons j t ih =>
      intro v hn
      rw [List.mem_cons, not_or] at hn
      rw [List.foldl_cons]
      obtain ⟨a, b, c⟩ := ih (isrButton p j v) hn.2
      have ho := isrButton_other p j BTN_RIGHT v hn.1
      rw [a, b, c, isrButton_flag_other p j v (fun e => hn.1 e.symm), ho.1, ho.2]
      exact ⟨rfl, rfl, rfl⟩
  have hsplit : List.range NUM_BUTTONS = List.range 6 ++ [BTN_RIGHT] := by decide
  unfold ISR_TIMER0_COMPA
  rw [hsplit, List.foldl_append, List.foldl_cons, List.foldl_nil, isrButton_flag_self]
  obtain ⟨a, b, c⟩ := key (List.range 6) w (by decide)
  rw [a, b, c]

/-- The missile loop over the slots `l`: the fire flag is not written, the
slots outside `l` are not written, and among the slots of `l` exactly the
first free one is activated when `fire_missile` is set, none otherwise. -/
theorem missileLoop_fired (env : Env) (fuel : Nat) (angle : ℚ) (l : List Nat) :
    ∀ s s' : World × Nat, l.Nodup → forM (missileStep env fuel angle) l s = some s' →
    s'.1.btn_right_pressed = s.1.btn_right_pressed ∧
    (∀ k, k ∉ l → s'.1.missiles k = s.1.missiles k) ∧
    l.filter (fun i => decide ((s.1.missiles i).is_visible = 0 ∧
        (s'.1.missiles i).is_visible ≠ 0)) =
      (if s.2 ≠ 0 then (l.filter (fun i => decide ((s.1.missiles i).is_visible = 0))).take 1
        else []) := by
  induction l with
  | nil =>
    intro s s' _ h
    simp only [forM, Option.some.injEq] at h
    subst h
    simp
  | cons j t ih =>
    intro s s' hnd h
    rw [List.nodup_cons] at hnd
    rw [forM_cons] at h
    cases hb : missileStep env fuel angle j s with
    | none => rw [hb] at h; simp at h
    | some s1 =>
      rw [hb] at h
      simp only [Option.some_bind] at h
      obtain ⟨f1, f2, f3⟩ := ih s1 s' hnd.2 h
      obtain ⟨o1, o2⟩ := missileStep_others env fuel angle j s s1 hb
      have hj' : s'.1.missiles j = s1.1.missiles j := f2 j hnd.1
      have same : ∀ i ∈ t, s1.1.missiles i = s.1.missiles i := fun i hi =>
        o2 i (fun e => hnd.1 (e ▸ hi))
      have c1 : t.filter (fun i => decide ((s1.1.missiles i).is_visible = 0 ∧
            (s'.1.missiles i).is_visible ≠ 0)) =
          t.filter (fun i => decide ((s.1.missiles i).is_visible = 0 ∧
            (s'.1.missiles i).is_visible ≠ 0)) :=
        List.filter_congr (fun i hi => by rw [same i hi])
      have c2 : t.filter (fun i => decide ((s1.1.missiles i).is_visible = 0)) =
          t.filter (fun i => decide ((s.1.missiles i).is_visible = 0)) :=
        List.filter_congr (fun i hi => by rw [same i hi])
      rw [c1, c2] at f3
      refine ⟨f1.trans o1, fun k hk => ?_, ?_⟩
      · rw [List.mem_cons, not_or] at hk
        rw [f2 k hk.2, o2 k hk.1]
      · by_cases hv : (s.1.missiles j).is_visible = 0
        · obtain ⟨g1, g2⟩ := missileStep_free env fuel angle j s s1 hv hb
          by_cases hf : s.2 = 0
          · have e := g2 hf
            subst e
            rw [List.filter_cons, f3]
            simp [hf, hj', hv]
          · obtain ⟨v1, v2⟩ := g1 hf
            rw [List.filter_cons, List.filter_cons, f3]
            simp [hf, hj', hv, v1, v2]
        · have e := missileStep_visible env fuel angle j s s1 hv hb
          rw [List.filter_cons, List.filter_cons, f3, e]
          simp [hv]

/-- The missile part of a frame: the latched flag is clear afterwards, and
the slots activated are the first free slot when a shot was requested and
none otherwise. -/
theorem missilesPhase_fired (env : Env) (fuel : Nat) (angle : ℚ) (w w' : World)
    (h : missilesPhase env fuel angle w = some w') :
    w'.btn_right_pressed = 0 ∧
    firedSlots w w' =
      (if w.btn_right_pressed ≠ 0 ∨ w.usb_shoot ≠ 0 then (freeSlots w).take 1 else []) := by
  unfold missilesPhase at h
  simp only [Option.map_eq_some'] at h
  obtain ⟨s', hs, rfl⟩ := h
  have := missileLoop_fired env fuel angle (List.range NUM_MISSILES) _ s'
    (List.nodup_range _) hs
  obtain ⟨f1, -, f3⟩ := this
  unfold firedSlots freeSlots
  by_cases c : w.btn_right_pressed ≠ 0 ∨ w.usb_shoot ≠ 0
  · rw [if_pos c] at f1 f3
    rw [if_pos c]
    exact ⟨f1, by simpa using f3⟩
  · rw [if_neg c] at f1 f3
    rw [if_neg c]
    rw [not_or, not_not, not_not] at c
    exact ⟨f1.trans c.1, by simpa using f3⟩

end AlienAdvance


/-! ## What the phase branches leave alone -/

namespace AlienAdvance

theorem playerHit_hide (env : Env) (fuel : Nat) (msg : DebugMsg) (w w' : World)
    (h : playerHit env fuel msg w = some w') : hidePhase w' = hidePhase w := by
  unfold playerHit at h
  split_ifs at h with c
  · simp only [Option.some.injEq] at h; subst h; rfl
  · split at h
    · simp at h
    · simp only [Option.some.injEq] at h; subst h; rfl

theorem enemyStep_hide (env : Env) (fuel i : Nat) (w w' : World)
    (h : enemyStep env fuel i w = some w') : hidePhase w' = hidePhase w := by
  unfold enemyStep at h
  split_ifs at h with c
  · simp only [Option.some.injEq] at h; subst h; rfl
  · have hm : hidePhase (enemyMove env i w).1 = hidePhase w := by
      unfold enemyMove
      split_ifs <;> rfl
    unfold enemyContact at h
    simp only [Option.map_eq_some'] at h
    obtain ⟨r, hr, rfl⟩ := h
    have hr1 : hidePhase r.1 = hidePhase w := by
      split_ifs at hr
      all_goals first
        | (have e := Option.some.inj hr; subst e; exact hm)
        | (simp only [Option.map_eq_some'] at hr
           obtain ⟨w1, h1, rfl⟩ := hr
           exact (playerHit_hide env fuel _ _ _ h1).trans hm)
    split_ifs
    · exact Eq.trans rfl hr1
    · exact hr1

theorem enemiesPhase_hide (env : Env) (fuel : Nat) (w w' : World)
    (h : enemiesPhase env fuel w = some w') : hidePhase w' = hidePhase w :=
  forM_invariant (enemyStep env fuel) (fun v => hidePhase v = hidePhase w) _
    (fun i _ s s' hP hb => (enemyStep_hide env fuel i s s' hb).trans hP) w w' rfl h

theorem mothershipPhase_hide (env : Env) (fuel : Nat) (w : World) (r : World × Bool)
    (h : mothershipPhase env fuel w = some r) : hidePhase r.1 = hidePhase w := by
  unfold mothershipPhase at h
  simp only [Option.bind_eq_some] at h
  obtain ⟨w1, h1, h2⟩ := h
  have hm : hidePhase (mothershipMove env w).1 = hidePhase w := by
    unfold mothershipMove
    split_ifs <;> rfl
  have hc : hidePhase w1 = hidePhase w := by
    unfold mothershipContact at h1
    simp only [Option.map_eq_some'] at h1
    obtain ⟨q, hq, rfl⟩ := h1
    have hq1 : hidePhase q.1 = hidePhase w := by
      split_ifs at hq
      all_goals first
        | (have e := Option.some.inj hq; subst e; exact hm)
        | (simp only [Option.map_eq_some'] at hq
           obtain ⟨w2, h3, rfl⟩ := hq
           exact (playerHit_hide env fuel _ _ _ h3).trans hm)
    split_ifs
    · exact Eq.trans rfl hq1
    · exact hq1
  have hs : hidePhase (mothershipShoot env w1) = hidePhase w1 := by
    unfold mothershipShoot
    split_ifs <;> rfl
  have hd : ∀ v, hidePhase (dropMotherMissile v) = hidePhase v := fun _ => rfl
  have ha : ∀ v, hidePhase (advanceMotherMissile v) = hidePhase v := fun _ => rfl
  unfold motherMissileStep at h2
  split_ifs at h2 with c1 c2 c3
  · simp only [Option.some.injEq] at h2; subst h2
    exact ((hd _).trans hs).trans hc
  · simp only [Option.map_eq_some'] at h2
    obtain ⟨w3, h3, rfl⟩ := h2
    exact ((playerHit_hide env fuel _ _ _ h3).trans ((hd _).trans hs)).trans hc
  · simp only [Option.some.injEq] at h2; subst h2
    exact ((ha _).trans hs).trans hc
  · simp only [Option.some.injEq] at h2; subst h2
    exact hs.trans hc

theorem playerStep_hide (w : World) : hidePhase (playerStep w) = hidePhase w := rfl

theorem usbKey_hide (w : World) (c : Int) : hideEntry (usbKey w c) = hideEntry w := by
  unfold usbKey
  split_ifs <;> rfl

theorem drainUsb_hide (cs : List Int) (w : World) : hideEntry (drainUsb cs w) = hideEntry w := by
  unfold drainUsb
  have key : ∀ (l : List Int) (v : World), hideEntry (l.foldl usbKey v) = hideEntry v := by
    intro l
    induction l with
    | nil => intro v; rfl
    | cons c t ih => intro v; rw [List.foldl_cons, ih, usbKey_hide]
  rw [key]
  rfl

theorem frameEntry_hide (inp : Input) (w : World) : hideEntry (frameEntry inp w) = hideEntry w := by
  unfold frameEntry
  rw [drainUsb_hide]
  unfold debugStep
  split_ifs <;> rfl

/-- The serial fire flag after the drain: set exactly when a space is pending. -/
theorem drainUsb_shoot (cs : List Int) (w : World) :
    (drainUsb cs w).usb_shoot = if (32 : Int) ∈ cs then 1 else 0 := by
  unfold drainUsb
  have key : ∀ (l : List Int) (v : World),
      (l.foldl usbKey v).usb_shoot = if (32 : Int) ∈ l then 1 else v.usb_shoot := by
    intro l
    induction l with
    | nil => intro v; simp
    | cons c t ih =>
      intro v
      rw [List.foldl_cons, ih]
      by_cases h32 : (32 : Int) ∈ t
      · simp [h32]
      · simp only [h32, if_false, List.mem_cons, or_false]
        by_cases hc : c = 32
        · subst hc
          rfl
        · have hc' : ¬ (32 : Int) = c := fun e => hc e.symm
          rw [if_neg hc']
          unfold usbKey
          split_ifs <;> rfl
  rw [key]

/-- The two ways through a gameplay frame. -/
theorem gameplayFrame_cases (env : Env) (fuel : Nat) (inp : Input) (w w' : World)
    (h : gameplayFrame env fuel inp w = some w') :
    ((frameEntry inp w).mothership_battle = 0 ∧
      ∃ w2, enemiesPhase env fuel (frameEntry inp w) = some w2 ∧
        missilesPhase env fuel (get_shooting_angle inp.adc) (playerStep w2) = some w') ∨
    ((frameEntry inp w).mothership_battle ≠ 0 ∧
      ∃ r, mothershipPhase env fuel (frameEntry inp w) = some r ∧
        ((r.2 = true ∧ w' = r.1) ∨
          (r.2 = false ∧
            missilesPhase env fuel (get_shooting_angle inp.adc) (playerStep r.1) = some w'))) := by
  unfold gameplayFrame at h
  split_ifs at h with c
  · right
    simp only [Option.bind_eq_some] at h
    obtain ⟨r, hr, h2⟩ := h
    refine ⟨c, r, hr, ?_⟩
    split_ifs at h2 with c2
    · left; simp only [Option.some.injEq] at h2; exact ⟨c2, h2.symm⟩
    · right; exact ⟨by simpa using c2, h2⟩
  · left
    simp only [Option.bind_eq_some] at h
    obtain ⟨w2, h1, h2⟩ := h
    exact ⟨by simpa using c, w2, h1, h2⟩

end AlienAdvance


namespace AlienAdvance

theorem eq_some_getD {α : Type} (o : Option α) (d : α) (h : o.isSome = true) :
    o = some (o.getD d) := by
  cases o with
  | none => simp at h
  | some a => rfl

theorem firedSlots_congr (a b w' : World) (h : a.missiles = b.missiles) :
    firedSlots a w' = firedSlots b w' := by
  unfold firedSlots
  rw [h]

theorem freeSlots_congr (a b : World) (h : a.missiles = b.missiles) :
    freeSlots a = freeSlots b := by
  unfold freeSlots
  rw [h]

theorem firedSlots_self (a b : World) (h : b.missiles = a.missiles) : firedSlots a b = [] := by
  unfold firedSlots
  rw [h]
  apply List.filter_eq_nil_iff.mpr
  intro i _
  simp

/-- What the top of a frame and a phase branch settle for the missile part:
the slots and the latched flag are as at the start of the frame, and the
serial fire flag is set exactly when a space was pending. -/
theorem missile_inputs (inp : Input) (w v : World)
    (hv : hidePhase v = hidePhase (frameEntry inp w)) :
    (playerStep v).missiles = w.missiles ∧
    (playerStep v).btn_right_pressed = w.btn_right_pressed ∧
    (playerStep v).usb_shoot = (if (32 : Int) ∈ inp.usb then 1 else 0) ∧
    v.mothership_battle = w.mothership_battle := by
  have he := frameEntry_hide inp w
  have m1 : v.missiles = (frameEntry inp w).missiles := by
    have e := congrArg World.missiles hv; exact e
  have m2 : (frameEntry inp w).missiles = w.missiles := by
    have e := congrArg World.missiles he; exact e
  have f1 : v.btn_right_pressed = (frameEntry inp w).btn_right_pressed := by
    have e := congrArg World.btn_right_pressed hv; exact e
  have f2 : (frameEntry inp w).btn_right_pressed = w.btn_right_pressed := by
    have e := congrArg World.btn_right_pressed he; exact e
  have u1 : v.usb_shoot = (frameEntry inp w).usb_shoot := by
    have e := congrArg World.usb_shoot hv; exact e
  have b1 : v.mothership_battle = (frameEntry inp w).mothership_battle := by
    have e := congrArg World.mothership_battle hv; exact e
  have b2 : (frameEntry inp w).mothership_battle = w.mothership_battle := by
    have e := congrArg World.mothership_battle he; exact e
  refine ⟨m1.trans m2, f1.trans f2, ?_, b1.trans b2⟩
  show v.usb_shoot = _
  rw [u1]
  exact drainUsb_shoot _ _

/-- A gameplay frame and the fire request: either the missile part runs, the
latched flag is clear afterwards and the first free slot, if any, is activated
when the flag or the serial channel asked for a shot; or the frame is a boss
frame cut short, and flag and slots are as before. -/
theorem gameplayFrame_fired (env : Env) (fuel : Nat) (inp : Input) (w w' : World)
    (h : gameplayFrame env fuel inp w = some w') :
    (w'.btn_right_pressed = 0 ∧
      firedSlots w w' =
        (if w.btn_right_pressed ≠ 0 ∨ (32 : Int) ∈ inp.usb then (freeSlots w).take 1 else [])) ∨
    (w.mothership_battle ≠ 0 ∧ w'.btn_right_pressed = w.btn_right_pressed ∧
      firedSlots w w' = []) := by
  have finish : ∀ v, hidePhase v = hidePhase (frameEntry inp w) →
      missilesPhase env fuel (get_shooting_angle inp.adc) (playerStep v) = some w' →
      w'.btn_right_pressed = 0 ∧
      firedSlots w w' =
        (if w.btn_right_pressed ≠ 0 ∨ (32 : Int) ∈ inp.usb then (freeSlots w).take 1
          else []) := by
    intro v hv hm
    obtain ⟨a, b, c, -⟩ := missile_inputs inp w v hv
    obtain ⟨g1, g2⟩ := missilesPhase_fired env fuel _ _ _ hm
    refine ⟨g1, ?_⟩
    rw [← firedSlots_congr _ _ _ a, g2, b, c, freeSlots_congr _ _ a]
    by_cases h32 : (32 : Int) ∈ inp.usb <;> simp [h32]
  rcases gameplayFrame_cases env fuel inp w w' h with ⟨-, w2, h1, h2⟩ | ⟨hb, r, h1, h2⟩
  · exact Or.inl (finish w2 (enemiesPhase_hide env fuel _ _ h1) h2)
  · have hr := mothershipPhase_hide env fuel _ r h1
    rcases h2 with ⟨-, rfl⟩ | ⟨-, h2⟩
    · right
      obtain ⟨a, b, -, d⟩ := missile_inputs inp w r.1 hr
      have b2 : (frameEntry inp w).mothership_battle = w.mothership_battle := by
        have e := congrArg World.mothership_battle (frameEntry_hide inp w); exact e
      exact ⟨fun e => hb (b2.trans e), b, firedSlots_self _ _ a⟩
    · exact Or.inl (finish r.1 hr h2)

/-- C2, as amended.  A change of the fire button from Up to Down at a tick
sets `btn_right_pressed`, and a tick never clears a set flag, so presses made
while it is set add nothing.  A gameplay frame whose missile part runs leaves
the flag clear and activates the first free missile slot when the flag or the
serial channel asked for a shot, and no slot when none is free; a boss frame
cut short leaves flag and slots alone.  In every case a frame activates at
most one slot. -/
theorem fire_flag_consumed_at_most_once (env : Env) (fuel : Nat) (inp : Input) (p : Pins)
    (w w' : World) (h : gameplayFrame env fuel inp w = some w') :
    (w.btn_states BTN_RIGHT = BTN_STATE_UP →
      (ISR_TIMER0_COMPA p w).btn_states BTN_RIGHT = BTN_STATE_DOWN →
      (ISR_TIMER0_COMPA p w).btn_right_pressed = 1) ∧
    (w.btn_right_pressed = 1 → (ISR_TIMER0_COMPA p w).btn_right_pressed = 1) ∧
    ((w'.btn_right_pressed = 0 ∧
        firedSlots w w' =
          (if w.btn_right_pressed ≠ 0 ∨ (32 : Int) ∈ inp.usb then (freeSlots w).take 1
            else [])) ∨
      (w.mothership_battle ≠ 0 ∧ w'.btn_right_pressed = w.btn_right_pressed ∧
        firedSlots w w' = [])) ∧
    (firedSlots w w').length ≤ 1 := by
  have hf := gameplayFrame_fired env fuel inp w w' h
  refine ⟨?_, ?_, hf, ?_⟩
  · intro hu hd
    rw [(ISR_button p w BTN_RIGHT (by decide)).2, hu] at hd
    rw [ISR_flag]
    unfold latch at hd
    split_ifs at hd with c1 c2
    · simp [BTN_STATE_UP, BTN_STATE_DOWN] at hd
    · rw [if_pos ⟨hu, c2.2⟩]
    · simp [BTN_STATE_UP, BTN_STATE_DOWN] at hd
  · intro hs
    rw [ISR_flag]
    split_ifs
    · rfl
    · exact hs
  · rcases hf with ⟨-, e⟩ | ⟨-, -, e⟩
    · rw [e]
      split_ifs
      · exact (List.length_take_le _ _)
      · simp
    · rw [e]; simp

set_option maxRecDepth 1000000 in
/-- C2, witness: the frame after one press of the fire button at the start of
a round. -/
theorem fire_flag_consumed_at_most_once_witness :
    gameplayFrame demoEnv 10 quietInput (afterRun (startRound ++ pressFire)) =
      some ((gameplayFrame demoEnv 10 quietInput (afterRun (startRound ++ pressFire))).getD
        powerOn) ∧
    (firedSlots (afterRun (startRound ++ pressFire))
      ((gameplayFrame demoEnv 10 quietInput (afterRun (startRound ++ pressFire))).getD
        powerOn)).length ≤ 1 :=
  ⟨eq_some_getD _ _ (by decide!),
    (fire_flag_consumed_at_most_once demoEnv 10 quietInput pinsAllLow _ _
      (eq_some_getD _ _ (by decide!))).2.2.2⟩

set_option maxRecDepth 1000000 in
/-- C2, counterexample.  With all five slots in flight, one press of the fire
button followed by a gameplay frame fires no missile and uses the press up;
and at the start of a round two presses followed by two frames fire one
missile.  Each line gives, for the run after the prefix: the presses, the
missiles fired, the flag at the end, `GAME_STATE` at the end. -/
theorem fire_press_not_one_missile :
    ((run demoEnv 10 (startRound ++ fillPool) powerOn).bind (fun w =>
        tally demoEnv 10 (pressFire ++ [iterAt 1100 []]) ⟨w, 0, 0⟩)).map
      (fun t => (t.presses, t.fired, t.world.btn_right_pressed, t.world.GAME_STATE)) =
      some (1, 0, 0, 2) ∧
    ((run demoEnv 10 startRound powerOn).bind (fun w =>
        tally demoEnv 10 (pressFire ++ releaseFire ++ pressFire ++
          [iterAt 600 [], iterAt 700 []]) ⟨w, 0, 0⟩)).map
      (fun t => (t.presses, t.fired, t.world.btn_right_pressed, t.world.GAME_STATE)) =
      some (2, 1, 0, 2) := by
  constructor <;> decide!

end AlienAdvance


/-! ## Countdown and round initialisation -/

namespace AlienAdvance

/-- A property that round `i` of a loop establishes and every round keeps
holds when the loop returns. -/
theorem forM_establish {σ : Type} (body : Nat → σ → Option σ) (P : σ → Prop) (i : Nat)
    (hest : ∀ s s', body i s = some s' → P s')
    (hkeep : ∀ j s s', P s → body j s = some s' → P s') :
    ∀ (l : List Nat), i ∈ l → ∀ s s', forM body l s = some s' → P s' := by
  intro l
  induction l with
  | nil => intro hi; simp at hi
  | cons j t ih =>
    intro hi s s' h
    rw [forM_cons] at h
    cases hb : body j s with
    | none => rw [hb] at h; simp at h
    | some s1 =>
      rw [hb] at h
      simp only [Option.some_bind] at h
      by_cases hit : i ∈ t
      · exact ih hit s1 s' h
      · have hij : i = j := by
          rcases List.mem_cons.mp hi with e | e
          · exact e
          · exact absurd e hit
        subst hij
        exact forM_invariant body P t (fun k _ a b hP hk => hkeep k a b hP hk) s1 s'
          (hest s s1 hb) h

theorem placeEnemy_visible (env : Env) (fuel cp i : Nat) (w w' : World)
    (h : placeEnemy env fuel cp i w = some w') :
    (w'.enemies i).is_visible = 1 ∧
    ∀ k, (w.enemies k).is_visible = 1 → (w'.enemies k).is_visible = 1 := by
  unfold placeEnemy at h
  split at h
  · simp at h
  · simp only [Option.some.injEq] at h
    subst h
    refine ⟨by simp [setAt], fun k hk => ?_⟩
    by_cases e : k = i
    · subst e; simp [setAt]
    · simpa [setAt, e] using hk

/-- After `reset_enemies` the six enemies are visible and counted. -/
theorem reset_enemies_visible (env : Env) (fuel cp : Nat) (w w' : World)
    (h : reset_enemies env fuel cp w = some w') :
    (∀ i, i < NUM_ENEMIES → (w'.enemies i).is_visible = 1) ∧ w'.enemies_alive = NUM_ENEMIES := by
  unfold reset_enemies at h
  simp only [Option.map_eq_some'] at h
  obtain ⟨w1, h1, rfl⟩ := h
  refine ⟨fun i hi => ?_, rfl⟩
  exact forM_establish (placeEnemy env fuel cp) (fun v => (v.enemies i).is_visible = 1) i
    (fun s s' hb => (placeEnemy_visible env fuel cp i s s' hb).1)
    (fun j s s' hP hb => (placeEnemy_visible env fuel cp j s s' hb).2 i hP)
    (List.range NUM_ENEMIES) (List.mem_range.mpr hi) _ w1 h1

theorem clearMissiles_hide (w : World) : hideMissiles (clearMissiles w) = hideMissiles w := by
  unfold clearMissiles
  generalize List.range NUM_MISSILES = l
  induction l generalizing w with
  | nil => rfl
  | cons i t ih => rw [List.foldl_cons, ih]; rfl

theorem clearMissiles_free (w : World) (i : Nat) (hi : i < NUM_MISSILES) :
    ((clearMissiles w).missiles i).is_visible = 0 := by
  unfold clearMissiles
  have key : ∀ (l : List Nat) (v : World),
      (i ∈ l ∨ (v.missiles i).is_visible = 0) →
      ((l.foldl (fun acc k => freeSlot k acc) v).missiles i).is_visible = 0 := by
    intro l
    induction l with
    | nil =>
      intro v hv
      rcases hv with hv | hv
      · simp at hv
      · exact hv
    | cons k t ih =>
      intro v hv
      rw [List.foldl_cons]
      apply ih
      by_cases e : i = k
      · right; subst e; simp [freeSlot, setAt]
      · rcases hv with hv | hv
        · rcases List.mem_cons.mp hv with e2 | e2
          · exact absurd e2 e
          · exact Or.inl e2
        · right; simpa [freeSlot, setAt, e] using hv
  exact key _ w (Or.inl (List.mem_range.mpr hi))

/-- The state of the world when round initialisation returns. -/
theorem roundInit_result (env : Env) (fuel : Nat) (inp : Input) (w w' : World)
    (h : roundInit env fuel inp w = some w') :
    w'.GAME_STATE = 2 ∧ w'.countdown = w.countdown ∧
    w'.lives = 5 ∧ w'.score = 0 ∧ w'.time = 0 ∧ w'.mothership_battle = 0 ∧
    (∀ i, i < NUM_ENEMIES → (w'.enemies i).is_visible = 1) ∧
    w'.enemies_alive = NUM_ENEMIES ∧
    (∀ i, i < NUM_MISSILES → (w'.missiles i).is_visible = 0) ∧
    w'.mothership.is_visible = 0 ∧ w'.mother_missile.is_visible = 0 := by
  unfold roundInit at h
  simp only [Option.bind_eq_some] at h
  obtain ⟨w2, h2, h3⟩ := h
  split at h3
  · simp at h3
  · rename_i x y k hf
    simp only [Option.some.injEq] at h3
    subst h3
    have hh := reset_enemies_hide env fuel 0 _ _ h2
    obtain ⟨hv, ha⟩ := reset_enemies_visible env fuel 0 _ _ h2
    have hc := clearMissiles_hide (placePlayer x y k (hideMothership w2))
    have e1 : (clearMissiles (placePlayer x y k (hideMothership w2))).GAME_STATE =
        w2.GAME_STATE := by have e := congrArg World.GAME_STATE hc; exact e
    have e2 : (clearMissiles (placePlayer x y k (hideMothership w2))).countdown =
        w2.countdown := by have e := congrArg World.countdown hc; exact e
    have e3 : (clearMissiles (placePlayer x y k (hideMothership w2))).lives =
        w2.lives := by have e := congrArg World.lives hc; exact e
    have e4 : (clearMissiles (placePlayer x y k (hideMothership w2))).score =
        w2.score := by have e := congrArg World.score hc; exact e
    have e5 : (clearMissiles (placePlayer x y k (hideMothership w2))).time =
        w2.time := by have e := congrArg World.time hc; exact e
    have e6 : (clearMissiles (placePlayer x y k (hideMothership w2))).mothership_battle =
        w2.mothership_battle := by have e := congrArg World.mothership_battle hc; exact e
    have e7 : (clearMissiles (placePlayer x y k (hideMothership w2))).enemies =
        w2.enemies := by have e := congrArg World.enemies hc; exact e
    have e8 : (clearMissiles (placePlayer x y k (hideMothership w2))).enemies_alive =
        w2.enemies_alive := by have e := congrArg World.enemies_alive hc; exact e
    have e9 : (clearMissiles (placePlayer x y k (hideMothership w2))).mothership =
        (hideMothership w2).mothership := by have e := congrArg World.mothership hc; exact e
    have e10 : (clearMissiles (placePlayer x y k (hideMothership w2))).mother_missile =
        (hideMothership w2).mother_missile := by
      have e := congrArg World.mother_missile hc; exact e
    have g1 : w2.GAME_STATE = 2 := by have e := congrArg World.GAME_STATE hh; exact e
    have g2 : w2.countdown = w.countdown := by have e := congrArg World.countdown hh; exact e
    have g3 : w2.lives = 5 := by have e := congrArg World.lives hh; exact e
    have g4 : w2.score = 0 := by have e := congrArg World.score hh; exact e
    have g5 : w2.time = 0 := by have e := congrArg World.time hh; exact e
    have g6 : w2.mothership_battle = 0 := by
      have e := congrArg World.mothership_battle hh; exact e
    refine ⟨e1.trans g1, e2.trans g2, e3.trans g3, e4.trans g4, e5.trans g5, e6.trans g6,
      ?_, e8.trans ha, fun i hi => clearMissiles_free _ i hi, ?_, ?_⟩
    · intro i hi; rw [e7]; exact hv i hi
    · rw [e9]; rfl
    · rw [e10]; rfl

theorem frameStart_hide (inp : Input) (w : World) : hideStart (frameStart inp w) = hideStart w := by
  unfold frameStart
  have h1 : hideStart (deltaTime inp w) = hideStart w := rfl
  have h2 : ∀ v, hideStart (seedStep v) = hideStart v := by
    intro v; unfold seedStep; split_ifs <;> rfl
  have h3 : ∀ v, hideStart (lightStep v) = hideStart v := by
    intro v; unfold lightStep; split_ifs <;> rfl
  rw [h3, h2, h1]

theorem frameStart_state (inp : Input) (w : World) :
    (frameStart inp w).GAME_STATE = w.GAME_STATE ∧
    (frameStart inp w).countdown = w.countdown := by
  have h := frameStart_hide inp w
  exact ⟨by have e := congrArg World.GAME_STATE h; exact e,
    by have e := congrArg World.countdown h; exact e⟩

theorem stateStep_countdown (env : Env) (fuel : Nat) (inp : Input) (v : World)
    (hs : v.GAME_STATE = 1) (hc : 1 < v.countdown) :
    stateStep env fuel inp v = some { v with countdown := v.countdown - 1 } := by
  unfold stateStep
  rw [if_neg (by rw [hs]; decide), if_neg (by rw [hs]; decide), if_pos hs, if_pos hc]

theorem stateStep_roundInit (env : Env) (fuel : Nat) (inp : Input) (v : World)
    (hs : v.GAME_STATE = 1) (hc : v.countdown ≤ 1) :
    stateStep env fuel inp v = roundInit env fuel inp v := by
  unfold stateStep
  rw [if_neg (by rw [hs]; decide), if_neg (by rw [hs]; decide), if_pos hs,
    if_neg (by omega)]

/-- A Countdown tick with a value above 1: the value drops by one and the
state stays Countdown. -/
theorem countdown_decrement (env : Env) (fuel : Nat) (inp : Input) (w : World)
    (hs : w.GAME_STATE = 1) (hc : 1 < w.countdown) :
    ∃ w', mainIteration env fuel inp w = some w' ∧
      w'.countdown = w.countdown - 1 ∧ w'.GAME_STATE = 1 ∧
      w'.lives = w.lives ∧ w'.score = w.score := by
  obtain ⟨a, b⟩ := frameStart_state inp w
  have hl : (frameStart inp w).lives = w.lives := by
    have e := congrArg World.lives (frameStart_hide inp w); exact e
  have hsc : (frameStart inp w).score = w.score := by
    have e := congrArg World.score (frameStart_hide inp w); exact e
  refine ⟨_, stateStep_countdown env fuel inp (frameStart inp w) (a.trans hs) (by omega),
    ?_, ?_, ?_, ?_⟩
  · show (frameStart inp w).countdown - 1 = _
    rw [b]
  · show (frameStart inp w).GAME_STATE = 1
    rw [a, hs]
  · exact hl
  · exact hsc

/-- The terminal Countdown tick, the one that starts with a value of 1 or
less, is round initialisation. -/
theorem countdown_terminal (env : Env) (fuel : Nat) (inp : Input) (w : World)
    (hs : w.GAME_STATE = 1) (hc : w.countdown ≤ 1) :
    mainIteration env fuel inp w = roundInit env fuel inp (frameStart inp w) := by
  obtain ⟨a, b⟩ := frameStart_state inp w
  exact stateStep_roundInit env fuel inp (frameStart inp w) (a.trans hs) (by omega)

end AlienAdvance


namespace AlienAdvance

theorem intro_hands_over_four (env : Env) (fuel : Nat) (inp : Input) (v v' : World)
    (hs : v.GAME_STATE = 0) (h : mainIteration env fuel inp v = some v')
    (h1 : v'.GAME_STATE = 1) : v'.countdown = 4 := by
  have a := (frameStart_state inp v).1
  unfold mainIteration stateStep at h
  rw [if_neg (by rw [a, hs]; decide), if_pos (a.trans hs)] at h
  split_ifs at h with c1 c2
  · simp only [Option.some.injEq] at h; subst h
    have : (frameStart inp v).GAME_STATE = 1 := h1
    rw [a, hs] at this
    exact absurd this (by decide)
  · simp only [Option.some.injEq] at h; subst h; rfl
  · simp only [Option.some.injEq] at h; subst h
    rw [a, hs] at h1
    exact absurd h1 (by decide)

/-- C3, as amended.  In the Countdown state a tick that starts with a value
above 1 takes 1 off the value and stays in Countdown, leaving lives and score
alone; the terminal tick is the one that starts with the value 1 (the one on
which the value would reach 0): it keeps the value and, when placement
returns, leaves the state Gameplay with lives 5, score 0 and the boss flag
clear.  Intro hands over with the value 4, so three ticks count 4, 3, 2 down
to 1 in the Countdown state and the fourth initialises the round. -/
theorem countdown_terminal_tick_starts_at_one (env : Env) (fuel : Nat) (inp : Input)
    (w : World) (hs : w.GAME_STATE = 1) :
    (1 < w.countdown →
      ∃ w', mainIteration env fuel inp w = some w' ∧
        w'.countdown = w.countdown - 1 ∧ w'.GAME_STATE = 1 ∧
        w'.lives = w.lives ∧ w'.score = w.score) ∧
    (w.countdown ≤ 1 →
      ∀ w', mainIteration env fuel inp w = some w' →
        w'.countdown = w.countdown ∧ w'.GAME_STATE = 2 ∧
        w'.lives = 5 ∧ w'.score = 0 ∧ w'.mothership_battle = 0) ∧
    (w.countdown = 4 →
      ∀ i1 i2 i3 : Input, ∃ w3,
        run env fuel [Event.iteration i1, Event.iteration i2, Event.iteration i3] w = some w3 ∧
        w3.countdown = 1 ∧ w3.GAME_STATE = 1) ∧
    (∀ v v', v.GAME_STATE = 0 → mainIteration env fuel inp v = some v' →
      v'.GAME_STATE = 1 → v'.countdown = 4) := by
  refine ⟨countdown_decrement env fuel inp w hs, ?_, ?_,
    fun v v' => intro_hands_over_four env fuel inp v v'⟩
  · intro hc w' h
    rw [countdown_terminal env fuel inp w hs hc] at h
    obtain ⟨a, b, c, d, -, f, -⟩ := roundInit_result env fuel inp _ _ h
    exact ⟨b.trans (frameStart_state inp w).2, a, c, d, f⟩
  · intro h4 i1 i2 i3
    obtain ⟨w1, r1, c1, s1, -, -⟩ := countdown_decrement env fuel i1 w hs (by omega)
    obtain ⟨w2, r2, c2, s2, -, -⟩ := countdown_decrement env fuel i2 w1 s1 (by omega)
    obtain ⟨w3, r3, c3, s3, -, -⟩ := countdown_decrement env fuel i3 w2 s2 (by omega)
    refine ⟨w3, ?_, by omega, s3⟩
    simp only [run, step, r1, r2, r3, Option.some_bind]

set_option maxRecDepth 1000000 in
/-- C3, witness: the Countdown state with value 2, reached from power-on. -/
theorem countdown_terminal_tick_starts_at_one_witness :
    (afterRun countdownAtTwo).GAME_STATE = 1 ∧
    (1 < (afterRun countdownAtTwo).countdown →
      ∃ w', mainIteration demoEnv 10 (inputAt 400 []) (afterRun countdownAtTwo) = some w' ∧
        w'.countdown = (afterRun countdownAtTwo).countdown - 1 ∧ w'.GAME_STATE = 1 ∧
        w'.lives = (afterRun countdownAtTwo).lives ∧
        w'.score = (afterRun countdownAtTwo).score) :=
  ⟨by decide!,
    (countdown_terminal_tick_starts_at_one demoEnv 10 (inputAt 400 []) (afterRun countdownAtTwo)
      (by decide!)).1⟩

set_option maxRecDepth 1000000 in
/-- C3, counterexample.  From power-on the run reaches Countdown with the
value 2; the next tick does decrement, to 1, and stays in Countdown with the
round not initialised (lives still 10); the tick after that, which starts
with 1, is the one that initialises the round.  Each line gives `GAME_STATE`,
the countdown value and lives. -/
theorem countdown_tick_from_two_decrements :
    (run demoEnv 10 countdownAtTwo powerOn).map
      (fun w => (w.GAME_STATE, w.countdown, w.lives)) = some (1, 2, 10) ∧
    (run demoEnv 10 (countdownAtTwo ++ [iterAt 400 []]) powerOn).map
      (fun w => (w.GAME_STATE, w.countdown, w.lives)) = some (1, 1, 10) ∧
    (run demoEnv 10 (countdownAtTwo ++ [iterAt 400 [], iterAt 500 []]) powerOn).map
      (fun w => (w.GAME_STATE, w.countdown, w.lives)) = some (2, 1, 5) := by
  refine ⟨?_, ?_, ?_⟩ <;> decide!

/-- C4.  The Countdown tick that switches to Gameplay, from any world and for
any draws on which placement returns, leaves lives 5, score 0, round time 0,
the boss flag clear, the six enemies visible with `enemies_alive = 6`, every
missile slot free, and the mothership and its missile invisible. -/
theorem round_initialisation_state (env : Env) (fuel : Nat) (inp : Input) (w w' : World)
    (hs : w.GAME_STATE = 1) (hc : w.countdown ≤ 1)
    (h : mainIteration env fuel inp w = some w') :
    w'.GAME_STATE = 2 ∧ w'.lives = 5 ∧ w'.score = 0 ∧ w'.time = 0 ∧
    w'.mothership_battle = 0 ∧
    (∀ i, i < NUM_ENEMIES → (w'.enemies i).is_visible = 1) ∧
    w'.enemies_alive = 6 ∧
    (∀ i, i < NUM_MISSILES → (w'.missiles i).is_visible = 0) ∧
    w'.mothership.is_visible = 0 ∧ w'.mother_missile.is_visible = 0 := by
  rw [countdown_terminal env fuel inp w hs hc] at h
  obtain ⟨a, -, c, d, e, f, g, i, j, k, l⟩ := roundInit_result env fuel inp _ _ h
  exact ⟨a, c, d, e, f, g, i, j, k, l⟩

set_option maxRecDepth 1000000 in
/-- C4, witness: the terminal Countdown tick of the run from power-on. -/
theorem round_initialisation_state_witness :
    (afterRun (countdownAtTwo ++ [iterAt 400 []])).GAME_STATE = 1 ∧
    (afterRun (countdownAtTwo ++ [iterAt 400 []])).countdown ≤ 1 ∧
    mainIteration demoEnv 10 (inputAt 500 []) (afterRun (countdownAtTwo ++ [iterAt 400 []])) =
      some ((mainIteration demoEnv 10 (inputAt 500 [])
        (afterRun (countdownAtTwo ++ [iterAt 400 []]))).getD powerOn) ∧
    ((mainIteration demoEnv 10 (inputAt 500 [])
        (afterRun (countdownAtTwo ++ [iterAt 400 []]))).getD powerOn).lives = 5 :=
  ⟨by decide!, by decide!, eq_some_getD _ _ (by decide!),
    (round_initialisation_state demoEnv 10 (inputAt 500 []) _ _ (by decide!) (by decide!)
      (eq_some_getD _ _ (by decide!))).2.1⟩

end AlienAdvance


/-! ## Score, lives and the log -/

namespace AlienAdvance

theorem Acct.refl (w : World) : Acct w w :=
  ⟨[], by simp, by simp [killsLogged, bossKillsLogged], by simp [hitsLogged], fun h => h⟩

theorem Acct.trans {a b c : World} (h1 : Acct a b) (h2 : Acct b c) : Acct a c := by
  obtain ⟨n1, l1, s1, v1, b1⟩ := h1
  obtain ⟨n2, l2, s2, v2, b2⟩ := h2
  refine ⟨n1 ++ n2, by rw [l2, l1, List.append_assoc], ?_, ?_, fun h => b2 (b1 h)⟩
  · simp only [killsLogged, bossKillsLogged, List.countP_append] at *
    omega
  · simp only [hitsLogged, List.countP_append] at *
    omega

/-- A block that leaves log, score and lives alone keeps the books. -/
theorem Acct.of_same {w w' : World} (hl : w'.log = w.log) (hs : w'.score = w.score)
    (hv : w'.lives = w.lives) : Acct w w' :=
  ⟨[], by simp [hl], by simp [killsLogged, bossKillsLogged, hs], by simp [hitsLogged, hv],
    fun h => hs ▸ h⟩

theorem Acct.of_hidePhase_log {w w' : World} (h : hidePhase w' = hidePhase w)
    (hl : w'.log = w.log) (hv : w'.lives = w.lives) : Acct w w' :=
  Acct.of_same hl (by have e := congrArg World.score h; exact e) hv

theorem playerHit_acct (env : Env) (fuel : Nat) (msg : DebugMsg) (w w' : World)
    (hm : isHit msg = true ∧ isKill msg = false ∧ isBossKill msg = false)
    (h : playerHit env fuel msg w = some w') : Acct w w' := by
  have key : Acct w (loseLife msg w) := by
    have e1 : killsLogged [msg] = 0 := by simp [killsLogged, List.countP_cons, hm.2.1]
    have e2 : bossKillsLogged [msg] = 0 := by simp [bossKillsLogged, List.countP_cons, hm.2.2]
    have e3 : hitsLogged [msg] = 1 := by simp [hitsLogged, List.countP_cons, hm.1]
    refine ⟨[msg], rfl, ?_, ?_, fun h => h⟩
    · rw [e1, e2]; rfl
    · rw [e3]
      show ((w.lives + 255) % 256 + 1) % 256 = w.lives % 256
      omega
  unfold playerHit at h
  split_ifs at h with c
  · simp only [Option.some.injEq] at h; subst h
    exact key.trans (Acct.of_same rfl rfl rfl)
  · split at h
    · simp at h
    · simp only [Option.some.injEq] at h; subst h
      exact key.trans (Acct.of_same rfl rfl rfl)

theorem enemyStep_acct (env : Env) (fuel i : Nat) (w w' : World)
    (h : enemyStep env fuel i w = some w') : Acct w w' := by
  unfold enemyStep at h
  split_ifs at h with c
  · simp only [Option.some.injEq] at h; subst h; exact Acct.refl _
  · have hm : Acct w (enemyMove env i w).1 := by
      unfold enemyMove
      split_ifs <;> exact Acct.of_same rfl rfl rfl
    unfold enemyContact at h
    simp only [Option.map_eq_some'] at h
    obtain ⟨r, hr, rfl⟩ := h
    have hr1 : Acct w r.1 := by
      split_ifs at hr
      all_goals first
        | (have e := Option.some.inj hr; subst e; exact hm)
        | (simp only [Option.map_eq_some'] at hr
           obtain ⟨w1, h1, rfl⟩ := hr
           exact hm.trans (playerHit_acct env fuel DebugMsg.alienKilledPlayer _ _ ⟨rfl, rfl, rfl⟩ h1))
    split_ifs
    · exact hr1.trans (Acct.of_same rfl rfl rfl)
    · exact hr1

theorem enemiesPhase_acct (env : Env) (fuel : Nat) (w w' : World)
    (h : enemiesPhase env fuel w = some w') : Acct w w' :=
  forM_invariant (enemyStep env fuel) (fun v => Acct w v) _
    (fun i _ s s' hP hb => hP.trans (enemyStep_acct env fuel i s s' hb)) w w' (Acct.refl w) h

theorem mothershipPhase_acct (env : Env) (fuel : Nat) (w : World) (r : World × Bool)
    (h : mothershipPhase env fuel w = some r) : Acct w r.1 := by
  unfold mothershipPhase at h
  simp only [Option.bind_eq_some] at h
  obtain ⟨w1, h1, h2⟩ := h
  have hm : Acct w (mothershipMove env w).1 := by
    unfold mothershipMove
    split_ifs <;> exact Acct.of_same rfl rfl rfl
  have hc : Acct w w1 := by
    unfold mothershipContact at h1
    simp only [Option.map_eq_some'] at h1
    obtain ⟨q, hq, rfl⟩ := h1
    have hq1 : Acct w q.1 := by
      split_ifs at hq
      all_goals first
        | (have e := Option.some.inj hq; subst e; exact hm)
        | (simp only [Option.map_eq_some'] at hq
           obtain ⟨w2, h3, rfl⟩ := hq
           exact hm.trans (playerHit_acct env fuel DebugMsg.mothershipDestroyedPlayer _ _
             ⟨rfl, rfl, rfl⟩ h3))
    split_ifs
    · exact hq1.trans (Acct.of_same rfl rfl rfl)
    · exact hq1
  have hs : Acct w1 (mothershipShoot env w1) := by
    unfold mothershipShoot
    split_ifs <;> exact Acct.of_same rfl rfl rfl
  have hd : ∀ v, Acct v (dropMotherMissile v) := fun _ => Acct.of_same rfl rfl rfl
  have ha : ∀ v, Acct v (advanceMotherMissile v) := fun _ => Acct.of_same rfl rfl rfl
  unfold motherMissileStep at h2
  split_ifs at h2 with c1 c2 c3
  · simp only [Option.some.injEq] at h2; subst h2
    exact (hc.trans hs).trans (hd _)
  · simp only [Option.map_eq_some'] at h2
    obtain ⟨w3, h3, rfl⟩ := h2
    exact ((hc.trans hs).trans (hd _)).trans
      (playerHit_acct env fuel DebugMsg.mothershipDestroyedPlayer _ _ ⟨rfl, rfl, rfl⟩ h3)
  · simp only [Option.some.injEq] at h2; subst h2
    exact (hc.trans hs).trans (ha _)
  · simp only [Option.some.injEq] at h2; subst h2
    exact hc.trans hs

theorem frameEntry_acct (inp : Input) (w : World) : Acct w (frameEntry inp w) := by
  have hd : Acct w (debugStep (get_shooting_angle inp.adc) { w with time := w.time + w.DT }) := by
    unfold debugStep
    split_ifs
    · exact Acct.of_same rfl rfl rfl
    · refine ⟨[DebugMsg.playerPosition (toU8 w.player.x) (toU8 w.player.y),
        DebugMsg.playerAim (get_shooting_angle inp.adc * (180 / PI))], ?_, ?_, ?_, fun h => h⟩
      · show w.log ++ _ ++ _ = _
        simp
      · simp [killsLogged, bossKillsLogged, List.countP_cons, isKill, isBossKill]
      · simp [hitsLogged, List.countP_cons, isHit]
  have hu : ∀ (cs : List Int) (v : World), (drainUsb cs v).log = v.log ∧
      (drainUsb cs v).score = v.score ∧ (drainUsb cs v).lives = v.lives := by
    intro cs v
    have key : ∀ (l : List Int) (u : World), (l.foldl usbKey u).log = u.log ∧
        (l.foldl usbKey u).score = u.score ∧ (l.foldl usbKey u).lives = u.lives := by
      intro l
      induction l with
      | nil => intro u; exact ⟨rfl, rfl, rfl⟩
      | cons c t ih =>
        intro u
        rw [List.foldl_cons]
        obtain ⟨a, b, d⟩ := ih (usbKey u c)
        have e : (usbKey u c).log = u.log ∧ (usbKey u c).score = u.score ∧
            (usbKey u c).lives = u.lives := by
          unfold usbKey
          split_ifs <;> exact ⟨rfl, rfl, rfl⟩
        exact ⟨a.trans e.1, b.trans e.2.1, d.trans e.2.2⟩
    unfold drainUsb
    exact key _ _
  unfold frameEntry
  obtain ⟨a, b, c⟩ := hu inp.usb (debugStep (get_shooting_angle inp.adc)
    { w with time := w.time + w.DT })
  exact hd.trans (Acct.of_same a b c)

theorem killEnemy_acct (i j : Nat) (w : World) : Acct w (killEnemy i j w) := by
  have e1 : killsLogged [DebugMsg.playerKilledAlien] = 1 := rfl
  have e2 : bossKillsLogged [DebugMsg.playerKilledAlien] = 0 := rfl
  have e3 : hitsLogged [DebugMsg.playerKilledAlien] = 0 := rfl
  refine ⟨[DebugMsg.playerKilledAlien], rfl, ?_, ?_, fun _ => ?_⟩
  · rw [e1, e2]
    show (w.score + 1) % 65536 % 65536 = _
    omega
  · rw [e3]; rfl
  · show (w.score + 1) % 65536 < 65536
    omega

theorem enterBoss_acct (env : Env) (fuel : Nat) (w w' : World)
    (h : enterBoss env fuel w = some w') : Acct w w' := by
  have hh := enterBoss_hide env fuel w w' h
  exact Acct.of_same (by have e := congrArg World.log hh; exact e)
    (by have e := congrArg World.score hh; exact e)
    (by have e := congrArg World.lives hh; exact e)

theorem reset_enemies_acct (env : Env) (fuel cp : Nat) (w w' : World)
    (h : reset_enemies env fuel cp w = some w') : Acct w w' := by
  have hh := reset_enemies_hide env fuel cp w w' h
  exact Acct.of_same (by have e := congrArg World.log hh; exact e)
    (by have e := congrArg World.score hh; exact e)
    (by have e := congrArg World.lives hh; exact e)

theorem missileEnemy_acct (env : Env) (fuel i j : Nat) (w w' : World)
    (h : missileEnemy env fuel i j w = some w') : Acct w w' := by
  unfold missileEnemy at h
  split_ifs at h with c1 c2 c3
  · simp only [Option.some.injEq] at h; subst h; exact Acct.refl _
  · exact (killEnemy_acct i j w).trans (enterBoss_acct env fuel _ _ h)
  · simp only [Option.some.injEq] at h; subst h; exact killEnemy_acct i j w
  · simp only [Option.some.injEq] at h; subst h; exact Acct.refl _

theorem bossDefeated_acct (w : World) : Acct w (bossDefeated w) := by
  have e1 : killsLogged [DebugMsg.playerDestroyedMothership] = 0 := rfl
  have e2 : bossKillsLogged [DebugMsg.playerDestroyedMothership] = 1 := rfl
  have e3 : hitsLogged [DebugMsg.playerDestroyedMothership] = 0 := rfl
  refine ⟨[DebugMsg.playerDestroyedMothership], rfl, ?_, ?_, fun _ => ?_⟩
  · rw [e1, e2]
    show (w.score + 10) % 65536 % 65536 = _
    omega
  · rw [e3]; rfl
  · show (w.score + 10) % 65536 < 65536
    omega

theorem missileMothership_acct (env : Env) (fuel i : Nat) (w w' : World)
    (h : missileMothership env fuel i w = some w') : Acct w w' := by
  have h1 : Acct w (hitMothership i w) := Acct.of_same rfl rfl rfl
  unfold missileMothership at h
  split_ifs at h with c1 c2
  · simp only [Option.map_eq_some'] at h
    obtain ⟨w2, hr, rfl⟩ := h
    exact ((h1.trans (bossDefeated_acct _)).trans (reset_enemies_acct env fuel 1 _ _ hr)).trans
      (Acct.of_same rfl rfl rfl)
  · simp only [Option.some.injEq] at h; subst h; exact h1
  · simp only [Option.some.injEq] at h; subst h; exact Acct.refl _

theorem missileStep_acct (env : Env) (fuel : Nat) (angle : ℚ) (i : Nat) (s s' : World × Nat)
    (h : missileStep env fuel angle i s = some s') : Acct s.1 s'.1 := by
  have ha : Acct s.1 (advanceMissile i s.1) := Acct.of_same rfl rfl rfl
  unfold missileStep at h
  split_ifs at h with c1 c2 c3 c4
  · simp only [Option.some.injEq] at h; subst h
    exact Acct.of_same rfl rfl rfl
  · simp only [Option.map_eq_some'] at h
    obtain ⟨w2, h2, rfl⟩ := h
    exact ha.trans (missileMothership_acct env fuel i _ _ h2)
  · simp only [Option.map_eq_some'] at h
    obtain ⟨w2, h2, rfl⟩ := h
    exact forM_invariant (missileEnemy env fuel i) (fun v => Acct s.1 v) _
      (fun j _ v v' hP hb => hP.trans (missileEnemy_acct env fuel i j v v' hb)) _ w2 ha h2
  · simp only [Option.some.injEq] at h; subst h
    exact Acct.of_same rfl rfl rfl
  · simp only [Option.some.injEq] at h; subst h; exact Acct.refl _

theorem missilesPhase_acct (env : Env) (fuel : Nat) (angle : ℚ) (w w' : World)
    (h : missilesPhase env fuel angle w = some w') : Acct w w' := by
  unfold missilesPhase at h
  simp only [Option.map_eq_some'] at h
  obtain ⟨s', hs, rfl⟩ := h
  refine forM_invariant (missileStep env fuel angle) (fun v => Acct w v.1) _
    (fun i _ s s1 hP hb => hP.trans (missileStep_acct env fuel angle i s s1 hb)) _ s' ?_ hs
  split_ifs
  · exact Acct.of_same rfl rfl rfl
  · exact Acct.refl _

/-- The books of a whole gameplay frame. -/
theorem gameplayFrame_acct (env : Env) (fuel : Nat) (inp : Input) (w w' : World)
    (h : gameplayFrame env fuel inp w = some w') : Acct w w' := by
  have he := frameEntry_acct inp w
  rcases gameplayFrame_cases env fuel inp w w' h with ⟨-, w2, h1, h2⟩ | ⟨-, r, h1, h2⟩
  · have hp : Acct w2 (playerStep w2) := Acct.of_same rfl rfl rfl
    exact ((he.trans (enemiesPhase_acct env fuel _ _ h1)).trans hp).trans
      (missilesPhase_acct env fuel _ _ _ h2)
  · have hr := mothershipPhase_acct env fuel _ r h1
    rcases h2 with ⟨-, rfl⟩ | ⟨-, h2⟩
    · exact he.trans hr
    · have hp : Acct r.1 (playerStep r.1) := Acct.of_same rfl rfl rfl
      exact ((he.trans hr).trans hp).trans (missilesPhase_acct env fuel _ _ _ h2)

end AlienAdvance


namespace AlienAdvance

set_option maxRecDepth 1000000 in
/-- C5, the defect.  From power-on, in a round whose draws put enemies 0 and 1
at (30,20) and (30,27): the player walks into enemy 0 four times and has one
life left in Gameplay; it then stands in contact with both enemies, and the
next frame registers two hits: the first takes lives to 0 and sets GameOver,
the loop goes on, and the second takes the `unsigned char` from 0 to 255.
First line: `GAME_STATE`, lives and hits logged before that frame; second
line: the same after it. -/
theorem lives_wrap_to_255_after_game_over :
    (run rowEnv 10 fourHitsThenStep powerOn).map
      (fun w => (w.GAME_STATE, w.lives, hitsLogged w.log)) = some (2, 1, 4) ∧
    (run rowEnv 10 (fourHitsThenStep ++ [iterAt 12215 []]) powerOn).map
      (fun w => (w.GAME_STATE, w.lives, hitsLogged w.log)) = some (3, 255, 6) := by
  constructor <;> decide!

end AlienAdvance


/-! ## The live count, the kills and the switch to the mothership battle -/

namespace AlienAdvance

theorem countP_flip_one (p q : Nat → Bool) (j : Nat) (hp : p j = true) (hq : q j = false)
    (hpq : ∀ k, k ≠ j → q k = p k) :
    ∀ l : List Nat, l.Nodup → j ∈ l → l.countP q + 1 = l.countP p := by
  intro l
  induction l with
  | nil => intro _ hj; simp at hj
  | cons a t ih =>
    intro hnd hj
    rw [List.nodup_cons] at hnd
    by_cases e : a = j
    · subst e
      have hsame : t.countP q = t.countP p := by
        apply List.countP_congr
        intro k hk
        have : k ≠ a := fun e => hnd.1 (e ▸ hk)
        rw [hpq k this]
      rw [List.countP_cons, List.countP_cons, hp, hq, hsame]
      simp
    · have hjt : j ∈ t := by
        rcases List.mem_cons.mp hj with e2 | e2
        · exact absurd e2.symm e
        · exact e2
      have := ih hnd.2 hjt
      rw [List.countP_cons, List.countP_cons, hpq a e]
      omega

theorem visibleCount_congr (a b : World)
    (h : ∀ k, (a.enemies k).is_visible = (b.enemies k).is_visible) :
    visibleCount a = visibleCount b := by
  unfold visibleCount
  apply List.countP_congr
  intro k _
  rw [h k]

theorem visibleCount_le (w : World) : visibleCount w ≤ NUM_ENEMIES := by
  unfold visibleCount
  have := List.countP_le_length (fun i => decide ((w.enemies i).is_visible ≠ 0))
    (l := List.range NUM_ENEMIES)
  simpa using this

theorem visibleCount_pos (w : World) (j : Nat) (hj : j < NUM_ENEMIES)
    (hv : (w.enemies j).is_visible ≠ 0) : 1 ≤ visibleCount w := by
  unfold visibleCount
  apply List.countP_pos_iff.mpr
  exact ⟨j, List.mem_range.mpr hj, by simpa using hv⟩

theorem visibleCount_zero (w : World) (h : visibleCount w = 0) :
    ∀ j, j < NUM_ENEMIES → (w.enemies j).is_visible = 0 := by
  intro j hj
  unfold visibleCount at h
  rw [List.countP_eq_zero] at h
  have := h j (List.mem_range.mpr hj)
  simpa using this

theorem visibleCount_killEnemy (i j : Nat) (w : World) (hj : j < NUM_ENEMIES)
    (hv : (w.enemies j).is_visible ≠ 0) :
    visibleCount (killEnemy i j w) + 1 = visibleCount w := by
  unfold visibleCount
  apply countP_flip_one _ _ j _ _ _ _ (List.nodup_range _) (List.mem_range.mpr hj)
  · simpa using hv
  · simp [killEnemy, send_debug_string, setAt]
  · intro k hk
    simp [killEnemy, send_debug_string, setAt, hk]

theorem randFrac_range (env : Env) (h : ∀ k, env.rand k ≤ env.RAND_MAX) (k : Nat) :
    0 ≤ randFrac env k ∧ randFrac env k ≤ 1 := by
  unfold randFrac
  have h1 : (0 : ℚ) ≤ (env.rand k : ℚ) := Nat.cast_nonneg _
  have h2 : (0 : ℚ) ≤ (env.RAND_MAX : ℚ) := Nat.cast_nonneg _
  have h3 : (env.rand k : ℚ) ≤ (env.RAND_MAX : ℚ) := by exact_mod_cast h k
  exact ⟨div_nonneg h1 h2, div_le_one_of_le₀ h3 h2⟩

theorem timer_range (env : Env) (h : ∀ k, env.rand k ≤ env.RAND_MAX) (k : Nat) :
    2 ≤ 2 + 2 * randFrac env k ∧ 2 + 2 * randFrac env k ≤ 4 := by
  obtain ⟨a, b⟩ := randFrac_range env h k
  constructor <;> linarith

/-- The state the switch to the mothership battle leaves, when the search
returns: the flag set, the mothership visible and at rest with full health,
its timers drawn in [2, 4]; the enemy field, score, lives and log untouched. -/
theorem enterBoss_result (env : Env) (fuel : Nat) (w w' : World)
    (h : enterBoss env fuel w = some w') :
    w'.mothership_battle = 1 ∧ w'.mothership.is_visible = 1 ∧
    w'.mothership.dx = 0 ∧ w'.mothership.dy = 0 ∧ w'.mother_health = MOTHER_MAX_HEALTH ∧
    ((∀ k, env.rand k ≤ env.RAND_MAX) →
      2 ≤ w'.mother_move_timer ∧ w'.mother_move_timer ≤ 4 ∧
      2 ≤ w'.mother_shoot_timer ∧ w'.mother_shoot_timer ≤ 4) ∧
    w'.enemies = w.enemies ∧ w'.enemies_alive = w.enemies_alive ∧ w'.log = w.log := by
  have hh := enterBoss_hide env fuel w w' h
  have e1 : w'.enemies = w.enemies := by have e := congrArg World.enemies hh; exact e
  have e2 : w'.enemies_alive = w.enemies_alive := by
    have e := congrArg World.enemies_alive hh; exact e
  have e3 : w'.log = w.log := by have e := congrArg World.log hh; exact e
  unfold enterBoss at h
  split at h
  · simp at h
  · simp only [Option.some.injEq] at h
    subst h
    refine ⟨rfl, rfl, rfl, rfl, rfl, fun henv => ?_, e1, e2, e3⟩
    obtain ⟨a, b⟩ := timer_range env henv w.rand_calls
    obtain ⟨c, d⟩ := timer_range env henv (w.rand_calls + 1)
    exact ⟨a, b, c, d⟩

end AlienAdvance


namespace AlienAdvance

theorem killsLogged_append (a b : List DebugMsg) :
    killsLogged (a ++ b) = killsLogged a + killsLogged b := by
  simp [killsLogged, List.countP_append]

theorem killEnemy_facts (i j : Nat) (w : World) :
    (killEnemy i j w).mothership_battle = w.mothership_battle ∧
    (killEnemy i j w).enemies_alive = (w.enemies_alive + 255) % 256 ∧
    killsLogged (killEnemy i j w).log = killsLogged w.log + 1 := by
  refine ⟨rfl, rfl, ?_⟩
  show killsLogged (w.log ++ [DebugMsg.playerKilledAlien]) = _
  rw [killsLogged_append]
  rfl

/-- The invariant of the missile loop looks only at the flag, the enemy
field, the log and the mothership. -/
theorem MissileInv.congr (env : Env) (w0 : World) (n : Nat) (v v' : World)
    (h1 : v'.mothership_battle = v.mothership_battle)
    (h2 : v'.enemies_alive = v.enemies_alive) (h3 : v'.enemies = v.enemies)
    (h4 : v'.log = v.log) (h5 : v'.mothership = v.mothership)
    (h6 : v'.mother_health = v.mother_health)
    (h7 : v'.mother_move_timer = v.mother_move_timer)
    (h8 : v'.mother_shoot_timer = v.mother_shoot_timer)
    (h : MissileInv env w0 n v) : MissileInv env w0 n v' := by
  have hvc : visibleCount v' = visibleCount v := visibleCount_congr _ _ (fun k => by rw [h3])
  unfold MissileInv NormalCounted BossFresh at *
  rw [h1, h2, h3, h4, h5, h6, h7, h8, hvc]
  exact h

theorem MissileInv.weaken (env : Env) (w0 : World) (n m : Nat) (v : World) (hm : m ≤ n)
    (h : MissileInv env w0 n v) : MissileInv env w0 m v := by
  rcases h with h | ⟨a, b, c, d⟩
  · exact Or.inl h
  · exact Or.inr ⟨a, b, c, by omega⟩

/-- The loop over the enemies for one missile keeps the invariant. -/
theorem missileEnemy_inv (env : Env) (fuel i j n : Nat) (w0 v v' : World) (hn : n ≤ 4)
    (hj : j < NUM_ENEMIES) (hI : MissileInv env w0 n v)
    (h : missileEnemy env fuel i j v = some v') : MissileInv env w0 n v' := by
  obtain ⟨k1, k2, k3⟩ := killEnemy_facts i j v
  unfold missileEnemy at h
  split_ifs at h with c1 c2 c3
  · simp only [Option.some.injEq] at h; subst h; exact hI
  · -- the kill that empties the field
    rcases hI with ⟨a1, a2, a3, a4, a5⟩ | ⟨b, -⟩
    · have hpos := visibleCount_pos v j hj c1
      have hle := visibleCount_le v
      have hcnt := visibleCount_killEnemy i j v hj c1
      have hN : NUM_ENEMIES = 6 := rfl
      rw [k2] at c3
      have halive : v.enemies_alive = 1 := by omega
      have hzero : visibleCount (killEnemy i j v) = 0 := by omega
      obtain ⟨r1, r2, r3, r4, r5, r6, r7, r8, r9⟩ := enterBoss_result env fuel _ _ h
      right
      refine ⟨⟨r1, ?_, ?_, r2, r3, r4, by rw [r5], r6⟩, ?_, ?_, ?_⟩
      · rw [r8, k2]; omega
      · intro k hk
        rw [r7]
        exact visibleCount_zero _ hzero k hk
      · rw [r9, k3]; omega
      · omega
      · rw [r5]
        show 11 + n ≤ 15
        omega
    · exact absurd (b.2.2.1 j hj) c1
  · simp only [Option.some.injEq] at h; subst h
    rcases hI with ⟨a1, a2, a3, a4, a5⟩ | ⟨b, -⟩
    · have hpos := visibleCount_pos v j hj c1
      have hle := visibleCount_le v
      have hcnt := visibleCount_killEnemy i j v hj c1
      have hN : NUM_ENEMIES = 6 := rfl
      rw [k2] at c3
      left
      refine ⟨k1.trans a1, ?_, ?_, ?_, ?_⟩
      · rw [k2]; omega
      · rw [k3]; omega
      · rw [k3, k2]; omega
      · intro _; rw [k2]; omega
    · exact absurd (b.2.2.1 j hj) c1
  · simp only [Option.some.injEq] at h; subst h; exact hI

/-- One round of the missile loop keeps the invariant, with one round less
to run. -/
theorem missileStep_inv (env : Env) (fuel : Nat) (angle : ℚ) (w0 : World) (i n : Nat)
    (s s' : World × Nat) (hn : n ≤ 4) (hI : MissileInv env w0 (n + 1) s.1)
    (h : missileStep env fuel angle i s = some s') : MissileInv env w0 n s'.1 := by
  have hw := MissileInv.weaken env w0 (n + 1) n s.1 (by omega) hI
  have hadv : MissileInv env w0 (n + 1) (advanceMissile i s.1) :=
    MissileInv.congr env w0 _ s.1 _ rfl rfl rfl rfl rfl rfl rfl rfl hI
  unfold missileStep at h
  split_ifs at h with c1 c2 c3 c4
  · simp only [Option.some.injEq] at h; subst h
    exact MissileInv.congr env w0 _ s.1 _ rfl rfl rfl rfl rfl rfl rfl rfl hw
  · simp only [Option.map_eq_some'] at h
    obtain ⟨w2, h2, rfl⟩ := h
    rcases hadv with ⟨a1, -⟩ | ⟨b, e1, e2, e3⟩
    · exact absurd a1 c3
    · have hmax : (advanceMissile i s.1).mother_health ≤ 15 := b.2.2.2.2.2.2.1
      unfold missileMothership at h2
      split_ifs at h2 with d1 d2
      · exfalso
        have : (hitMothership i (advanceMissile i s.1)).mother_health =
            ((advanceMissile i s.1).mother_health + 255) % 256 := rfl
        rw [this] at d2
        omega
      · simp only [Option.some.injEq] at h2; subst h2
        right
        have hh : (hitMothership i (advanceMissile i s.1)).mother_health =
            ((advanceMissile i s.1).mother_health + 255) % 256 := rfl
        refine ⟨⟨b.1, b.2.1, b.2.2.1, b.2.2.2.1, b.2.2.2.2.1, b.2.2.2.2.2.1, ?_,
          b.2.2.2.2.2.2.2⟩, e1, e2, ?_⟩
        · show (hitMothership i (advanceMissile i s.1)).mother_health ≤ 15
          rw [hh]; omega
        · rw [hh]; omega
      · simp only [Option.some.injEq] at h2; subst h2
        have e3' : 11 + n ≤ (advanceMissile i s.1).mother_health := by omega
        exact Or.inr ⟨b, e1, e2, e3'⟩
  · simp only [Option.map_eq_some'] at h
    obtain ⟨w2, h2, rfl⟩ := h
    exact forM_invariant (missileEnemy env fuel i) (fun v => MissileInv env w0 n v) _
      (fun j hj v v' hP hb =>
        missileEnemy_inv env fuel i j n w0 v v' hn (List.mem_range.mp hj) hP hb)
      _ w2 (MissileInv.weaken env w0 (n + 1) n _ (by omega) hadv) h2
  · simp only [Option.some.injEq] at h; subst h
    exact MissileInv.congr env w0 _ s.1 _ rfl rfl rfl rfl rfl rfl rfl rfl hw
  · simp only [Option.some.injEq] at h; subst h; exact hw

/-- The missile part of a frame entered in normal phase with the counts in
step ends either in normal phase with the counts in step, or in the mothership
battle just entered. -/
theorem missilesPhase_inv (env : Env) (fuel : Nat) (angle : ℚ) (w w' : World)
    (hb : w.mothership_battle = 0) (hc : w.enemies_alive = visibleCount w)
    (h : missilesPhase env fuel angle w = some w') : MissileInv env w 0 w' := by
  unfold missilesPhase at h
  simp only [Option.map_eq_some'] at h
  obtain ⟨s', hs, rfl⟩ := h
  have start : MissileInv env w NUM_MISSILES w :=
    Or.inl ⟨hb, hc, le_refl _, rfl, fun hlt => absurd hlt (lt_irrefl _)⟩
  have key := forM_invariant_rest (missileStep env fuel angle)
    (fun l s => l.length ≤ NUM_MISSILES ∧ MissileInv env w l.length s.1)
    (fun i l s s1 hP hb1 => by
      have hl : l.length ≤ 4 := by
        have := hP.1
        simp only [List.length_cons] at this
        have hN : NUM_MISSILES = 5 := rfl
        omega
      exact ⟨by have hN : NUM_MISSILES = 5 := rfl; omega,
        missileStep_inv env fuel angle w i l.length s s1 hl hP.2 hb1⟩)
    (List.range NUM_MISSILES) _ s' ?_ hs
  · exact key.2
  · refine ⟨by simp, ?_⟩
    rw [List.length_range]
    split_ifs
    · exact MissileInv.congr env w _ w _ rfl rfl rfl rfl rfl rfl rfl rfl start
    · exact start

end AlienAdvance


namespace AlienAdvance

theorem playerHit_keeps (env : Env) (fuel : Nat) (msg : DebugMsg) (w w' : World)
    (hm : isKill msg = false) (h : playerHit env fuel msg w = some w') :
    w'.enemies = w.enemies ∧ killsLogged w'.log = killsLogged w.log := by
  have key : killsLogged (loseLife msg w).log = killsLogged w.log := by
    show killsLogged (w.log ++ [msg]) = _
    rw [killsLogged_append]
    simp [killsLogged, List.countP_cons, hm]
  unfold playerHit at h
  split_ifs at h with c
  · simp only [Option.some.injEq] at h; subst h
    exact ⟨rfl, key⟩
  · split at h
    · simp at h
    · simp only [Option.some.injEq] at h; subst h
      exact ⟨rfl, key⟩

theorem enemyStep_keeps (env : Env) (fuel i : Nat) (w w' : World)
    (h : enemyStep env fuel i w = some w') :
    (∀ k, (w'.enemies k).is_visible = (w.enemies k).is_visible) ∧
    killsLogged w'.log = killsLogged w.log := by
  unfold enemyStep at h
  split_ifs at h with c
  · simp only [Option.some.injEq] at h; subst h; exact ⟨fun _ => rfl, rfl⟩
  · have hm : (∀ k, ((enemyMove env i w).1.enemies k).is_visible = (w.enemies k).is_visible) ∧
        killsLogged (enemyMove env i w).1.log = killsLogged w.log := by
      unfold enemyMove
      split_ifs
      · exact ⟨fun _ => rfl, rfl⟩
      · refine ⟨fun k => ?_, rfl⟩
        by_cases e : k = i
        · subst e
          simp only [setAt, if_true]
          split_ifs <;> rfl
        · simp [setAt, e]
    have hstop : ∀ v : World,
        (∀ k, ((stopEnemy env i v).enemies k).is_visible = (v.enemies k).is_visible) ∧
        killsLogged (stopEnemy env i v).log = killsLogged v.log := by
      intro v
      refine ⟨fun k => ?_, rfl⟩
      by_cases e : k = i
      · subst e; simp [stopEnemy, setAt]
      · simp [stopEnemy, setAt, e]
    unfold enemyContact at h
    simp only [Option.map_eq_some'] at h
    obtain ⟨r, hr, rfl⟩ := h
    have hr1 : (∀ k, (r.1.enemies k).is_visible = (w.enemies k).is_visible) ∧
        killsLogged r.1.log = killsLogged w.log := by
      split_ifs at hr
      all_goals first
        | (have e := Option.some.inj hr; subst e; exact hm)
        | (simp only [Option.map_eq_some'] at hr
           obtain ⟨w1, h1, rfl⟩ := hr
           obtain ⟨a, b⟩ := playerHit_keeps env fuel DebugMsg.alienKilledPlayer _ _ rfl h1
           exact ⟨fun k => by show (w1.enemies k).is_visible = _; rw [a]; exact hm.1 k,
             b.trans hm.2⟩)
    split_ifs
    · exact ⟨fun k => ((hstop r.1).1 k).trans (hr1.1 k), (hstop r.1).2.trans hr1.2⟩
    · exact hr1

theorem enemiesPhase_keeps (env : Env) (fuel : Nat) (w w' : World)
    (h : enemiesPhase env fuel w = some w') :
    (∀ k, (w'.enemies k).is_visible = (w.enemies k).is_visible) ∧
    killsLogged w'.log = killsLogged w.log :=
  forM_invariant (enemyStep env fuel)
    (fun v => (∀ k, (v.enemies k).is_visible = (w.enemies k).is_visible) ∧
      killsLogged v.log = killsLogged w.log) _
    (fun i _ s s' hP hb =>
      ⟨fun k => ((enemyStep_keeps env fuel i s s' hb).1 k).trans (hP.1 k),
        (enemyStep_keeps env fuel i s s' hb).2.trans hP.2⟩) w w' ⟨fun _ => rfl, rfl⟩ h

theorem frameEntry_keeps (inp : Input) (w : World) :
    (frameEntry inp w).enemies = w.enemies ∧
    (frameEntry inp w).enemies_alive = w.enemies_alive ∧
    (frameEntry inp w).mothership_battle = w.mothership_battle ∧
    killsLogged (frameEntry inp w).log = killsLogged w.log := by
  have he := frameEntry_hide inp w
  refine ⟨by have e := congrArg World.enemies he; exact e,
    by have e := congrArg World.enemies_alive he; exact e,
    by have e := congrArg World.mothership_battle he; exact e, ?_⟩
  have hu : ∀ (l : List Int) (u : World), (l.foldl usbKey u).log = u.log := by
    intro l
    induction l with
    | nil => intro u; rfl
    | cons c t ih =>
      intro u
      rw [List.foldl_cons, ih]
      unfold usbKey
      split_ifs <;> rfl
  unfold frameEntry drainUsb
  rw [hu]
  unfold debugStep
  split_ifs
  · rfl
  · show killsLogged (w.log ++ _ ++ _) = _
    rw [killsLogged_append, killsLogged_append]
    simp [killsLogged, List.countP_cons, isKill]

/-- What a frame that starts in normal phase with the live count in step hands
to its missile part, and what the missile part makes of it. -/
theorem normalFrame_inv (env : Env) (fuel : Nat) (inp : Input) (w w' : World)
    (hb : w.mothership_battle = 0) (hc : w.enemies_alive = visibleCount w)
    (h : gameplayFrame env fuel inp w = some w') :
    ∃ v, v.mothership_battle = 0 ∧ v.enemies_alive = w.enemies_alive ∧
      killsLogged v.log = killsLogged w.log ∧ MissileInv env v 0 w' := by
  obtain ⟨f1, f2, f3, f4⟩ := frameEntry_keeps inp w
  rcases gameplayFrame_cases env fuel inp w w' h with ⟨-, w2, h1, h2⟩ | ⟨hne, -⟩
  · obtain ⟨g1, g2⟩ := enemiesPhase_keeps env fuel _ _ h1
    have hh := enemiesPhase_hide env fuel _ _ h1
    have a1 : w2.mothership_battle = (frameEntry inp w).mothership_battle := by
      have e := congrArg World.mothership_battle hh; exact e
    have a2 : w2.enemies_alive = (frameEntry inp w).enemies_alive := by
      have e := congrArg World.enemies_alive hh; exact e
    have hvc : visibleCount (playerStep w2) = visibleCount w := by
      apply visibleCount_congr
      intro k
      show (w2.enemies k).is_visible = _
      rw [g1 k, f1]
    have b1 : (playerStep w2).mothership_battle = 0 := (a1.trans f3).trans hb
    have b2 : (playerStep w2).enemies_alive = w.enemies_alive := a2.trans f2
    refine ⟨playerStep w2, b1, b2, g2.trans f4, ?_⟩
    exact missilesPhase_inv env fuel _ _ _ b1 (by rw [b2, hvc]; exact hc) h2
  · exact absurd (f3.trans hb) hne

/-- C9, as amended.  In a gameplay frame that starts in normal phase with the
live count in step, returns, and in which the kills logged are at least one
and as many as the live count at the start (the last enemy is killed by a
missile and the search for the mothership's place returns): at the end of the
frame the boss flag is set, the mothership is visible with zero velocity,
both of its timers lie in [2, 4] (for a `rand` that stays within `RAND_MAX`),
every enemy is invisible, and the mothership's health is between 11 and 15: it
is 15 when the switch is made, and each later missile slot of the same frame
that overlaps the new mothership takes 1 off. -/
theorem boss_entry_state_at_frame_end (env : Env) (fuel : Nat) (inp : Input)
    (w w' : World) (new : List DebugMsg) (henv : ∀ k, env.rand k ≤ env.RAND_MAX)
    (hb : w.mothership_battle = 0) (hc : w.enemies_alive = visibleCount w)
    (h : gameplayFrame env fuel inp w = some w') (hl : w'.log = w.log ++ new)
    (hk : 1 ≤ killsLogged new ∧ killsLogged new = w.enemies_alive) :
    w'.mothership_battle = 1 ∧ w'.mothership.is_visible = 1 ∧
    w'.mothership.dx = 0 ∧ w'.mothership.dy = 0 ∧
    11 ≤ w'.mother_health ∧ w'.mother_health ≤ 15 ∧
    2 ≤ w'.mother_move_timer ∧ w'.mother_move_timer ≤ 4 ∧
    2 ≤ w'.mother_shoot_timer ∧ w'.mother_shoot_timer ≤ 4 ∧
    (∀ j, j < NUM_ENEMIES → (w'.enemies j).is_visible = 0) ∧
    (∀ v v', enterBoss env fuel v = some v' → v'.mother_health = 15) := by
  obtain ⟨v, v1, v2, v3, hI⟩ := normalFrame_inv env fuel inp w w' hb hc h
  have hkl : killsLogged w'.log = killsLogged w.log + killsLogged new := by
    rw [hl, killsLogged_append]
  rcases hI with ⟨a1, a2, a3, a4, a5⟩ | ⟨b, e1, e2, e3⟩
  · exfalso
    have := a5 (by omega)
    omega
  · obtain ⟨b1, b2, b3, b4, b5, b6, b7, b8⟩ := b
    obtain ⟨t1, t2, t3, t4⟩ := b8 henv
    exact ⟨b1, b4, b5, b6, by omega, b7, t1, t2, t3, t4, b3,
      fun x x' hx => (enterBoss_result env fuel x x' hx).2.2.2.2.1⟩

theorem demoEnv_rand_le : ∀ k, demoEnv.rand k ≤ demoEnv.RAND_MAX := by
  intro k
  show (k * 4001) % 32768 ≤ 32767
  omega

set_option maxRecDepth 1000000 in
/-- C9, witness: the frame in which the missile of the example run kills the
only enemy left. -/
theorem boss_entry_state_at_frame_end_witness :
    (∀ k, demoEnv.rand k ≤ demoEnv.RAND_MAX) ∧
    lastEnemyWorld.mothership_battle = 0 ∧
    lastEnemyWorld.enemies_alive = visibleCount lastEnemyWorld ∧
    gameplayFrame demoEnv 10 quietInput lastEnemyWorld =
      some ((gameplayFrame demoEnv 10 quietInput lastEnemyWorld).getD powerOn) ∧
    ((gameplayFrame demoEnv 10 quietInput lastEnemyWorld).getD powerOn).log =
      lastEnemyWorld.log ++ [DebugMsg.playerKilledAlien] ∧
    (1 ≤ killsLogged [DebugMsg.playerKilledAlien] ∧
      killsLogged [DebugMsg.playerKilledAlien] = lastEnemyWorld.enemies_alive) ∧
    ((gameplayFrame demoEnv 10 quietInput lastEnemyWorld).getD powerOn).mothership_battle = 1 :=
  ⟨demoEnv_rand_le, by decide!, by decide!, eq_some_getD _ _ (by decide!), by decide!,
    ⟨by decide, by decide!⟩,
    (boss_entry_state_at_frame_end demoEnv 10 quietInput lastEnemyWorld _
      [DebugMsg.playerKilledAlien] demoEnv_rand_le (by decide!) (by decide!)
      (eq_some_getD _ _ (by decide!)) (by decide!) ⟨by decide, by decide!⟩).1⟩

set_option maxRecDepth 1000000 in
/-- C9, counterexample.  One enemy is left, the missile of slot 0 is about to
reach it, and the missile of slot 1 is in flight at (46, 32).  In the next
frame slot 0 kills the last enemy, the mothership is placed at (49, 30) with
health 15, and slot 1, moved to about (51, 32), overlaps it in the same
frame: the frame ends in the boss phase with health 14.  The line gives the
flag, the mothership's health and position, and the visibility of slot 1. -/
theorem boss_entry_health_fourteen :
    (gameplayFrame demoEnv 10 quietInput lastEnemyTwoMissiles).map
      (fun w' => (w'.mothership_battle, w'.mother_health, w'.mothership.x, w'.mothership.y,
        (w'.missiles 1).is_visible)) = some (1, 14, 49, 30, 0) := by
  decide!

end AlienAdvance


/-! ## The search for the mothership's place, and the end of the battle -/

namespace AlienAdvance

/-- Once `okay` is 0 the search for the mothership's place never returns. -/
theorem motherSearch_okay_zero (env : Env) (w : World) :
    ∀ fuel k, motherSearch env w fuel 0 k = none := by
  intro fuel
  induction fuel with
  | zero => intro k; rfl
  | succ n ih =>
    intro k
    unfold motherSearch
    simp only [ite_self, ne_eq, not_true_eq_false, if_false]
    exact ih (k + 2)

/-- When the first candidate lies inside the player's padded box the search for
the mothership's place never returns, whatever the later draws are. -/
theorem motherSearch_first_overlap (env : Env) (w : World) (k : Nat)
    (h : hitsPaddedPlayer w (candX env MSWIDTH k) (candY env MSHEIGHT (k + 1))
      MSWIDTH MSHEIGHT) :
    ∀ fuel, motherSearch env w fuel 1 k = none := by
  intro fuel
  cases fuel with
  | zero => rfl
  | succ n =>
    unfold motherSearch
    simp only [h, if_true, ne_eq, not_true_eq_false, if_false]
    exact motherSearch_okay_zero env w n (k + 2)

set_option maxRecDepth 1000000 in
/-- C8, the defect.  The last enemy is killed while the player stands at
(16, 25), and the draws make the first candidate for the mothership (11, 12),
inside the player's padded box, and the second (66, 10), clear of it.  The
search never returns, for any amount of fuel, because `okay` is not set back
to 1 inside the loop; `find_empty_position`, which does set it back, returns
the second candidate on the same draws; and the frame that makes the kill
does not return within 1000 rounds of the loop. -/
theorem mothership_search_hangs_after_first_overlap (fuel : Nat) :
    hitsPaddedPlayer (bossSetup stuckEnv lastKillWorld) (candX stuckEnv MSWIDTH 22)
      (candY stuckEnv MSHEIGHT 23) MSWIDTH MSHEIGHT ∧
    ¬ hitsPaddedPlayer (bossSetup stuckEnv lastKillWorld) (candX stuckEnv MSWIDTH 24)
      (candY stuckEnv MSHEIGHT 25) MSWIDTH MSHEIGHT ∧
    enterBoss stuckEnv fuel lastKillWorld = none ∧
    find_empty_position stuckEnv (bossSetup stuckEnv lastKillWorld) MSWIDTH MSHEIGHT 1 2 22 =
      some (66, 10, 26) ∧
    (gameplayFrame stuckEnv 1000 quietInput lastEnemyWorld).isNone = true := by
  have h1 : hitsPaddedPlayer (bossSetup stuckEnv lastKillWorld) (candX stuckEnv MSWIDTH 22)
      (candY stuckEnv MSHEIGHT 23) MSWIDTH MSHEIGHT := by decide!
  refine ⟨h1, by decide!, ?_, by decide!, by decide!⟩
  unfold enterBoss
  have hk : (bossSetup stuckEnv lastKillWorld).rand_calls = 22 := by decide!
  rw [hk, motherSearch_first_overlap stuckEnv _ 22 h1 fuel]

/-- What `find_empty_position` returns is clear of the player's padded box,
when asked, and of every enemy's padded box. -/
theorem find_empty_position_clear (env : Env) (w : World) (width height cp : Nat) :
    ∀ fuel k x y k', find_empty_position env w width height cp fuel k = some (x, y, k') →
      (cp ≠ 0 → ¬ hitsPaddedPlayer w x y width height) ∧
      (∀ i, i < NUM_ENEMIES → ¬ hitsPaddedEnemy w i x y width height) := by
  intro fuel
  induction fuel with
  | zero => intro k x y k' h; simp [find_empty_position] at h
  | succ n ih =>
    intro k x y k' h
    unfold find_empty_position at h
    dsimp only at h
    split_ifs at h with c1 c2 c3
    · exact absurd rfl c2.1
    · exact ih _ _ _ _ h
    · simp only [Option.some.injEq, Prod.mk.injEq] at h
      obtain ⟨rfl, rfl, -⟩ := h
      refine ⟨fun hcp hhit => c1 ⟨hcp, hhit⟩, fun i hi => ?_⟩
      have := c3.2
      rw [List.all_eq_true] at this
      simpa using this i (List.mem_range.mpr hi)
    · exact ih _ _ _ _ h

/-- The padded test of the search, written for the box an enemy occupies. -/
theorem not_hitsPaddedPlayer_iff (w : World) (x y : Nat) :
    ¬ hitsPaddedPlayer w x y EWIDTH EHEIGHT ↔
      ¬ overlaps (x : ℚ) (y : ℚ) EWIDTH EHEIGHT (w.player.x - 2) (w.player.y - 2)
        ((PWIDTH : ℚ) + 4) ((PHEIGHT : ℚ) + 4) := by
  unfold hitsPaddedPlayer overlaps
  simp only [EWIDTH, EHEIGHT, PWIDTH, PHEIGHT, Nat.cast_add, Nat.cast_ofNat, not_not, ge_iff_le]
  constructor
  · rintro (h | h | h | h)
    · left; linarith
    · right; left; linarith
    · right; right; left; linarith
    · right; right; right; linarith
  · rintro (h | h | h | h)
    · left; linarith
    · right; left; linarith
    · right; right; left; linarith
    · right; right; right; linarith

theorem placeEnemy_player (env : Env) (fuel cp i : Nat) (w w' : World)
    (h : placeEnemy env fuel cp i w = some w') : w'.player = w.player := by
  have e := congrArg World.player (placeEnemy_hide env fuel cp i w w' h)
  exact e

/-- An enemy placed with `check_player` set is clear of the player's padded
box, and placing another enemy does not change that. -/
theorem placeEnemy_clear (env : Env) (fuel i : Nat) (w w' : World)
    (h : placeEnemy env fuel 1 i w = some w') :
    (¬ overlaps (w'.enemies i).x (w'.enemies i).y EWIDTH EHEIGHT
        (w'.player.x - 2) (w'.player.y - 2) ((PWIDTH : ℚ) + 4) ((PHEIGHT : ℚ) + 4)) ∧
    ∀ j, (¬ overlaps (w.enemies j).x (w.enemies j).y EWIDTH EHEIGHT
        (w.player.x - 2) (w.player.y - 2) ((PWIDTH : ℚ) + 4) ((PHEIGHT : ℚ) + 4)) →
      ¬ overlaps (w'.enemies j).x (w'.enemies j).y EWIDTH EHEIGHT
        (w'.player.x - 2) (w'.player.y - 2) ((PWIDTH : ℚ) + 4) ((PHEIGHT : ℚ) + 4) := by
  have hp := placeEnemy_player env fuel 1 i w w' h
  unfold placeEnemy at h
  split at h
  · simp at h
  · rename_i x y k hf
    simp only [Option.some.injEq] at h
    subst h
    have hc := (find_empty_position_clear env w EWIDTH EHEIGHT 1 fuel _ x y k hf).1 (by decide)
    have hx := (not_hitsPaddedPlayer_iff w x y).mp hc
    have hself : ¬ overlaps ((setAt w.enemies i
        { w.enemies i with x := (x : ℚ), y := (y : ℚ), is_visible := 1 }) i).x
        ((setAt w.enemies i
          { w.enemies i with x := (x : ℚ), y := (y : ℚ), is_visible := 1 }) i).y EWIDTH EHEIGHT
        (w.player.x - 2) (w.player.y - 2) ((PWIDTH : ℚ) + 4) ((PHEIGHT : ℚ) + 4) := by
      rw [setAt_same]
      exact hx
    refine ⟨hself, fun j hj => ?_⟩
    by_cases e : j = i
    · subst e
      exact hself
    · show ¬ overlaps ((setAt w.enemies i _) j).x ((setAt w.enemies i _) j).y _ _ _ _ _ _
      rw [setAt_other _ _ _ _ e]
      exact hj

/-- After `reset_enemies(1)` no enemy's box overlaps the player's box grown by
2 on every side. -/
theorem reset_enemies_clear (env : Env) (fuel : Nat) (w w' : World)
    (h : reset_enemies env fuel 1 w = some w') :
    ∀ j, j < NUM_ENEMIES →
      ¬ overlaps (w'.enemies j).x (w'.enemies j).y EWIDTH EHEIGHT
        (w'.player.x - 2) (w'.player.y - 2) ((PWIDTH : ℚ) + 4) ((PHEIGHT : ℚ) + 4) := by
  unfold reset_enemies at h
  simp only [Option.map_eq_some'] at h
  obtain ⟨w1, h1, rfl⟩ := h
  intro j hj
  exact forM_establish (placeEnemy env fuel 1)
    (fun v => ¬ overlaps (v.enemies j).x (v.enemies j).y EWIDTH EHEIGHT
      (v.player.x - 2) (v.player.y - 2) ((PWIDTH : ℚ) + 4) ((PHEIGHT : ℚ) + 4)) j
    (fun s s' hb => (placeEnemy_clear env fuel j s s' hb).1)
    (fun k s s' hP hb => (placeEnemy_clear env fuel k s s' hb).2 j hP)
    (List.range NUM_ENEMIES) (List.mem_range.mpr hj) _ w1 h1

theorem hideEnemies_fields (a b : World) (h : hideEnemies a = hideEnemies b) :
    a.mothership_battle = b.mothership_battle ∧ a.score = b.score ∧
    a.missiles = b.missiles ∧ a.player = b.player := by
  refine ⟨?_, ?_, ?_, ?_⟩
  · have e := congrArg World.mothership_battle h; exact e
  · have e := congrArg World.score h; exact e
  · have e := congrArg World.missiles h; exact e
  · have e := congrArg World.player h; exact e

/-- C10, as amended.  With the mothership at health 1, a player missile that
overlaps it leaves, once placement returns: the boss flag clear, the score
increased by 10 modulo 65536 (by exactly 10 when the sum fits 16 bits), the
missile invisible, the mothership's missile invisible, the six enemies visible
with `enemies_alive = 6`, the player where it was, and no enemy's box
overlapping the player's box grown by 2 on every side. -/
theorem mothership_kill_resets_field (env : Env) (fuel i : Nat) (w w' : World)
    (hh : w.mother_health = 1)
    (ho : overlaps (w.missiles i).x (w.missiles i).y MWIDTH MHEIGHT
      w.mothership.x w.mothership.y MSWIDTH MSHEIGHT)
    (h : missileMothership env fuel i w = some w') :
    w'.mothership_battle = 0 ∧ w'.score = (w.score + 10) % 65536 ∧
    (w.score + 10 < 65536 → w'.score = w.score + 10) ∧
    (w'.missiles i).is_visible = 0 ∧ w'.mother_missile.is_visible = 0 ∧
    (∀ j, j < NUM_ENEMIES → (w'.enemies j).is_visible = 1) ∧ w'.enemies_alive = 6 ∧
    w'.player = w.player ∧
    (∀ j, j < NUM_ENEMIES →
      ¬ overlaps (w'.enemies j).x (w'.enemies j).y EWIDTH EHEIGHT
        (w'.player.x - 2) (w'.player.y - 2) ((PWIDTH : ℚ) + 4) ((PHEIGHT : ℚ) + 4)) := by
  unfold missileMothership at h
  rw [if_pos ho] at h
  have hz : (hitMothership i w).mother_health ≤ 0 := by
    show (w.mother_health + 255) % 256 ≤ 0
    rw [hh]
  rw [if_pos hz] at h
  simp only [Option.map_eq_some'] at h
  obtain ⟨w2, hr, rfl⟩ := h
  have hide := reset_enemies_hide env fuel 1 _ _ hr
  obtain ⟨hv, ha⟩ := reset_enemies_visible env fuel 1 _ _ hr
  have hc := reset_enemies_clear env fuel _ _ hr
  obtain ⟨f1, f2, f3, f4⟩ := hideEnemies_fields _ _ hide
  have e1 : w2.mothership_battle = 0 := f1
  have e2 : w2.score = (w.score + 10) % 65536 := f2
  have e3 : w2.missiles = (hitMothership i w).missiles := f3
  have e4 : w2.player = w.player := f4
  have g1 : (clearMotherMissile w2).mothership_battle = 0 := e1
  have g2 : (clearMotherMissile w2).score = (w.score + 10) % 65536 := e2
  have g3 : w.score + 10 < 65536 → (clearMotherMissile w2).score = w.score + 10 := by
    intro hlt
    rw [g2, Nat.mod_eq_of_lt hlt]
  have g4 : ((clearMotherMissile w2).missiles i).is_visible = 0 := by
    show (w2.missiles i).is_visible = 0
    rw [e3]
    show ((setAt w.missiles i _) i).is_visible = 0
    rw [setAt_same]
  have g5 : (clearMotherMissile w2).mother_missile.is_visible = 0 := rfl
  have g6 : ∀ j, j < NUM_ENEMIES → ((clearMotherMissile w2).enemies j).is_visible = 1 := hv
  have g7 : (clearMotherMissile w2).enemies_alive = 6 := ha
  have g8 : (clearMotherMissile w2).player = w.player := e4
  have g9 : ∀ j, j < NUM_ENEMIES →
      ¬ overlaps ((clearMotherMissile w2).enemies j).x ((clearMotherMissile w2).enemies j).y
        EWIDTH EHEIGHT ((clearMotherMissile w2).player.x - 2)
        ((clearMotherMissile w2).player.y - 2) ((PWIDTH : ℚ) + 4) ((PHEIGHT : ℚ) + 4) := hc
  exact ⟨g1, g2, g3, g4, g5, g6, g7, g8, g9⟩

set_option maxRecDepth 1000000 in
/-- C10, witness: the boss phase of the example run with the mothership at
health 1 and missile 1 on it.  With the score at 6, the score of the first
boss phase of a round, the hit leaves the flag clear, the score at 16, six
enemies alive and visible, and missile 1 and the mothership's missile
invisible: the last line gives these in this order. -/
theorem mothership_kill_resets_field_witness :
    bossOneHealth.mother_health = 1 ∧
    overlaps (bossOneHealth.missiles 1).x (bossOneHealth.missiles 1).y MWIDTH MHEIGHT
      bossOneHealth.mothership.x bossOneHealth.mothership.y MSWIDTH MSHEIGHT ∧
    missileMothership demoEnv 10 1 bossOneHealth =
      some ((missileMothership demoEnv 10 1 bossOneHealth).getD powerOn) ∧
    ((missileMothership demoEnv 10 1 bossOneHealth).getD powerOn).mothership_battle = 0 ∧
    (missileMothership demoEnv 10 1 { bossOneHealth with score := 6 }).map
      (fun w' => (w'.mothership_battle, w'.score, w'.enemies_alive, visibleCount w',
        (w'.missiles 1).is_visible, w'.mother_missile.is_visible)) =
      some (0, 16, 6, 6, 0, 0) :=
  ⟨by decide!, by decide!, eq_some_getD _ _ (by decide!),
    (mothership_kill_resets_field demoEnv 10 1 bossOneHealth _ (by decide!) (by decide!)
      (eq_some_getD _ _ (by decide!))).1, by decide!⟩

set_option maxRecDepth 1000000 in
/-- C10, counterexample.  The same world with the score at 65526.  It is a
world of the boss phase as the code keeps it: the flag is set, no enemy is
alive or visible, and the score plus the live count leaves 6 when divided by
16, as it does from the start of a round on (the score starts at 0 with six
alive, a kill moves 1 from the live count to the score, and a mothership kill
adds 10 to the score and 6 to the live count).  The missile that takes the
mothership from health 1 to 0 ends the boss phase and respawns the six
enemies, and the score after it is 0, which is not 65526 + 10.  The last line
gives the mothership's health before, and after the hit the flag, the score
and the live count. -/
theorem mothership_kill_score_wraps :
    ({ bossOneHealth with score := 65526 } : World).mothership_battle = 1 ∧
    ({ bossOneHealth with score := 65526 } : World).enemies_alive = 0 ∧
    visibleCount { bossOneHealth with score := 65526 } = 0 ∧
    (({ bossOneHealth with score := 65526 } : World).score +
      ({ bossOneHealth with score := 65526 } : World).enemies_alive) % 16 = 6 ∧
    (missileMothership demoEnv 10 1 { bossOneHealth with score := 65526 }).map
      (fun w' => (bossOneHealth.mother_health, w'.mothership_battle, w'.score,
        w'.enemies_alive)) = some (1, 0, 0, 6) := by
  refine ⟨?_, ?_, ?_, ?_, ?_⟩ <;> decide!

end AlienAdvance


/-! ## Spawn placement keeps its distance -/

namespace AlienAdvance

/-- The test of line 316 is the rectangle test against the player's box grown
by 2 on every side. -/
theorem hitsPaddedPlayer_iff (w : World) (x y width height : Nat) :
    hitsPaddedPlayer w x y width height ↔
      overlaps (x : ℚ) (y : ℚ) width height (w.player.x - 2) (w.player.y - 2)
        ((PWIDTH : ℚ) + 4) ((PHEIGHT : ℚ) + 4) := by
  unfold hitsPaddedPlayer overlaps
  simp only [PWIDTH, PHEIGHT, Nat.cast_add, Nat.cast_ofNat, ge_iff_le, not_iff_not]
  constructor
  · rintro (h | h | h | h)
    · left; linarith
    · right; left; linarith
    · right; right; left; linarith
    · right; right; right; linarith
  · rintro (h | h | h | h)
    · left; linarith
    · right; left; linarith
    · right; right; left; linarith
    · right; right; right; linarith

/-- The test of line 326 is the rectangle test against the box of enemy `i`
grown by 2 on every side. -/
theorem hitsPaddedEnemy_iff (w : World) (i x y width height : Nat) :
    hitsPaddedEnemy w i x y width height ↔
      overlaps (x : ℚ) (y : ℚ) width height ((w.enemies i).x - 2) ((w.enemies i).y - 2)
        ((EWIDTH : ℚ) + 4) ((EHEIGHT : ℚ) + 4) := by
  unfold hitsPaddedEnemy overlaps
  simp only [EWIDTH, EHEIGHT, Nat.cast_add, Nat.cast_ofNat, ge_iff_le, not_iff_not]
  constructor
  · rintro (h | h | h | h)
    · left; linarith
    · right; left; linarith
    · right; right; left; linarith
    · right; right; right; linarith
  · rintro (h | h | h | h)
    · left; linarith
    · right; left; linarith
    · right; right; left; linarith
    · right; right; right; linarith

/-- Two boxes that overlap still overlap when the second is grown by 2 on
every side. -/
theorem overlaps_grown (ax ay aw ah bx b_y bw bh : ℚ)
    (h : overlaps ax ay aw ah bx b_y bw bh) :
    overlaps ax ay aw ah (bx - 2) (b_y - 2) (bw + 4) (bh + 4) := by
  unfold overlaps at h ⊢
  simp only [ge_iff_le, not_or, not_le] at h ⊢
  obtain ⟨h1, h2, h3, h4⟩ := h
  refine ⟨?_, ?_, ?_, ?_⟩ <;> linarith

/-- The grown-box test between two enemy boxes does not depend on which of the
two is grown. -/
theorem overlaps_grown_symm (ax ay bx b_y : ℚ)
    (h : overlaps ax ay EWIDTH EHEIGHT (bx - 2) (b_y - 2) ((EWIDTH : ℚ) + 4) ((EHEIGHT : ℚ) + 4)) :
    overlaps bx b_y EWIDTH EHEIGHT (ax - 2) (ay - 2) ((EWIDTH : ℚ) + 4) ((EHEIGHT : ℚ) + 4) := by
  unfold overlaps at h ⊢
  simp only [ge_iff_le, not_or, not_le] at h ⊢
  obtain ⟨h1, h2, h3, h4⟩ := h
  refine ⟨?_, ?_, ?_, ?_⟩ <;> linarith

/-- Placing enemy `i` keeps the enemies placed so far clear of each other's
grown boxes. -/
theorem placeEnemy_apart (env : Env) (fuel cp i : Nat) (l : List Nat) (w w' : World)
    (hP : PlacedApart (i :: l) w) (h : placeEnemy env fuel cp i w = some w') :
    PlacedApart l w' := by
  unfold placeEnemy at h
  split at h
  · simp at h
  · rename_i x y k hf
    have hc := (find_empty_position_clear env w EWIDTH EHEIGHT cp fuel _ x y k hf).2
    have e := Option.some.inj h
    subst e
    intro a b ha hb hal hbl hab
    by_cases hai : a = i
    · subst hai
      have hbi : b ≠ a := fun e => hab e.symm
      have g := hc b hb
      rw [hitsPaddedEnemy_iff] at g
      simpa [setAt_same, setAt_other _ _ _ _ hbi] using g
    · by_cases hbi : b = i
      · subst hbi
        have g := hc a ha
        rw [hitsPaddedEnemy_iff] at g
        have g2 : ¬ overlaps (w.enemies a).x (w.enemies a).y EWIDTH EHEIGHT
            ((x : ℚ) - 2) ((y : ℚ) - 2) ((EWIDTH : ℚ) + 4) ((EHEIGHT : ℚ) + 4) :=
          fun o => g (overlaps_grown_symm _ _ _ _ o)
        simpa [setAt_same, setAt_other _ _ _ _ hai] using g2
      · have g := hP a b ha hb (by simp [hai, hal]) (by simp [hbi, hbl]) hab
        simpa [setAt_other _ _ _ _ hai, setAt_other _ _ _ _ hbi] using g

/-- After `reset_enemies` every enemy is clear of every other enemy's grown
box. -/
theorem reset_enemies_apart (env : Env) (fuel cp : Nat) (w w' : World)
    (h : reset_enemies env fuel cp w = some w') : PlacedApart [] w' := by
  unfold reset_enemies at h
  simp only [Option.map_eq_some'] at h
  obtain ⟨w1, h1, rfl⟩ := h
  have g := forM_invariant_rest (placeEnemy env fuel cp) PlacedApart
    (fun i l s s' hP hs => placeEnemy_apart env fuel cp i l s s' hP hs)
    (List.range NUM_ENEMIES) (enemiesToOrigin w) w1
    (fun a b ha _ hal _ _ => absurd (List.mem_range.mpr ha) hal) h1
  exact g

set_option maxRecDepth 1000000 in
/-- C11.  Whenever `find_empty_position` returns `(x, y)` for a box of the
given width and height, that box does not overlap the player's box grown by 2
on every side when `check_player` is set, and it overlaps no enemy's box grown
by 2 on every side; and after `reset_enemies` no enemy overlaps the grown box
of another enemy, so no two of the six enemies overlap. -/
theorem spawn_position_clear_of_padded_boxes (env : Env) (w : World)
    (width height check_player fuel k x y k' : Nat)
    (h : find_empty_position env w width height check_player fuel k = some (x, y, k')) :
    (check_player ≠ 0 →
      ¬ overlaps (x : ℚ) (y : ℚ) width height (w.player.x - 2) (w.player.y - 2)
        ((PWIDTH : ℚ) + 4) ((PHEIGHT : ℚ) + 4)) ∧
    (∀ i, i < NUM_ENEMIES →
      ¬ overlaps (x : ℚ) (y : ℚ) width height ((w.enemies i).x - 2) ((w.enemies i).y - 2)
        ((EWIDTH : ℚ) + 4) ((EHEIGHT : ℚ) + 4)) ∧
    (∀ fuel2 cp v v', reset_enemies env fuel2 cp v = some v' →
      ∀ i j, i < NUM_ENEMIES → j < NUM_ENEMIES → i ≠ j →
        ¬ overlaps (v'.enemies i).x (v'.enemies i).y EWIDTH EHEIGHT
          ((v'.enemies j).x - 2) ((v'.enemies j).y - 2)
          ((EWIDTH : ℚ) + 4) ((EHEIGHT : ℚ) + 4) ∧
        ¬ overlaps (v'.enemies i).x (v'.enemies i).y EWIDTH EHEIGHT
          (v'.enemies j).x (v'.enemies j).y EWIDTH EHEIGHT) := by
  obtain ⟨hp, he⟩ := find_empty_position_clear env w width height check_player fuel k x y k' h
  refine ⟨fun hcp => ?_, fun i hi => ?_, ?_⟩
  · rw [← hitsPaddedPlayer_iff]; exact hp hcp
  · rw [← hitsPaddedEnemy_iff]; exact he i hi
  · intro fuel2 cp v v' hr i j hi hj hij
    have g := reset_enemies_apart env fuel2 cp v v' hr i j hi hj (by simp) (by simp) hij
    exact ⟨g, fun o => g (overlaps_grown _ _ _ _ _ _ _ _ o)⟩

set_option maxRecDepth 1000000 in
/-- C11, witness: the search for a place of the player's size at the start of
the example round, with `check_player` set; it returns (72, 10). -/
theorem spawn_position_clear_of_padded_boxes_witness :
    find_empty_position demoEnv (afterRun startRound) PWIDTH PHEIGHT 1 10 20 = some (72, 10, 26) ∧
    ((1 : Nat) ≠ 0 →
      ¬ overlaps ((72 : Nat) : ℚ) ((10 : Nat) : ℚ) PWIDTH PHEIGHT
        ((afterRun startRound).player.x - 2) ((afterRun startRound).player.y - 2)
        ((PWIDTH : ℚ) + 4) ((PHEIGHT : ℚ) + 4)) ∧
    (∀ i, i < NUM_ENEMIES →
      ¬ overlaps ((72 : Nat) : ℚ) ((10 : Nat) : ℚ) PWIDTH PHEIGHT
        (((afterRun startRound).enemies i).x - 2) (((afterRun startRound).enemies i).y - 2)
        ((EWIDTH : ℚ) + 4) ((EHEIGHT : ℚ) + 4)) :=
  have h : find_empty_position demoEnv (afterRun startRound) PWIDTH PHEIGHT 1 10 20 =
      some (72, 10, 26) := by decide!
  ⟨h, (spawn_position_clear_of_padded_boxes demoEnv (afterRun startRound) PWIDTH PHEIGHT 1 10 20
      72 10 26 h).1,
    (spawn_position_clear_of_padded_boxes demoEnv (afterRun startRound) PWIDTH PHEIGHT 1 10 20
      72 10 26 h).2.1⟩

end AlienAdvance


/-! ## Clamping to the playfield -/

namespace AlienAdvance

/-- The clamp of one coordinate lands between its bounds. -/
theorem clampAxis_range (v lo hi : ℚ) (h : lo ≤ hi) :
    lo ≤ (clampAxis v lo hi).1 ∧ (clampAxis v lo hi).1 ≤ hi := by
  unfold clampAxis
  split_ifs with h1 h2
  · exact ⟨le_refl _, h⟩
  · exact ⟨h, le_refl _⟩
  · exact ⟨not_lt.mp h1, not_lt.mp h2⟩

/-- The enemy moved by an expired think timer sits where the two clamps put
it. -/
theorem enemyMove_clamped (env : Env) (i : Nat) (w : World) (ht : w.enemy_timers i ≤ 0) :
    ∃ vx vy : ℚ,
      ((enemyMove env i w).1.enemies i).x = (clampAxis vx 1 ((83 - EWIDTH : Nat) : ℚ)).1 ∧
      ((enemyMove env i w).1.enemies i).y = (clampAxis vy 9 ((47 - EHEIGHT : Nat) : ℚ)).1 := by
  unfold enemyMove
  rw [if_neg (not_lt.mpr ht)]
  dsimp only
  simp only [setAt_same]
  exact ⟨_, _, rfl, rfl⟩

/-- The mothership moved by an expired move timer sits where the two clamps
put it. -/
theorem mothershipMove_clamped (env : Env) (w : World) (ht : w.mother_move_timer ≤ 0) :
    ∃ vx vy : ℚ,
      (mothershipMove env w).1.mothership.x = (clampAxis vx 1 ((83 - MSWIDTH : Nat) : ℚ)).1 ∧
      (mothershipMove env w).1.mothership.y = (clampAxis vy 9 ((47 - MSHEIGHT : Nat) : ℚ)).1 := by
  unfold mothershipMove
  rw [if_neg (not_lt.mpr ht)]
  exact ⟨_, _, rfl, rfl⟩

/-- The two `if`s of lines 762-763 and 769-770 land between the bounds. -/
theorem playerClamp_range (v lo hi : ℚ) (h : lo ≤ hi) :
    lo ≤ (if (if v < lo then lo else v) > hi then hi else (if v < lo then lo else v)) ∧
    (if (if v < lo then lo else v) > hi then hi else (if v < lo then lo else v)) ≤ hi := by
  split_ifs with h1 h2 h3
  · exact ⟨h, le_refl _⟩
  · exact ⟨le_refl _, h⟩
  · exact ⟨h, le_refl _⟩
  · exact ⟨not_lt.mp h1, not_lt.mp h3⟩

/-- C12.  After the clamp of a moving entity its position is inside the
playfield: an enemy whose think timer has expired is in [1, 78] x [9, 42], the
mothership whose move timer has expired is in [1, 71] x [9, 35], and the
player is in [1, 78] on x when it moves along x and in [9, 42] on y when it
moves along y, whatever the position, the velocity and the delta time
before. -/
theorem clamp_keeps_moving_entities_in_field (env : Env) (i : Nat) (w : World) :
    (w.enemy_timers i ≤ 0 →
      1 ≤ ((enemyMove env i w).1.enemies i).x ∧ ((enemyMove env i w).1.enemies i).x ≤ 78 ∧
      9 ≤ ((enemyMove env i w).1.enemies i).y ∧ ((enemyMove env i w).1.enemies i).y ≤ 42) ∧
    (w.mother_move_timer ≤ 0 →
      1 ≤ (mothershipMove env w).1.mothership.x ∧ (mothershipMove env w).1.mothership.x ≤ 71 ∧
      9 ≤ (mothershipMove env w).1.mothership.y ∧ (mothershipMove env w).1.mothership.y ≤ 35) ∧
    (x_axis w ≠ 0 → 1 ≤ (playerStep w).player.x ∧ (playerStep w).player.x ≤ 78) ∧
    (y_axis w ≠ 0 → 9 ≤ (playerStep w).player.y ∧ (playerStep w).player.y ≤ 42) := by
  refine ⟨fun ht => ?_, fun ht => ?_, fun hx => ?_, fun hy => ?_⟩
  · obtain ⟨vx, vy, ex, ey⟩ := enemyMove_clamped env i w ht
    have gx := clampAxis_range vx 1 ((83 - EWIDTH : Nat) : ℚ) (by norm_num [EWIDTH])
    have gy := clampAxis_range vy 9 ((47 - EHEIGHT : Nat) : ℚ) (by norm_num [EHEIGHT])
    rw [ex, ey]
    norm_num [EWIDTH, EHEIGHT] at gx gy
    exact ⟨gx.1, gx.2, gy.1, gy.2⟩
  · obtain ⟨vx, vy, ex, ey⟩ := mothershipMove_clamped env w ht
    have gx := clampAxis_range vx 1 ((83 - MSWIDTH : Nat) : ℚ) (by norm_num [MSWIDTH])
    have gy := clampAxis_range vy 9 ((47 - MSHEIGHT : Nat) : ℚ) (by norm_num [MSHEIGHT])
    rw [ex, ey]
    norm_num [MSWIDTH, MSHEIGHT] at gx gy
    exact ⟨gx.1, gx.2, gy.1, gy.2⟩
  · have g := playerClamp_range (w.player.x + ((12 * x_axis w : Int) : ℚ) * w.DT) 1
      ((83 - PWIDTH : Nat) : ℚ) (by norm_num [PWIDTH])
    have e : (playerStep w).player.x =
        (if (if w.player.x + ((12 * x_axis w : Int) : ℚ) * w.DT < 1 then 1
            else w.player.x + ((12 * x_axis w : Int) : ℚ) * w.DT) > ((83 - PWIDTH : Nat) : ℚ)
          then ((83 - PWIDTH : Nat) : ℚ)
          else (if w.player.x + ((12 * x_axis w : Int) : ℚ) * w.DT < 1 then 1
            else w.player.x + ((12 * x_axis w : Int) : ℚ) * w.DT)) := by
      show (if x_axis w ≠ 0 then _ else _) = _
      rw [if_pos hx]
    rw [e]
    norm_num [PWIDTH] at g ⊢
    exact g
  · have g := playerClamp_range (w.player.y + ((12 * y_axis w : Int) : ℚ) * w.DT) 9
      ((47 - PHEIGHT : Nat) : ℚ) (by norm_num [PHEIGHT])
    have e : (playerStep w).player.y =
        (if (if w.player.y + ((12 * y_axis w : Int) : ℚ) * w.DT < 9 then 9
            else w.player.y + ((12 * y_axis w : Int) : ℚ) * w.DT) > ((47 - PHEIGHT : Nat) : ℚ)
          then ((47 - PHEIGHT : Nat) : ℚ)
          else (if w.player.y + ((12 * y_axis w : Int) : ℚ) * w.DT < 9 then 9
            else w.player.y + ((12 * y_axis w : Int) : ℚ) * w.DT)) := by
      show (if y_axis w ≠ 0 then _ else _) = _
      rw [if_pos hy]
    rw [e]
    norm_num [PHEIGHT] at g ⊢
    exact g

set_option maxRecDepth 1000000 in
/-- C12, witness: in the example world enemy 0 dashes left from x = 1 and is
put back on 1, the mothership dashes past (71, 35) and is put back on it, and
the player, asked to go left and up, stays inside the field. -/
theorem clamp_keeps_moving_entities_in_field_witness :
    clampDemo.enemy_timers 0 ≤ 0 ∧ clampDemo.mother_move_timer ≤ 0 ∧
    x_axis clampDemo ≠ 0 ∧ y_axis clampDemo ≠ 0 ∧
    ((enemyMove demoEnv 0 clampDemo).1.enemies 0).x = 1 ∧
    (mothershipMove demoEnv clampDemo).1.mothership.x = 71 ∧
    (mothershipMove demoEnv clampDemo).1.mothership.y = 35 ∧
    (1 ≤ (playerStep clampDemo).player.x ∧ (playerStep clampDemo).player.x ≤ 78) ∧
    (9 ≤ (playerStep clampDemo).player.y ∧ (playerStep clampDemo).player.y ≤ 42) :=
  ⟨by decide!, by decide!, by decide!, by decide!, by decide!, by decide!, by decide!,
    (clamp_keeps_moving_entities_in_field demoEnv 0 clampDemo).2.2.1 (by decide!),
    (clamp_keeps_moving_entities_in_field demoEnv 0 clampDemo).2.2.2 (by decide!)⟩

end AlienAdvance


/-! ## The state machine -/

namespace AlienAdvance

/-- A hit of the player leaves `GAME_STATE` alone or sets it to 3. -/
theorem playerHit_state (env : Env) (fuel : Nat) (msg : DebugMsg) (w w' : World)
    (h : playerHit env fuel msg w = some w') :
    w'.GAME_STATE = w.GAME_STATE ∨ w'.GAME_STATE = 3 := by
  unfold playerHit at h
  split_ifs at h with c
  · simp only [Option.some.injEq] at h; subst h; exact Or.inr rfl
  · split at h
    · simp at h
    · simp only [Option.some.injEq] at h; subst h; exact Or.inl rfl

theorem enemyStep_state (env : Env) (fuel i : Nat) (w w' : World)
    (h : enemyStep env fuel i w = some w') :
    w'.GAME_STATE = w.GAME_STATE ∨ w'.GAME_STATE = 3 := by
  unfold enemyStep at h
  split_ifs at h with c
  · simp only [Option.some.injEq] at h; subst h; exact Or.inl rfl
  · have hm : (enemyMove env i w).1.GAME_STATE = w.GAME_STATE := by
      unfold enemyMove
      split_ifs <;> rfl
    unfold enemyContact at h
    simp only [Option.map_eq_some'] at h
    obtain ⟨r, hr, rfl⟩ := h
    have hr1 : r.1.GAME_STATE = w.GAME_STATE ∨ r.1.GAME_STATE = 3 := by
      split_ifs at hr
      all_goals first
        | (have e := Option.some.inj hr; subst e; exact Or.inl hm)
        | (simp only [Option.map_eq_some'] at hr
           obtain ⟨w1, h1, rfl⟩ := hr
           rcases playerHit_state env fuel _ _ _ h1 with g | g
           · exact Or.inl (g.trans hm)
           · exact Or.inr g)
    split_ifs
    · exact hr1
    · exact hr1

theorem enemiesPhase_state (env : Env) (fuel : Nat) (w w' : World)
    (h : enemiesPhase env fuel w = some w') :
    w'.GAME_STATE = w.GAME_STATE ∨ w'.GAME_STATE = 3 :=
  forM_invariant (enemyStep env fuel)
    (fun v => v.GAME_STATE = w.GAME_STATE ∨ v.GAME_STATE = 3) _
    (fun i _ s s' hP hb => by
      rcases enemyStep_state env fuel i s s' hb with g | g
      · rcases hP with p | p
        · exact Or.inl (g.trans p)
        · exact Or.inr (g.trans p)
      · exact Or.inr g) w w' (Or.inl rfl) h

theorem mothershipPhase_state (env : Env) (fuel : Nat) (w : World) (r : World × Bool)
    (h : mothershipPhase env fuel w = some r) :
    r.1.GAME_STATE = w.GAME_STATE ∨ r.1.GAME_STATE = 3 := by
  unfold mothershipPhase at h
  simp only [Option.bind_eq_some] at h
  obtain ⟨w1, h1, h2⟩ := h
  have hm : (mothershipMove env w).1.GAME_STATE = w.GAME_STATE := by
    unfold mothershipMove
    split_ifs <;> rfl
  have hc : w1.GAME_STATE = w.GAME_STATE ∨ w1.GAME_STATE = 3 := by
    unfold mothershipContact at h1
    simp only [Option.map_eq_some'] at h1
    obtain ⟨q, hq, rfl⟩ := h1
    have hq1 : q.1.GAME_STATE = w.GAME_STATE ∨ q.1.GAME_STATE = 3 := by
      split_ifs at hq
      all_goals first
        | (have e := Option.some.inj hq; subst e; exact Or.inl hm)
        | (simp only [Option.map_eq_some'] at hq
           obtain ⟨w2, h3, rfl⟩ := hq
           rcases playerHit_state env fuel _ _ _ h3 with g | g
           · exact Or.inl (g.trans hm)
           · exact Or.inr g)
    split_ifs
    · exact hq1
    · exact hq1
  have hs : (mothershipShoot env w1).GAME_STATE = w1.GAME_STATE := by
    unfold mothershipShoot
    split_ifs <;> rfl
  have hs' : (mothershipShoot env w1).GAME_STATE = w.GAME_STATE ∨
      (mothershipShoot env w1).GAME_STATE = 3 := by
    rw [hs]; exact hc
  unfold motherMissileStep at h2
  split_ifs at h2 with c1 c2 c3
  · simp only [Option.some.injEq] at h2; subst h2
    exact hs'
  · simp only [Option.map_eq_some'] at h2
    obtain ⟨w3, h3, rfl⟩ := h2
    rcases playerHit_state env fuel _ _ _ h3 with g | g
    · rcases hs' with p | p
      · exact Or.inl (g.trans p)
      · exact Or.inr (g.trans p)
    · exact Or.inr g
  · simp only [Option.some.injEq] at h2; subst h2
    exact hs'
  · simp only [Option.some.injEq] at h2; subst h2
    exact hs'

/-- The missile part writes nothing outside the missile slots, the enemy
field, the mothership, the score, the log and the fire flag. -/
theorem missilesPhase_hide (env : Env) (fuel : Nat) (angle : ℚ) (w w' : World)
    (h : missilesPhase env fuel angle w = some w') :
    hideMissileStep { w' with btn_right_pressed := 0 } =
      hideMissileStep { w with btn_right_pressed := 0 } := by
  unfold missilesPhase at h
  simp only [Option.map_eq_some'] at h
  obtain ⟨r, hr, rfl⟩ := h
  have key := forM_invariant (missileStep env fuel angle)
    (fun s => hideMissileStep { s.1 with btn_right_pressed := 0 } =
      hideMissileStep { w with btn_right_pressed := 0 }) _
    (fun i _ s s' hP hb => by
      have g := (missileStep_hide env fuel angle i s s' hb).1
      have g2 : hideMissileStep { s'.1 with btn_right_pressed := 0 } =
          hideMissileStep { s.1 with btn_right_pressed := 0 } := by
        have e := congrArg (fun v : World => { v with btn_right_pressed := 0 }) g
        exact e
      exact g2.trans hP) _ r (by split_ifs <;> rfl) hr
  exact key

/-- The fields the missile part leaves alone. -/
theorem hideMissileStep_fields (a b : World)
    (h : hideMissileStep { a with btn_right_pressed := 0 } =
      hideMissileStep { b with btn_right_pressed := 0 }) :
    a.GAME_STATE = b.GAME_STATE ∧ a.lives = b.lives ∧ a.player = b.player ∧
    a.input_timer = b.input_timer ∧ a.last_clock = b.last_clock ∧ a.DT = b.DT ∧
    a.usb_left = b.usb_left ∧ a.usb_right = b.usb_right ∧ a.usb_up = b.usb_up ∧
    a.usb_down = b.usb_down ∧ a.usb_shoot = b.usb_shoot ∧ a.btn_states = b.btn_states := by
  refine ⟨?_, ?_, ?_, ?_, ?_, ?_, ?_, ?_, ?_, ?_, ?_, ?_⟩
  · have e := congrArg World.GAME_STATE h; exact e
  · have e := congrArg World.lives h; exact e
  · have e := congrArg World.player h; exact e
  · have e := congrArg World.input_timer h; exact e
  · have e := congrArg World.last_clock h; exact e
  · have e := congrArg World.DT h; exact e
  · have e := congrArg World.usb_left h; exact e
  · have e := congrArg World.usb_right h; exact e
  · have e := congrArg World.usb_up h; exact e
  · have e := congrArg World.usb_down h; exact e
  · have e := congrArg World.usb_shoot h; exact e
  · have e := congrArg World.btn_states h; exact e

/-- The fields the top of a gameplay frame leaves alone. -/
theorem hideEntry_fields (a b : World) (h : hideEntry a = hideEntry b) :
    a.GAME_STATE = b.GAME_STATE ∧ a.lives = b.lives ∧ a.player = b.player ∧
    a.input_timer = b.input_timer ∧ a.last_clock = b.last_clock ∧ a.DT = b.DT ∧
    a.btn_states = b.btn_states ∧ a.btn_right_pressed = b.btn_right_pressed ∧
    a.missiles = b.missiles ∧ a.enemies = b.enemies ∧ a.score = b.score ∧
    a.mothership_battle = b.mothership_battle := by
  refine ⟨?_, ?_, ?_, ?_, ?_, ?_, ?_, ?_, ?_, ?_, ?_, ?_⟩
  · have e := congrArg World.GAME_STATE h; exact e
  · have e := congrArg World.lives h; exact e
  · have e := congrArg World.player h; exact e
  · have e := congrArg World.input_timer h; exact e
  · have e := congrArg World.last_clock h; exact e
  · have e := congrArg World.DT h; exact e
  · have e := congrArg World.btn_states h; exact e
  · have e := congrArg World.btn_right_pressed h; exact e
  · have e := congrArg World.missiles h; exact e
  · have e := congrArg World.enemies h; exact e
  · have e := congrArg World.score h; exact e
  · have e := congrArg World.mothership_battle h; exact e

/-- A gameplay frame leaves `GAME_STATE` alone or sets it to 3. -/
theorem gameplayFrame_state (env : Env) (fuel : Nat) (inp : Input) (w w' : World)
    (h : gameplayFrame env fuel inp w = some w') :
    w'.GAME_STATE = w.GAME_STATE ∨ w'.GAME_STATE = 3 := by
  have he : (frameEntry inp w).GAME_STATE = w.GAME_STATE :=
    (hideEntry_fields _ _ (frameEntry_hide inp w)).1
  have hm : ∀ v v', missilesPhase env fuel (get_shooting_angle inp.adc) (playerStep v) = some v' →
      v'.GAME_STATE = v.GAME_STATE := by
    intro v v' hv
    have g := (hideMissileStep_fields _ _ (missilesPhase_hide env fuel _ _ _ hv)).1
    exact g
  rcases gameplayFrame_cases env fuel inp w w' h with ⟨-, w2, h1, h2⟩ | ⟨-, r, h1, h2⟩
  · rw [hm w2 w' h2, ← he]
    exact enemiesPhase_state env fuel _ _ h1
  · have hr := mothershipPhase_state env fuel _ r h1
    rw [he] at hr
    rcases h2 with ⟨-, rfl⟩ | ⟨-, h2⟩
    · exact hr
    · rw [hm r.1 w' h2]; exact hr

end AlienAdvance


/-! ## The edges of the state machine and the pause after game over -/

namespace AlienAdvance

/-- The debounce interrupt writes nothing but the button arrays and the fire
flag. -/
theorem isrButton_keeps (p : Pins) (i : Nat) (w : World) :
    (isrButton p i w).GAME_STATE = w.GAME_STATE ∧
    (isrButton p i w).input_timer = w.input_timer ∧
    (isrButton p i w).last_clock = w.last_clock := by
  unfold isrButton
  dsimp only
  split_ifs <;> exact ⟨rfl, rfl, rfl⟩

theorem ISR_keeps (p : Pins) (w : World) :
    (ISR_TIMER0_COMPA p w).GAME_STATE = w.GAME_STATE ∧
    (ISR_TIMER0_COMPA p w).input_timer = w.input_timer ∧
    (ISR_TIMER0_COMPA p w).last_clock = w.last_clock := by
  unfold ISR_TIMER0_COMPA
  have key : ∀ (l : List Nat) (v : World),
      (l.foldl (fun acc i => isrButton p i acc) v).GAME_STATE = v.GAME_STATE ∧
      (l.foldl (fun acc i => isrButton p i acc) v).input_timer = v.input_timer ∧
      (l.foldl (fun acc i => isrButton p i acc) v).last_clock = v.last_clock := by
    intro l
    induction l with
    | nil => intro v; exact ⟨rfl, rfl, rfl⟩
    | cons c t ih =>
      intro v
      rw [List.foldl_cons]
      obtain ⟨a1, a2, a3⟩ := ih (isrButton p c v)
      obtain ⟨b1, b2, b3⟩ := isrButton_keeps p c v
      exact ⟨a1.trans b1, a2.trans b2, a3.trans b3⟩
  exact key _ w

/-- What the top of an iteration makes of the clock and leaves of the rest. -/
theorem frameStart_fields (inp : Input) (w : World) :
    (frameStart inp w).DT = (deltaTime inp w).DT ∧
    (frameStart inp w).last_clock = get_system_clock inp.tcnt1_last ∧
    (frameStart inp w).input_timer = w.input_timer ∧
    (frameStart inp w).btn_states = w.btn_states ∧
    (frameStart inp w).GAME_STATE = w.GAME_STATE := by
  have h := frameStart_hide inp w
  refine ⟨?_, ?_, ?_, ?_, ?_⟩
  · unfold frameStart lightStep seedStep
    split_ifs <;> rfl
  · unfold frameStart lightStep seedStep
    split_ifs <;> rfl
  · have e := congrArg World.input_timer h; exact e
  · have e := congrArg World.btn_states h; exact e
  · have e := congrArg World.GAME_STATE h; exact e

/-- The delta time is not negative when the reading fits the counter and the
clock kept from the iteration before is at most one period. -/
theorem deltaTime_nonneg (inp : Input) (w : World) (hl : w.last_clock ≤ TIMER1_OVERFLOW) :
    0 ≤ (deltaTime inp w).DT := by
  unfold deltaTime
  dsimp only
  have hc : 0 ≤ get_system_clock inp.tcnt1_dt := by
    unfold get_system_clock TIMER1_TIME
    positivity
  split_ifs with c
  · linarith
  · exact not_lt.mp c

/-- The clock of a 16-bit reading is at most one period. -/
theorem get_system_clock_le (t : Nat) (h : t < 65536) :
    get_system_clock t ≤ TIMER1_OVERFLOW := by
  unfold get_system_clock TIMER1_OVERFLOW TIMER1_TIME
  have : (t : ℚ) ≤ 65535 := by exact_mod_cast Nat.lt_succ_iff.mp h
  linarith

/-- One iteration. -/
theorem stateStep_edges (env : Env) (fuel : Nat) (inp : Input) (v v' : World)
    (h : stateStep env fuel inp v = some v') :
    (v'.GAME_STATE = v.GAME_STATE ∨ (v.GAME_STATE = -1 ∧ v'.GAME_STATE = 0) ∨
      (v.GAME_STATE = 0 ∧ v'.GAME_STATE = 1) ∨ (v.GAME_STATE = 1 ∧ v'.GAME_STATE = 2) ∨
      (v.GAME_STATE = 2 ∧ v'.GAME_STATE = 3) ∨ (v.GAME_STATE = 3 ∧ v'.GAME_STATE = 0)) ∧
    (v.GAME_STATE = 0 → v'.last_clock = v.last_clock ∧
      ((v'.GAME_STATE = 0 ∧ 0 < v.input_timer ∧ v'.input_timer = v.input_timer - v.DT) ∨
        (v'.GAME_STATE = 0 ∧ v.input_timer ≤ 0 ∧ v'.input_timer = v.input_timer) ∨
        (v'.GAME_STATE = 1 ∧ v.input_timer ≤ 0 ∧
          (v.btn_states BTN_LEFT = BTN_STATE_DOWN ∨
            v.btn_states BTN_RIGHT = BTN_STATE_DOWN)))) ∧
    (v.GAME_STATE = 3 → v'.last_clock = v.last_clock ∧
      (v'.GAME_STATE = 3 ∨ (v'.GAME_STATE = 0 ∧ v'.input_timer = 1 / 2))) := by
  unfold stateStep at h
  by_cases c1 : v.GAME_STATE = -1
  · rw [if_pos c1] at h
    by_cases cu : inp.usb_ready = true
    · rw [if_pos cu] at h
      have e := Option.some.inj h; subst e
      refine ⟨Or.inr (Or.inl ⟨c1, rfl⟩), fun c => ?_, fun c => ?_⟩
      · rw [c1] at c; exact absurd c (by decide)
      · rw [c1] at c; exact absurd c (by decide)
    · rw [if_neg cu] at h; simp at h
  rw [if_neg c1] at h
  by_cases c3 : v.GAME_STATE = 0
  · rw [if_pos c3] at h
    have n3 : ¬ v.GAME_STATE = 3 := by rw [c3]; decide
    by_cases c4 : v.input_timer > 0
    · rw [if_pos c4] at h
      have e := Option.some.inj h; subst e
      exact ⟨Or.inl rfl, fun _ => ⟨rfl, Or.inl ⟨c3, c4, rfl⟩⟩, fun c => absurd c n3⟩
    · rw [if_neg c4] at h
      by_cases c5 : v.btn_states BTN_LEFT = BTN_STATE_DOWN ∨
          v.btn_states BTN_RIGHT = BTN_STATE_DOWN
      · rw [if_pos c5] at h
        have e := Option.some.inj h; subst e
        exact ⟨Or.inr (Or.inr (Or.inl ⟨c3, rfl⟩)),
          fun _ => ⟨rfl, Or.inr (Or.inr ⟨rfl, not_lt.mp c4, c5⟩)⟩, fun c => absurd c n3⟩
      · rw [if_neg c5] at h
        have e := Option.some.inj h; subst e
        exact ⟨Or.inl rfl, fun _ => ⟨rfl, Or.inr (Or.inl ⟨c3, not_lt.mp c4, rfl⟩)⟩,
          fun c => absurd c n3⟩
  rw [if_neg c3] at h
  by_cases c6 : v.GAME_STATE = 1
  · rw [if_pos c6] at h
    have n3 : ¬ v.GAME_STATE = 3 := by rw [c6]; decide
    by_cases c7 : v.countdown > 1
    · rw [if_pos c7] at h
      have e := Option.some.inj h; subst e
      exact ⟨Or.inl rfl, fun c => absurd c c3, fun c => absurd c n3⟩
    · rw [if_neg c7] at h
      have g := (roundInit_result env fuel inp v v' h).1
      exact ⟨Or.inr (Or.inr (Or.inr (Or.inl ⟨c6, g⟩))), fun c => absurd c c3,
        fun c => absurd c n3⟩
  rw [if_neg c6] at h
  by_cases c8 : v.GAME_STATE = 2
  · rw [if_pos c8] at h
    have n3 : ¬ v.GAME_STATE = 3 := by rw [c8]; decide
    refine ⟨?_, fun c => absurd c c3, fun c => absurd c n3⟩
    rcases gameplayFrame_state env fuel inp v v' h with g | g
    · exact Or.inl g
    · exact Or.inr (Or.inr (Or.inr (Or.inr (Or.inl ⟨c8, g⟩))))
  rw [if_neg c8] at h
  by_cases c9 : v.GAME_STATE = 3
  · rw [if_pos c9] at h
    by_cases c10 : v.btn_states BTN_LEFT = BTN_STATE_DOWN ∨
        v.btn_states BTN_RIGHT = BTN_STATE_DOWN
    · rw [if_pos c10] at h
      have e := Option.some.inj h; subst e
      exact ⟨Or.inr (Or.inr (Or.inr (Or.inr (Or.inr ⟨c9, rfl⟩)))), fun c => absurd c c3,
        fun _ => ⟨rfl, Or.inr ⟨rfl, rfl⟩⟩⟩
    · rw [if_neg c10] at h
      have e := Option.some.inj h; subst e
      exact ⟨Or.inl rfl, fun c => absurd c c3, fun _ => ⟨rfl, Or.inl c9⟩⟩
  rw [if_neg c9] at h
  have e := Option.some.inj h; subst e
  exact ⟨Or.inl rfl, fun c => absurd c c3, fun c => absurd c c9⟩

/-- While the state stays Intro the input timer has lost at most the time
elapsed. -/
theorem intro_timer_bound (env : Env) (fuel : Nat) :
    ∀ (es : List Event) (w v : World), staysIntro env fuel es w = true →
      sixteenBit es = true → w.last_clock ≤ TIMER1_OVERFLOW →
      run env fuel es w = some v →
      w.input_timer - elapsed env fuel es w ≤ v.input_timer ∧ v.GAME_STATE = 0 := by
  intro es
  induction es with
  | nil =>
    intro w v hs _ _ hr
    have e : w = v := Option.some.inj hr
    subst e
    refine ⟨by simp [elapsed], ?_⟩
    simpa [staysIntro] using hs
  | cons e t ih =>
    intro w v hs hb hl hr
    have hb2 : sixteenBit t = true := by
      unfold sixteenBit at hb ⊢
      rw [List.all_cons, Bool.and_eq_true] at hb
      exact hb.2
    unfold staysIntro at hs
    rw [Bool.and_eq_true] at hs
    obtain ⟨hs0, hs1⟩ := hs
    have hw0 : w.GAME_STATE = 0 := by simpa using hs0
    cases e with
    | tick p =>
      have hstep : step env fuel (Event.tick p) w = some (ISR_TIMER0_COMPA p w) := rfl
      rw [hstep] at hs1
      have hr2 : run env fuel t (ISR_TIMER0_COMPA p w) = some v := hr
      obtain ⟨k1, k2, k3⟩ := ISR_keeps p w
      have g := ih (ISR_TIMER0_COMPA p w) v hs1 hb2 (by rw [k3]; exact hl) hr2
      rw [k2] at g
      exact g
    | iteration inp =>
      have hr' : (mainIteration env fuel inp w).bind (run env fuel t) = some v := hr
      rw [Option.bind_eq_some] at hr'
      obtain ⟨w1, h1, h2⟩ := hr'
      have hstep : step env fuel (Event.iteration inp) w = some w1 := h1
      rw [hstep] at hs1
      have hbits : inp.tcnt1_dt < 65536 ∧ inp.tcnt1_last < 65536 := by
        unfold sixteenBit at hb
        rw [List.all_cons, Bool.and_eq_true] at hb
        simpa using hb.1
      obtain ⟨f1, f2, f3, f4, f5⟩ := frameStart_fields inp w
      have hdt : 0 ≤ (frameStart inp w).DT := by
        rw [f1]; exact deltaTime_nonneg inp w hl
      have hst : stateStep env fuel inp (frameStart inp w) = some w1 := h1
      obtain ⟨-, hi, -⟩ := stateStep_edges env fuel inp _ w1 hst
      obtain ⟨hc, hcase⟩ := hi (f5.trans hw0)
      have hl1 : w1.last_clock ≤ TIMER1_OVERFLOW := by
        rw [hc, f2]; exact get_system_clock_le _ hbits.2
      obtain ⟨g1, g2⟩ := ih w1 v hs1 hb2 hl1 h2
      have he : elapsed env fuel (Event.iteration inp :: t) w =
          (frameStart inp w).DT + elapsed env fuel t w1 := by
        show (frameStart inp w).DT + (match mainIteration env fuel inp w with
          | some w1 => elapsed env fuel t w1
          | none => 0) = _
        rw [h1]
      refine ⟨?_, g2⟩
      rw [he]
      rcases hcase with ⟨-, -, q⟩ | ⟨-, -, q⟩ | ⟨q, -, -⟩
      · rw [f3] at q; linarith
      · rw [f3] at q; linarith
      · have : w1.GAME_STATE = 0 := by
          cases t with
          | nil => simpa [staysIntro] using hs1
          | cons e2 t2 =>
            unfold staysIntro at hs1
            rw [Bool.and_eq_true] at hs1
            simpa using hs1.1
        rw [q] at this
        exact absurd this (by decide)

/-- C13.  The state at power-on is Connecting (-1).  An iteration of the main
loop that returns keeps the state or takes exactly one of the edges
Connecting to Intro, Intro to Countdown, Countdown to Gameplay, Gameplay to
GameOver, GameOver to Intro.  Intro to Countdown is taken only with the input
timer not positive and the left or the right button Down.  GameOver to Intro
sets the input timer to 0.5, and after it, while the state stays Intro and the
readings of the counter fit its 16 bits, an iteration can leave Intro only
when the delta times of the Intro iterations before it add up to at least
0.5. -/
theorem state_machine_edges (env : Env) (fuel : Nat) (inp : Input) (w w' : World)
    (h : mainIteration env fuel inp w = some w') :
    powerOn.GAME_STATE = -1 ∧
    (w'.GAME_STATE = w.GAME_STATE ∨ (w.GAME_STATE = -1 ∧ w'.GAME_STATE = 0) ∨
      (w.GAME_STATE = 0 ∧ w'.GAME_STATE = 1) ∨ (w.GAME_STATE = 1 ∧ w'.GAME_STATE = 2) ∨
      (w.GAME_STATE = 2 ∧ w'.GAME_STATE = 3) ∨ (w.GAME_STATE = 3 ∧ w'.GAME_STATE = 0)) ∧
    (w.GAME_STATE = 0 → w'.GAME_STATE = 1 →
      w.input_timer ≤ 0 ∧
      (w.btn_states BTN_LEFT = BTN_STATE_DOWN ∨ w.btn_states BTN_RIGHT = BTN_STATE_DOWN)) ∧
    (w.GAME_STATE = 3 → w'.GAME_STATE = 0 → w'.input_timer = 1 / 2) ∧
    (w.GAME_STATE = 3 → w'.GAME_STATE = 0 → inp.tcnt1_last < 65536 →
      ∀ (es : List Event) (v v2 : World) (inp2 : Input),
        sixteenBit es = true → staysIntro env fuel es w' = true →
        run env fuel es w' = some v → mainIteration env fuel inp2 v = some v2 →
        v2.GAME_STATE = 1 → 1 / 2 ≤ elapsed env fuel es w') := by
  obtain ⟨f1, f2, f3, f4, f5⟩ := frameStart_fields inp w
  have hst : stateStep env fuel inp (frameStart inp w) = some w' := h
  obtain ⟨e1, e2, e3⟩ := stateStep_edges env fuel inp _ w' hst
  rw [f5] at e1 e2 e3
  rw [f3, f4] at e2
  refine ⟨rfl, e1, fun h0 h1 => ?_, fun h3 h0 => ?_, fun h3 h0 hb es v v2 inp2 hbits hstay hrun hleave h1 => ?_⟩
  · rcases (e2 h0).2 with ⟨q, -, -⟩ | ⟨q, -, -⟩ | ⟨-, q1, q2⟩
    · rw [h1] at q; exact absurd q (by decide)
    · rw [h1] at q; exact absurd q (by decide)
    · exact ⟨q1, q2⟩
  · rcases (e3 h3).2 with q | ⟨-, q⟩
    · rw [h0] at q; exact absurd q (by decide)
    · exact q
  · have ht : w'.input_timer = 1 / 2 := by
      rcases (e3 h3).2 with q | ⟨-, q⟩
      · rw [h0] at q; exact absurd q (by decide)
      · exact q
    have hl : w'.last_clock ≤ TIMER1_OVERFLOW := by
      rw [(e3 h3).1, f2]; exact get_system_clock_le _ hb
    obtain ⟨g1, g2⟩ := intro_timer_bound env fuel es w' v hstay hbits hl hrun
    obtain ⟨k1, k2, k3, k4, k5⟩ := frameStart_fields inp2 v
    have hst2 : stateStep env fuel inp2 (frameStart inp2 v) = some v2 := hleave
    obtain ⟨-, d2, -⟩ := stateStep_edges env fuel inp2 _ v2 hst2
    rw [k5, k3] at d2
    rcases (d2 g2).2 with ⟨q, -, -⟩ | ⟨q, -, -⟩ | ⟨-, q1, -⟩
    · rw [h1] at q; exact absurd q (by decide)
    · rw [h1] at q; exact absurd q (by decide)
    · rw [ht] at g1; linarith

set_option maxRecDepth 1000000 in
/-- C13, witness: the example run that ended in GameOver, with the left button
held.  The next iteration goes to Intro with the timer at 0.5; two Intro
iterations of half a second each follow, and the third leaves for
Countdown. -/
theorem state_machine_edges_witness :
    mainIteration rowEnv 10 (inputAt 12300 []) gameOverWorld =
      some ((mainIteration rowEnv 10 (inputAt 12300 []) gameOverWorld).getD powerOn) ∧
    gameOverWorld.GAME_STATE = 3 ∧
    ((mainIteration rowEnv 10 (inputAt 12300 []) gameOverWorld).getD powerOn).GAME_STATE = 0 ∧
    ((mainIteration rowEnv 10 (inputAt 12300 []) gameOverWorld).getD powerOn).input_timer =
      1 / 2 ∧
    ((run rowEnv 10 [iterAt 16206 [], iterAt 20112 [], iterAt 20200 []]
      ((mainIteration rowEnv 10 (inputAt 12300 []) gameOverWorld).getD powerOn)).map
        (fun v => v.GAME_STATE)) = some 1 ∧
    1 / 2 ≤ elapsed rowEnv 10 [iterAt 16206 [], iterAt 20112 []]
      ((mainIteration rowEnv 10 (inputAt 12300 []) gameOverWorld).getD powerOn) :=
  have h := eq_some_getD (mainIteration rowEnv 10 (inputAt 12300 []) gameOverWorld) powerOn
    (by decide!)
  have h3 : gameOverWorld.GAME_STATE = 3 := by decide!
  have h0 : ((mainIteration rowEnv 10 (inputAt 12300 []) gameOverWorld).getD
      powerOn).GAME_STATE = 0 := by decide!
  have hr := eq_some_getD (run rowEnv 10 [iterAt 16206 [], iterAt 20112 []]
      ((mainIteration rowEnv 10 (inputAt 12300 []) gameOverWorld).getD powerOn)) powerOn
    (by decide!)
  have hm := eq_some_getD (mainIteration rowEnv 10 (inputAt 20200 [])
      ((run rowEnv 10 [iterAt 16206 [], iterAt 20112 []]
        ((mainIteration rowEnv 10 (inputAt 12300 []) gameOverWorld).getD powerOn)).getD
          powerOn)) powerOn (by decide!)
  ⟨h, h3, h0,
    (state_machine_edges rowEnv 10 (inputAt 12300 []) gameOverWorld _ h).2.2.2.1 h3 h0,
    by decide!,
    (state_machine_edges rowEnv 10 (inputAt 12300 []) gameOverWorld _ h).2.2.2.2 h3 h0
      (by decide) [iterAt 16206 [], iterAt 20112 []] _ _ (inputAt 20200 [])
      (by decide) (by decide!) hr hm (by decide!)⟩

end AlienAdvance


/-! ## The fire edge and the frame that is cut short -/

namespace AlienAdvance

/-- The boss branch hands back `true`, the `continue` of line 640, exactly when
the missile of the mothership is in flight at line 632 and its move takes it
out of the playfield. -/
theorem mothershipPhase_cut (env : Env) (fuel : Nat) (w : World) (r : World × Bool)
    (h : mothershipPhase env fuel w = some r) :
    ∃ v, atMotherMissile env fuel w = some v ∧
      (r.2 = true ↔ (v.mother_missile.is_visible ≠ 0 ∧ outOfField (movedMotherMissile v))) ∧
      (r.2 = true → r.1 = dropMotherMissile v) := by
  unfold mothershipPhase at h
  simp only [Option.bind_eq_some] at h
  obtain ⟨w1, h1, h2⟩ := h
  refine ⟨mothershipShoot env w1, ?_, ?_⟩
  · unfold atMotherMissile
    rw [h1]; rfl
  · unfold motherMissileStep at h2
    by_cases c1 : (mothershipShoot env w1).mother_missile.is_visible ≠ 0
    · rw [if_pos c1] at h2
      by_cases c2 : outOfField (movedMotherMissile (mothershipShoot env w1))
      · rw [if_pos (show _ ∨ _ ∨ _ ∨ _ from c2)] at h2
        have e := Option.some.inj h2; subst e
        exact ⟨⟨fun _ => ⟨c1, c2⟩, fun _ => rfl⟩, fun _ => rfl⟩
      · rw [if_neg (show ¬ (_ ∨ _ ∨ _ ∨ _) from c2)] at h2
        have hf : r.2 = false := by
          split_ifs at h2
          · simp only [Option.map_eq_some'] at h2
            obtain ⟨w3, -, rfl⟩ := h2
            rfl
          · have e := Option.some.inj h2; subst e; rfl
        rw [hf]
        exact ⟨⟨fun e => absurd e (by decide), fun e => absurd e.2 c2⟩,
          fun e => absurd e (by decide)⟩
    · rw [if_neg c1] at h2
      have e := Option.some.inj h2; subst e
      exact ⟨⟨fun e => absurd e Bool.false_ne_true, fun e => absurd e.1 c1⟩,
        fun e => absurd e Bool.false_ne_true⟩

/-- C14.  A gameplay frame that returns and is not cut short leaves the fire
flag clear and, with a fire edge (the latched flag or a space on the serial
channel), activates exactly the first slot that was free at the start of the
frame, none when all five were in flight, and none without a fire edge.  A
frame that is cut short, which is a boss frame in which the missile of the
mothership leaves the playfield, activates no slot whatever the fire edge,
and leaves the missile slots and the latched flag as they were. -/
theorem fire_edge_lost_when_frame_cut_short (env : Env) (fuel : Nat) (inp : Input)
    (w w' : World) (h : gameplayFrame env fuel inp w = some w') :
    (cutShort env fuel inp w = false →
      w'.btn_right_pressed = 0 ∧
      firedSlots w w' =
        (if w.btn_right_pressed ≠ 0 ∨ (32 : Int) ∈ inp.usb then (freeSlots w).take 1
          else [])) ∧
    (cutShort env fuel inp w = true →
      firedSlots w w' = [] ∧ w'.missiles = w.missiles ∧
      w'.btn_right_pressed = w.btn_right_pressed) := by
  have finish : ∀ v, hidePhase v = hidePhase (frameEntry inp w) →
      missilesPhase env fuel (get_shooting_angle inp.adc) (playerStep v) = some w' →
      w'.btn_right_pressed = 0 ∧
      firedSlots w w' =
        (if w.btn_right_pressed ≠ 0 ∨ (32 : Int) ∈ inp.usb then (freeSlots w).take 1
          else []) := by
    intro v hv hm
    obtain ⟨a, b, c, -⟩ := missile_inputs inp w v hv
    obtain ⟨g1, g2⟩ := missilesPhase_fired env fuel _ _ _ hm
    refine ⟨g1, ?_⟩
    rw [← firedSlots_congr _ _ _ a, g2, b, c, freeSlots_congr _ _ a]
    by_cases h32 : (32 : Int) ∈ inp.usb <;> simp [h32]
  rcases gameplayFrame_cases env fuel inp w w' h with ⟨hb, w2, h1, h2⟩ | ⟨hb, r, h1, h2⟩
  · have hc : cutShort env fuel inp w = false := by
      unfold cutShort
      simp [hb]
    refine ⟨fun _ => finish w2 (enemiesPhase_hide env fuel _ _ h1) h2, fun c => ?_⟩
    rw [hc] at c
    exact absurd c (by decide)
  · have hr := mothershipPhase_hide env fuel _ r h1
    obtain ⟨v, hv, hiff, -⟩ := mothershipPhase_cut env fuel _ r h1
    have hc : cutShort env fuel inp w = true ↔ r.2 = true := by
      unfold cutShort
      rw [hv]
      simp only [Bool.and_eq_true, decide_eq_true_eq]
      rw [hiff]
      exact ⟨fun c => c.2, fun c => ⟨hb, c⟩⟩
    rcases h2 with ⟨hr2, rfl⟩ | ⟨hr2, h2⟩
    · obtain ⟨a, b, -, -⟩ := missile_inputs inp w r.1 hr
      refine ⟨fun c => ?_, fun _ => ⟨firedSlots_self _ _ a, a, b⟩⟩
      rw [hc.mpr hr2] at c
      exact absurd c (by decide)
    · refine ⟨fun _ => finish r.1 hr h2, fun c => ?_⟩
      rw [hc.mp c] at hr2
      exact absurd hr2 (by decide)

set_option maxRecDepth 1000000 in
/-- C14, witness and failing frame.  In the boss phase of the example run the
missile of the mothership is at (80, 20) and flies right, the fire flag is
latched and all five slots are free.  The frame is cut short: no slot is
activated and the flag is still latched at its end.  With a space on the
serial channel in place of the flag, the frame is cut short as well and the
frame after it starts no missile either: that shot is lost. -/
theorem fire_edge_lost_when_frame_cut_short_witness :
    gameplayFrame demoEnv 10 quietInput cutShortDemo =
      some ((gameplayFrame demoEnv 10 quietInput cutShortDemo).getD powerOn) ∧
    cutShort demoEnv 10 quietInput cutShortDemo = true ∧
    cutShortDemo.btn_right_pressed = 1 ∧ freeSlots cutShortDemo = [0, 1, 2, 3, 4] ∧
    (firedSlots cutShortDemo ((gameplayFrame demoEnv 10 quietInput cutShortDemo).getD powerOn) =
        [] ∧
      ((gameplayFrame demoEnv 10 quietInput cutShortDemo).getD powerOn).missiles =
        cutShortDemo.missiles ∧
      ((gameplayFrame demoEnv 10 quietInput cutShortDemo).getD powerOn).btn_right_pressed =
        cutShortDemo.btn_right_pressed) ∧
    ((gameplayFrame demoEnv 10 spaceInput { cutShortDemo with btn_right_pressed := 0 }).bind
        (gameplayFrame demoEnv 10 quietInput)).map missilesInFlight = some 0 :=
  have h := eq_some_getD (gameplayFrame demoEnv 10 quietInput cutShortDemo) powerOn (by decide!)
  have hc : cutShort demoEnv 10 quietInput cutShortDemo = true := by decide!
  ⟨h, hc, by decide!, by decide!,
    (fire_edge_lost_when_frame_cut_short demoEnv 10 quietInput cutShortDemo _ h).2 hc,
    by decide!⟩

end AlienAdvance


/-! ## The delta time and the period of the counter -/

namespace AlienAdvance

/-- C15.  For readings `prev` (kept as `last_clock`) and `cur` of the counter,
in particular for all 16-bit readings: with `cur ≥ prev` the delta time of the frame is `cur - prev` ticks
of 1/7812.5; with `cur < prev` it is `cur - prev + 65535` ticks, since
`TIMER1_OVERFLOW` is 65535 ticks, and that is one tick less than the
`cur - prev + 65536` of the full period, the one `get_system_time` counts for
each overflow. -/
theorem delta_time_wrap_adds_65535_ticks (inp : Input) (w : World) (prev : Nat)
    (hl : w.last_clock = get_system_clock prev) :
    (frameStart inp w).DT = (deltaTime inp w).DT ∧
    TIMER1_TIME = 1 / (78125 / 10) ∧
    (prev ≤ inp.tcnt1_dt →
      (deltaTime inp w).DT = ((inp.tcnt1_dt : ℚ) - (prev : ℚ)) * TIMER1_TIME) ∧
    (inp.tcnt1_dt < prev →
      (deltaTime inp w).DT = ((inp.tcnt1_dt : ℚ) - (prev : ℚ) + 65535) * TIMER1_TIME ∧
      (deltaTime inp w).DT ≠ ((inp.tcnt1_dt : ℚ) - (prev : ℚ) + 65536) * TIMER1_TIME) ∧
    (∀ n t : Nat, get_system_time (n + 1) t - get_system_time n t = 65536 * TIMER1_TIME) := by
  refine ⟨(frameStart_fields inp w).1, by norm_num [TIMER1_TIME], fun hle => ?_, fun hlt => ?_,
    fun n t => ?_⟩
  · unfold deltaTime
    dsimp only
    rw [hl]
    unfold get_system_clock TIMER1_TIME
    have : (prev : ℚ) ≤ (inp.tcnt1_dt : ℚ) := by exact_mod_cast hle
    rw [if_neg (by linarith)]
    ring
  · unfold deltaTime
    dsimp only
    rw [hl]
    unfold get_system_clock TIMER1_OVERFLOW TIMER1_TIME
    have : (inp.tcnt1_dt : ℚ) < (prev : ℚ) := by exact_mod_cast hlt
    rw [if_pos (by linarith)]
    constructor
    · ring
    · intro e
      linarith
  · unfold get_system_time TIMER1_TIME
    push_cast
    ring

set_option maxRecDepth 1000000 in
/-- C15, witness and failing readings: the counter goes from 65535 to 0, one
tick, and the delta time of the frame is 0. -/
theorem delta_time_wrap_adds_65535_ticks_witness :
    clockAtTop.last_clock = get_system_clock 65535 ∧
    (inputAt 0 []).tcnt1_dt < 65535 ∧
    (frameStart (inputAt 0 []) clockAtTop).DT = 0 ∧
    (deltaTime (inputAt 0 []) clockAtTop).DT =
      (((inputAt 0 []).tcnt1_dt : ℚ) - ((65535 : Nat) : ℚ) + 65535) * TIMER1_TIME :=
  ⟨rfl, by decide, by decide!,
    ((delta_time_wrap_adds_65535_ticks (inputAt 0 []) clockAtTop 65535 rfl).2.2.2.1
      (by decide)).1⟩

end AlienAdvance


/-! ## The drain of the serial channel -/

namespace AlienAdvance

/-- One character and the five flags. -/
theorem usbKey_flags (v : World) (c : Int) :
    (usbKey v c).usb_left = (if c = 97 then 1 else v.usb_left) ∧
    (usbKey v c).usb_right = (if c = 100 then 1 else v.usb_right) ∧
    (usbKey v c).usb_up = (if c = 119 then 1 else v.usb_up) ∧
    (usbKey v c).usb_down = (if c = 115 then 1 else v.usb_down) ∧
    (usbKey v c).usb_shoot = (if c = 32 then 1 else v.usb_shoot) := by
  unfold usbKey
  by_cases h1 : c = 97
  · subst h1; simp
  by_cases h2 : c = 100
  · subst h2; simp
  by_cases h3 : c = 119
  · subst h3; simp
  by_cases h4 : c = 115
  · subst h4; simp
  by_cases h5 : c = 32
  · subst h5; simp
  simp [h1, h2, h3, h4, h5]

/-- A run of characters and the five flags. -/
theorem foldl_usbKey_flags (l : List Int) :
    ∀ v : World,
      (l.foldl usbKey v).usb_left = (if (97 : Int) ∈ l then 1 else v.usb_left) ∧
      (l.foldl usbKey v).usb_right = (if (100 : Int) ∈ l then 1 else v.usb_right) ∧
      (l.foldl usbKey v).usb_up = (if (119 : Int) ∈ l then 1 else v.usb_up) ∧
      (l.foldl usbKey v).usb_down = (if (115 : Int) ∈ l then 1 else v.usb_down) ∧
      (l.foldl usbKey v).usb_shoot = (if (32 : Int) ∈ l then 1 else v.usb_shoot) := by
  induction l with
  | nil => intro v; simp
  | cons c t ih =>
    intro v
    rw [List.foldl_cons]
    obtain ⟨a1, a2, a3, a4, a5⟩ := ih (usbKey v c)
    obtain ⟨b1, b2, b3, b4, b5⟩ := usbKey_flags v c
    rw [a1, a2, a3, a4, a5, b1, b2, b3, b4, b5]
    simp only [List.mem_cons]
    refine ⟨?_, ?_, ?_, ?_, ?_⟩
    · by_cases p : (97 : Int) ∈ t
      · simp [p]
      · by_cases q : c = 97
        · simp [q]
        · have q' : ¬ (97 : Int) = c := fun e => q e.symm
          simp [p, q, q']
    · by_cases p : (100 : Int) ∈ t
      · simp [p]
      · by_cases q : c = 100
        · simp [q]
        · have q' : ¬ (100 : Int) = c := fun e => q e.symm
          simp [p, q, q']
    · by_cases p : (119 : Int) ∈ t
      · simp [p]
      · by_cases q : c = 119
        · simp [q]
        · have q' : ¬ (119 : Int) = c := fun e => q e.symm
          simp [p, q, q']
    · by_cases p : (115 : Int) ∈ t
      · simp [p]
      · by_cases q : c = 115
        · simp [q]
        · have q' : ¬ (115 : Int) = c := fun e => q e.symm
          simp [p, q, q']
    · by_cases p : (32 : Int) ∈ t
      · simp [p]
      · by_cases q : c = 32
        · simp [q]
        · have q' : ¬ (32 : Int) = c := fun e => q e.symm
          simp [p, q, q']

/-- The drain and the five flags. -/
theorem drainUsb_flags (cs : List Int) (w : World) :
    (drainUsb cs w).usb_left = (if (97 : Int) ∈ cs then 1 else 0) ∧
    (drainUsb cs w).usb_right = (if (100 : Int) ∈ cs then 1 else 0) ∧
    (drainUsb cs w).usb_up = (if (119 : Int) ∈ cs then 1 else 0) ∧
    (drainUsb cs w).usb_down = (if (115 : Int) ∈ cs then 1 else 0) ∧
    (drainUsb cs w).usb_shoot = (if (32 : Int) ∈ cs then 1 else 0) := by
  unfold drainUsb
  exact foldl_usbKey_flags cs _

/-- C16.  The drain of the serial channel at the top of a gameplay frame sets
the left, right, up, down and fire flag to 1 exactly when the pending
characters hold an `a` (97), `d` (100), `w` (119), `s` (115) or a space (32),
and to 0 otherwise, whatever the flags were before; a character that is none
of the five, an upper-case letter for one, changes nothing. -/
theorem drain_sets_flags_from_pending_characters (inp : Input) (w : World) :
    ((frameEntry inp w).usb_left = (if (97 : Int) ∈ inp.usb then 1 else 0) ∧
      (frameEntry inp w).usb_right = (if (100 : Int) ∈ inp.usb then 1 else 0) ∧
      (frameEntry inp w).usb_up = (if (119 : Int) ∈ inp.usb then 1 else 0) ∧
      (frameEntry inp w).usb_down = (if (115 : Int) ∈ inp.usb then 1 else 0) ∧
      (frameEntry inp w).usb_shoot = (if (32 : Int) ∈ inp.usb then 1 else 0)) ∧
    (∀ (cs : List Int) (v : World),
      (drainUsb cs v).usb_left = (if (97 : Int) ∈ cs then 1 else 0) ∧
      (drainUsb cs v).usb_right = (if (100 : Int) ∈ cs then 1 else 0) ∧
      (drainUsb cs v).usb_up = (if (119 : Int) ∈ cs then 1 else 0) ∧
      (drainUsb cs v).usb_down = (if (115 : Int) ∈ cs then 1 else 0) ∧
      (drainUsb cs v).usb_shoot = (if (32 : Int) ∈ cs then 1 else 0)) ∧
    (∀ (c : Int) (v : World), c ≠ 97 → c ≠ 100 → c ≠ 119 → c ≠ 115 → c ≠ 32 →
      usbKey v c = v) ∧
    (usbKey w 65 = w ∧ usbKey w 68 = w ∧ usbKey w 87 = w ∧ usbKey w 83 = w) := by
  refine ⟨?_, fun cs v => drainUsb_flags cs v, fun c v h1 h2 h3 h4 h5 => ?_, ?_⟩
  · unfold frameEntry
    exact drainUsb_flags _ _
  · unfold usbKey
    rw [if_neg h1, if_neg h2, if_neg h3, if_neg h4, if_neg h5]
  · refine ⟨?_, ?_, ?_, ?_⟩ <;> rfl

end AlienAdvance


/-! ## The rectangle test -/

namespace AlienAdvance

/-- The rectangle test in positive form. -/
theorem overlaps_iff (ax ay aw ah bx b_y bw bh : ℚ) :
    overlaps ax ay aw ah bx b_y bw bh ↔
      (ax < bx + bw ∧ bx < ax + aw ∧ ay < b_y + bh ∧ b_y < ay + ah) := by
  unfold overlaps
  simp only [ge_iff_le, not_or, not_le]

end AlienAdvance


/-! ## The axes of the player -/

namespace AlienAdvance

end AlienAdvance


/-! ## The aim angle -/

namespace AlienAdvance

theorem PI_pos : 0 < PI := by unfold PI; norm_num

/-- C19, as amended.  For a reading `r` of the converter in 0..1023 the aim
angle is `r / 1023 * 4 * PI`; it is additive in `r`, hence linear, strictly
monotone, not negative and at most `4 * PI`, and it is below `4 * PI` exactly
for the readings below 1023: the range is the closed interval from 0 to
`4 * PI`. -/
theorem shooting_angle_range_is_closed (r : Nat) (hr : r ≤ 1023) :
    get_shooting_angle r = (r : ℚ) / 1023 * 4 * PI ∧
    0 ≤ get_shooting_angle r ∧ get_shooting_angle r ≤ 4 * PI ∧
    (get_shooting_angle r < 4 * PI ↔ r < 1023) ∧
    (∀ s : Nat, get_shooting_angle (r + s) = get_shooting_angle r + get_shooting_angle s) ∧
    get_shooting_angle r = (r : ℚ) * get_shooting_angle 1 ∧
    (∀ s : Nat, r < s ↔ get_shooting_angle r < get_shooting_angle s) ∧
    (∀ s : Nat, r ≤ s ↔ get_shooting_angle r ≤ get_shooting_angle s) := by
  have hpi := PI_pos
  have hform : ∀ n : Nat, get_shooting_angle n = (n : ℚ) * (4 * PI / 1023) := by
    intro n; unfold get_shooting_angle; ring
  have hk : (0 : ℚ) < 4 * PI / 1023 := by positivity
  have hr' : (r : ℚ) ≤ 1023 := by exact_mod_cast hr
  refine ⟨by unfold get_shooting_angle; ring, ?_, ?_, ?_, fun s => ?_, ?_, fun s => ?_,
    fun s => ?_⟩
  · rw [hform]; positivity
  · rw [hform]
    have : (r : ℚ) * (4 * PI / 1023) ≤ 1023 * (4 * PI / 1023) :=
      mul_le_mul_of_nonneg_right hr' hk.le
    linarith
  · rw [hform]
    constructor
    · intro h
      by_contra hn
      have e : r = 1023 := le_antisymm hr (not_lt.mp hn)
      subst e
      push_cast at h
      have e2 : (1023 : ℚ) * (4 * PI / 1023) = 4 * PI := by ring
      rw [e2] at h
      exact lt_irrefl _ h
    · intro h
      have h' : (r : ℚ) < 1023 := by exact_mod_cast h
      have : (r : ℚ) * (4 * PI / 1023) < 1023 * (4 * PI / 1023) :=
        mul_lt_mul_of_pos_right h' hk
      linarith
  · rw [hform, hform, hform]; push_cast; ring
  · rw [hform, hform]; push_cast; ring
  · rw [hform, hform]
    constructor
    · intro h
      exact mul_lt_mul_of_pos_right (by exact_mod_cast h) hk
    · intro h
      have := lt_of_mul_lt_mul_right h hk.le
      exact_mod_cast this
  · rw [hform, hform]
    constructor
    · intro h
      exact mul_le_mul_of_nonneg_right (by exact_mod_cast h) hk.le
    · intro h
      have := le_of_mul_le_mul_right h hk
      exact_mod_cast this

/-- C19, witness: the reading 512 in the middle of the range. -/
theorem shooting_angle_range_is_closed_witness :
    (512 : Nat) ≤ 1023 ∧ get_shooting_angle 512 < 4 * PI :=
  ⟨by decide, (shooting_angle_range_is_closed 512 (by decide)).2.2.2.1.mpr (by decide)⟩

/-- C19, counterexample.  The top reading 1023 gives `4 * PI` itself, which is
not inside the half-open range. -/
theorem shooting_angle_reaches_four_pi :
    get_shooting_angle 1023 = 4 * PI ∧ ¬ get_shooting_angle 1023 < 4 * PI := by
  have e : get_shooting_angle 1023 = 4 * PI := by
    unfold get_shooting_angle
    norm_num
    ring
  exact ⟨e, by rw [e]; exact lt_irrefl _⟩

end AlienAdvance


/-! ## Invisible enemies and the search for a free place -/

namespace AlienAdvance

set_option maxRecDepth 1000000 in
/-- C20, the defect.  The enemy loop and the missile loop skip an enemy whose
visibility flag is clear, but `find_empty_position` tests every enemy slot.
In the example run enemy 0 has been shot at (30, 20) and the player stands in
enemy 1; the second world differs from the first only in the place of the dead
enemy 0, (26, 20).  With the same draws the search for the player's new place
returns (23, 20) in the first world and (1, 9) in the second, and the frame
that registers the hit, with the same input, leaves the player at (23, 20) in
the first and at (1, 9) in the second.  The lines give lives, score and the
player's position and visibility. -/
theorem invisible_enemy_blocks_spawn_position :
    (∀ (env : Env) (fuel i j : Nat) (w : World), (w.enemies i).is_visible = 0 →
      enemyStep env fuel i w = some w ∧ missileEnemy env fuel j i w = some w) ∧
    (respawnWorld.enemies 0).is_visible = 0 ∧
    respawnWorldMoved =
      { respawnWorld with
        enemies := setAt respawnWorld.enemies 0 { respawnWorld.enemies 0 with x := 26 } } ∧
    find_empty_position rowEnv respawnWorld PWIDTH PHEIGHT 0 10 20 = some (23, 20, 22) ∧
    find_empty_position rowEnv respawnWorldMoved PWIDTH PHEIGHT 0 10 20 = some (1, 9, 32) ∧
    (mainIteration rowEnv 10 (inputAt 5186 []) respawnWorld).map
      (fun v => (v.lives, v.score, v.player.x, v.player.y, v.player.is_visible)) =
      some (4, 1, 23, 20, 1) ∧
    (mainIteration rowEnv 10 (inputAt 5186 []) respawnWorldMoved).map
      (fun v => (v.lives, v.score, v.player.x, v.player.y, v.player.is_visible)) =
      some (4, 1, 1, 9, 1) := by
  refine ⟨fun env fuel i j w h => ?_, by decide!, rfl, by decide!, by decide!, by decide!,
    by decide!⟩
  constructor
  · unfold enemyStep; rw [if_pos h]
  · unfold missileEnemy; rw [if_pos h]

end AlienAdvance


/-! ## The live count stays in step with the visible enemies -/

namespace AlienAdvance

theorem liveCountInStep_congr (v v' : World)
    (h1 : v'.mothership_battle = v.mothership_battle)
    (h2 : v'.enemies_alive = v.enemies_alive)
    (h3 : ∀ k, (v'.enemies k).is_visible = (v.enemies k).is_visible)
    (h : LiveCountInStep v) : LiveCountInStep v' := by
  unfold LiveCountInStep at h ⊢
  rw [h1, h2, visibleCount_congr v' v h3]
  exact h

theorem visibleCount_all (w : World)
    (h : ∀ i, i < NUM_ENEMIES → (w.enemies i).is_visible = 1) :
    visibleCount w = NUM_ENEMIES := by
  unfold visibleCount
  have e : (List.range NUM_ENEMIES).countP (fun i => decide ((w.enemies i).is_visible ≠ 0)) =
      (List.range NUM_ENEMIES).length := by
    rw [List.countP_eq_length]
    intro a ha
    have := h a (List.mem_range.mp ha)
    simp [this]
  rw [e, List.length_range]

/-- After `reset_enemies` the live count is 6, the number of visible enemies,
and the flag of the mothership battle is as before. -/
theorem reset_enemies_count (env : Env) (fuel cp : Nat) (w w' : World)
    (h : reset_enemies env fuel cp w = some w') :
    w'.enemies_alive = visibleCount w' ∧ w'.enemies_alive = NUM_ENEMIES ∧
    w'.mothership_battle = w.mothership_battle := by
  obtain ⟨a, b⟩ := reset_enemies_visible env fuel cp w w' h
  have c := (hideEnemies_fields _ _ (reset_enemies_hide env fuel cp w w' h)).1
  exact ⟨by rw [b, visibleCount_all w' a], b, c⟩

theorem missileEnemy_count (env : Env) (fuel i j : Nat) (v v' : World) (hj : j < NUM_ENEMIES)
    (hJ : LiveCountInStep v) (h : missileEnemy env fuel i j v = some v') :
    LiveCountInStep v' := by
  unfold missileEnemy at h
  by_cases c1 : (v.enemies j).is_visible = 0
  · rw [if_pos c1] at h
    have e := Option.some.inj h; subst e; exact hJ
  rw [if_neg c1] at h
  by_cases c2 : overlaps (v.missiles i).x (v.missiles i).y MWIDTH MHEIGHT
      (v.enemies j).x (v.enemies j).y EWIDTH EHEIGHT
  · rw [if_pos c2] at h
    have hpos := visibleCount_pos v j hj c1
    have hle := visibleCount_le v
    have hk := visibleCount_killEnemy i j v hj c1
    obtain ⟨k1, k2, -⟩ := killEnemy_facts i j v
    have hb : v.mothership_battle = 0 := by
      by_contra hne
      have := hJ.2 hne
      rw [hJ.1] at this
      omega
    have ha : (killEnemy i j v).enemies_alive = visibleCount (killEnemy i j v) := by
      rw [k2, hJ.1]
      unfold NUM_ENEMIES at hle
      omega
    by_cases c3 : (killEnemy i j v).enemies_alive ≤ 0
    · rw [if_pos c3] at h
      obtain ⟨r1, -, -, -, -, -, r7, r8, -⟩ := enterBoss_result env fuel _ v' h
      have hz : (killEnemy i j v).enemies_alive = 0 := Nat.le_zero.mp c3
      refine ⟨?_, fun _ => by rw [r8]; exact hz⟩
      rw [r8, ha]
      exact (visibleCount_congr v' _ (fun k => by rw [r7])).symm
    · rw [if_neg c3] at h
      have e := Option.some.inj h; subst e
      exact ⟨ha, fun hne => absurd (k1.trans hb) hne⟩
  · rw [if_neg c2] at h
    have e := Option.some.inj h; subst e; exact hJ

theorem missileMothership_count (env : Env) (fuel i : Nat) (v v' : World)
    (hJ : LiveCountInStep v) (h : missileMothership env fuel i v = some v') :
    LiveCountInStep v' := by
  unfold missileMothership at h
  by_cases c1 : overlaps (v.missiles i).x (v.missiles i).y MWIDTH MHEIGHT
      v.mothership.x v.mothership.y MSWIDTH MSHEIGHT
  · rw [if_pos c1] at h
    by_cases c2 : (hitMothership i v).mother_health ≤ 0
    · rw [if_pos c2] at h
      simp only [Option.map_eq_some'] at h
      obtain ⟨w1, h1, rfl⟩ := h
      obtain ⟨a, b, c⟩ := reset_enemies_count env fuel 1 _ w1 h1
      have hb : w1.mothership_battle = 0 := c
      have g : LiveCountInStep w1 := ⟨a, fun hne => absurd hb hne⟩
      exact liveCountInStep_congr w1 _ rfl rfl (fun _ => rfl) g
    · rw [if_neg c2] at h
      have e := Option.some.inj h; subst e
      exact liveCountInStep_congr v _ rfl rfl (fun _ => rfl) hJ
  · rw [if_neg c1] at h
    have e := Option.some.inj h; subst e; exact hJ

theorem missileStep_count (env : Env) (fuel : Nat) (angle : ℚ) (i : Nat) (s s' : World × Nat)
    (hJ : LiveCountInStep s.1) (h : missileStep env fuel angle i s = some s') :
    LiveCountInStep s'.1 := by
  have hadv : LiveCountInStep (advanceMissile i s.1) :=
    liveCountInStep_congr s.1 _ rfl rfl (fun _ => rfl) hJ
  unfold missileStep at h
  split_ifs at h with c1 c2 c3 c4
  · have e := Option.some.inj h; subst e
    exact liveCountInStep_congr s.1 _ rfl rfl (fun _ => rfl) hJ
  · simp only [Option.map_eq_some'] at h
    obtain ⟨w2, h2, rfl⟩ := h
    exact missileMothership_count env fuel i _ w2 hadv h2
  · simp only [Option.map_eq_some'] at h
    obtain ⟨w2, h2, rfl⟩ := h
    exact forM_invariant (missileEnemy env fuel i) LiveCountInStep _
      (fun j hj v v' hP hb => missileEnemy_count env fuel i j v v' (List.mem_range.mp hj) hP hb)
      _ w2 hadv h2
  · have e := Option.some.inj h; subst e
    exact liveCountInStep_congr s.1 _ rfl rfl (fun _ => rfl) hJ
  · have e := Option.some.inj h; subst e; exact hJ

theorem missilesPhase_count (env : Env) (fuel : Nat) (angle : ℚ) (w w' : World)
    (hJ : LiveCountInStep w) (h : missilesPhase env fuel angle w = some w') :
    LiveCountInStep w' := by
  unfold missilesPhase at h
  simp only [Option.map_eq_some'] at h
  obtain ⟨r, hr, rfl⟩ := h
  refine forM_invariant (missileStep env fuel angle) (fun s => LiveCountInStep s.1) _
    (fun i _ s s' hP hb => missileStep_count env fuel angle i s s' hP hb) _ r ?_ hr
  split_ifs
  · exact liveCountInStep_congr w _ rfl rfl (fun _ => rfl) hJ
  · exact hJ

/-- The boss branch does not touch the enemies. -/
theorem mothershipPhase_enemies (env : Env) (fuel : Nat) (w : World) (r : World × Bool)
    (h : mothershipPhase env fuel w = some r) : r.1.enemies = w.enemies := by
  unfold mothershipPhase at h
  simp only [Option.bind_eq_some] at h
  obtain ⟨w1, h1, h2⟩ := h
  have hm : (mothershipMove env w).1.enemies = w.enemies := by
    unfold mothershipMove
    split_ifs <;> rfl
  have hc : w1.enemies = w.enemies := by
    unfold mothershipContact at h1
    simp only [Option.map_eq_some'] at h1
    obtain ⟨q, hq, rfl⟩ := h1
    have hq1 : q.1.enemies = w.enemies := by
      split_ifs at hq
      all_goals first
        | (have e := Option.some.inj hq; subst e; exact hm)
        | (simp only [Option.map_eq_some'] at hq
           obtain ⟨w2, h3, rfl⟩ := hq
           exact ((playerHit_keeps env fuel DebugMsg.mothershipDestroyedPlayer _ _ rfl h3).1).trans hm)
    split_ifs
    · exact hq1
    · exact hq1
  have hs : (mothershipShoot env w1).enemies = w1.enemies := by
    unfold mothershipShoot
    split_ifs <;> rfl
  unfold motherMissileStep at h2
  split_ifs at h2 with c1 c2 c3
  · have e := Option.some.inj h2; subst e
    exact hs.trans hc
  · simp only [Option.map_eq_some'] at h2
    obtain ⟨w3, h3, rfl⟩ := h2
    exact ((playerHit_keeps env fuel DebugMsg.mothershipDestroyedPlayer _ _ rfl h3).1).trans (hs.trans hc)
  · have e := Option.some.inj h2; subst e
    exact hs.trans hc
  · have e := Option.some.inj h2; subst e
    exact hs.trans hc

/-- The fields the two phase branches and the player movement leave alone. -/
theorem hidePhase_fields (a b : World) (h : hidePhase a = hidePhase b) :
    a.mothership_battle = b.mothership_battle ∧ a.enemies_alive = b.enemies_alive ∧
    a.missiles = b.missiles ∧ a.score = b.score ∧ a.mother_health = b.mother_health ∧
    a.btn_right_pressed = b.btn_right_pressed ∧ a.btn_states = b.btn_states ∧
    a.DT = b.DT := by
  refine ⟨?_, ?_, ?_, ?_, ?_, ?_, ?_, ?_⟩
  · have e := congrArg World.mothership_battle h; exact e
  · have e := congrArg World.enemies_alive h; exact e
  · have e := congrArg World.missiles h; exact e
  · have e := congrArg World.score h; exact e
  · have e := congrArg World.mother_health h; exact e
  · have e := congrArg World.btn_right_pressed h; exact e
  · have e := congrArg World.btn_states h; exact e
  · have e := congrArg World.DT h; exact e

/-- A gameplay frame keeps the live count in step. -/
theorem gameplayFrame_count (env : Env) (fuel : Nat) (inp : Input) (w w' : World)
    (hJ : LiveCountInStep w) (h : gameplayFrame env fuel inp w = some w') :
    LiveCountInStep w' := by
  obtain ⟨f1, f2, f3, -⟩ := frameEntry_keeps inp w
  have hJe : LiveCountInStep (frameEntry inp w) :=
    liveCountInStep_congr w _ f3 f2 (fun k => by rw [f1]) hJ
  rcases gameplayFrame_cases env fuel inp w w' h with ⟨-, w2, h1, h2⟩ | ⟨-, r, h1, h2⟩
  · obtain ⟨g1, -⟩ := enemiesPhase_keeps env fuel _ _ h1
    obtain ⟨p1, p2, -⟩ := hidePhase_fields _ _ (enemiesPhase_hide env fuel _ _ h1)
    have hJ2 : LiveCountInStep w2 := liveCountInStep_congr _ w2 p1 p2 g1 hJe
    have hJ3 : LiveCountInStep (playerStep w2) :=
      liveCountInStep_congr w2 _ rfl rfl (fun _ => rfl) hJ2
    exact missilesPhase_count env fuel _ _ _ hJ3 h2
  · have g1 := mothershipPhase_enemies env fuel _ r h1
    obtain ⟨p1, p2, -⟩ := hidePhase_fields _ _ (mothershipPhase_hide env fuel _ r h1)
    have hJ2 : LiveCountInStep r.1 :=
      liveCountInStep_congr _ r.1 p1 p2 (fun k => by rw [g1]) hJe
    rcases h2 with ⟨-, rfl⟩ | ⟨-, h2⟩
    · exact hJ2
    · have hJ3 : LiveCountInStep (playerStep r.1) :=
        liveCountInStep_congr r.1 _ rfl rfl (fun _ => rfl) hJ2
      exact missilesPhase_count env fuel _ _ _ hJ3 h2

theorem isrButton_field (p : Pins) (i : Nat) (w : World) :
    (isrButton p i w).enemies = w.enemies ∧
    (isrButton p i w).enemies_alive = w.enemies_alive ∧
    (isrButton p i w).mothership_battle = w.mothership_battle := by
  unfold isrButton
  dsimp only
  split_ifs <;> exact ⟨rfl, rfl, rfl⟩

/-- The debounce interrupt does not touch the enemy field. -/
theorem ISR_field (p : Pins) (w : World) :
    (ISR_TIMER0_COMPA p w).enemies = w.enemies ∧
    (ISR_TIMER0_COMPA p w).enemies_alive = w.enemies_alive ∧
    (ISR_TIMER0_COMPA p w).mothership_battle = w.mothership_battle := by
  unfold ISR_TIMER0_COMPA
  have key : ∀ (l : List Nat) (v : World),
      (l.foldl (fun acc i => isrButton p i acc) v).enemies = v.enemies ∧
      (l.foldl (fun acc i => isrButton p i acc) v).enemies_alive = v.enemies_alive ∧
      (l.foldl (fun acc i => isrButton p i acc) v).mothership_battle = v.mothership_battle := by
    intro l
    induction l with
    | nil => intro v; exact ⟨rfl, rfl, rfl⟩
    | cons c t ih =>
      intro v
      rw [List.foldl_cons]
      obtain ⟨a1, a2, a3⟩ := ih (isrButton p c v)
      obtain ⟨b1, b2, b3⟩ := isrButton_field p c v
      exact ⟨a1.trans b1, a2.trans b2, a3.trans b3⟩
  exact key _ w

/-- The fields the top of an iteration leaves alone. -/
theorem hideStart_fields (a b : World) (h : hideStart a = hideStart b) :
    a.enemies = b.enemies ∧ a.enemies_alive = b.enemies_alive ∧
    a.mothership_battle = b.mothership_battle := by
  refine ⟨?_, ?_, ?_⟩
  · have e := congrArg World.enemies h; exact e
  · have e := congrArg World.enemies_alive h; exact e
  · have e := congrArg World.mothership_battle h; exact e

/-- Round initialisation puts the live count in step, whatever it was. -/
theorem roundInit_count (env : Env) (fuel : Nat) (inp : Input) (v v' : World)
    (h : roundInit env fuel inp v = some v') : LiveCountInStep v' := by
  obtain ⟨-, -, -, -, -, r6, r7, r8, -⟩ := roundInit_result env fuel inp v v' h
  exact ⟨by rw [r8, visibleCount_all v' r7], fun hne => absurd r6 hne⟩

/-- The dispatch on the state keeps the live count in step. -/
theorem stateStep_count (env : Env) (fuel : Nat) (inp : Input) (v v' : World)
    (hJ : LiveCountInStep v) (h : stateStep env fuel inp v = some v') :
    LiveCountInStep v' := by
  unfold stateStep at h
  by_cases c1 : v.GAME_STATE = -1
  · rw [if_pos c1] at h
    by_cases cu : inp.usb_ready = true
    · rw [if_pos cu] at h
      have e := Option.some.inj h; subst e
      exact liveCountInStep_congr v _ rfl rfl (fun _ => rfl) hJ
    · rw [if_neg cu] at h; simp at h
  rw [if_neg c1] at h
  by_cases c3 : v.GAME_STATE = 0
  · rw [if_pos c3] at h
    by_cases c4 : v.input_timer > 0
    · rw [if_pos c4] at h
      have e := Option.some.inj h; subst e
      exact liveCountInStep_congr v _ rfl rfl (fun _ => rfl) hJ
    · rw [if_neg c4] at h
      by_cases c5 : v.btn_states BTN_LEFT = BTN_STATE_DOWN ∨
          v.btn_states BTN_RIGHT = BTN_STATE_DOWN
      · rw [if_pos c5] at h
        have e := Option.some.inj h; subst e
        exact liveCountInStep_congr v _ rfl rfl (fun _ => rfl) hJ
      · rw [if_neg c5] at h
        have e := Option.some.inj h; subst e
        exact hJ
  rw [if_neg c3] at h
  by_cases c6 : v.GAME_STATE = 1
  · rw [if_pos c6] at h
    by_cases c7 : v.countdown > 1
    · rw [if_pos c7] at h
      have e := Option.some.inj h; subst e
      exact liveCountInStep_congr v _ rfl rfl (fun _ => rfl) hJ
    · rw [if_neg c7] at h
      exact roundInit_count env fuel inp v v' h
  rw [if_neg c6] at h
  by_cases c8 : v.GAME_STATE = 2
  · rw [if_pos c8] at h
    exact gameplayFrame_count env fuel inp v v' hJ h
  rw [if_neg c8] at h
  by_cases c9 : v.GAME_STATE = 3
  · rw [if_pos c9] at h
    by_cases c10 : v.btn_states BTN_LEFT = BTN_STATE_DOWN ∨
        v.btn_states BTN_RIGHT = BTN_STATE_DOWN
    · rw [if_pos c10] at h
      have e := Option.some.inj h; subst e
      exact liveCountInStep_congr v _ rfl rfl (fun _ => rfl) hJ
    · rw [if_neg c10] at h
      have e := Option.some.inj h; subst e
      exact hJ
  rw [if_neg c9] at h
  have e := Option.some.inj h; subst e
  exact hJ

/-- Every event keeps the live count in step. -/
theorem step_count (env : Env) (fuel : Nat) (e : Event) (w w' : World)
    (hJ : LiveCountInStep w) (h : step env fuel e w = some w') : LiveCountInStep w' := by
  cases e with
  | tick p =>
    have e2 : ISR_TIMER0_COMPA p w = w' := Option.some.inj h
    subst e2
    obtain ⟨a, b, c⟩ := ISR_field p w
    exact liveCountInStep_congr w _ c b (fun k => by rw [a]) hJ
  | iteration inp =>
    have hs : stateStep env fuel inp (frameStart inp w) = some w' := h
    obtain ⟨a, b, c⟩ := hideStart_fields _ _ (frameStart_hide inp w)
    exact stateStep_count env fuel inp _ w'
      (liveCountInStep_congr w _ c b (fun k => by rw [a]) hJ) hs

/-- Every run keeps the live count in step. -/
theorem run_count (env : Env) (fuel : Nat) :
    ∀ (es : List Event) (w w' : World), LiveCountInStep w → run env fuel es w = some w' →
      LiveCountInStep w' := by
  intro es
  induction es with
  | nil =>
    intro w w' hJ h
    have e : w = w' := Option.some.inj h
    subst e; exact hJ
  | cons e t ih =>
    intro w w' hJ h
    have h' : (step env fuel e w).bind (run env fuel t) = some w' := h
    rw [Option.bind_eq_some] at h'
    obtain ⟨w1, h1, h2⟩ := h'
    exact ih w1 w' (step_count env fuel e w w1 hJ h1) h2

/-- C21.  The live count is in step after round initialisation, whatever the
world before it, and every run of debounce ticks and main-loop iterations from
a world with the count in step ends in one: at the end `enemies_alive` is the number of enemies whose visibility flag is set,
and it is 0 when the flag of the mothership battle is set.  In particular a
gameplay frame keeps the count in step, and after `reset_enemies` the count is
6, the number of visible enemies, with the flag as before the call (both
callers clear it first). -/
theorem live_count_equals_visible_enemies (env : Env) (fuel : Nat) (es : List Event)
    (w w' : World) (hJ : LiveCountInStep w) (h : run env fuel es w = some w') :
    (w'.enemies_alive = visibleCount w' ∧ (w'.mothership_battle ≠ 0 → w'.enemies_alive = 0)) ∧
    (∀ inp v v', v.GAME_STATE = 1 → v.countdown ≤ 1 →
      mainIteration env fuel inp v = some v' →
      v'.enemies_alive = visibleCount v' ∧ v'.mothership_battle = 0) ∧
    (∀ inp v v', LiveCountInStep v → gameplayFrame env fuel inp v = some v' →
      v'.enemies_alive = visibleCount v' ∧
      (v'.mothership_battle ≠ 0 → v'.enemies_alive = 0)) ∧
    (∀ cp v v', reset_enemies env fuel cp v = some v' →
      v'.enemies_alive = visibleCount v' ∧ v'.enemies_alive = 6 ∧
      v'.mothership_battle = v.mothership_battle) := by
  refine ⟨run_count env fuel es w w' hJ h, fun inp v v' hs hc hm => ?_,
    fun inp v v' hv hf => gameplayFrame_count env fuel inp v v' hv hf,
    fun cp v v' hr => reset_enemies_count env fuel cp v v' hr⟩
  rw [countdown_terminal env fuel inp v hs hc] at hm
  obtain ⟨-, -, -, -, -, r6, r7, r8, -⟩ := roundInit_result env fuel inp _ v' hm
  exact ⟨by rw [r8, visibleCount_all v' r7], r6⟩

set_option maxRecDepth 1000000 in
/-- C21, witness: the example run from round initialisation to the frame in
which a missile kills enemy 1; five enemies are left visible and the live
count is 5. -/
theorem live_count_equals_visible_enemies_witness :
    LiveCountInStep (afterRun startRound) ∧
    run demoEnv 10 [iterAt 4406 [115], iterAt 8312 [32], iterAt 12218 [], iterAt 16124 []]
        (afterRun startRound) =
      some ((run demoEnv 10
        [iterAt 4406 [115], iterAt 8312 [32], iterAt 12218 [], iterAt 16124 []]
        (afterRun startRound)).getD powerOn) ∧
    ((run demoEnv 10 [iterAt 4406 [115], iterAt 8312 [32], iterAt 12218 [], iterAt 16124 []]
      (afterRun startRound)).getD powerOn).enemies_alive = 5 ∧
    ((run demoEnv 10 [iterAt 4406 [115], iterAt 8312 [32], iterAt 12218 [], iterAt 16124 []]
      (afterRun startRound)).getD powerOn).enemies_alive =
      visibleCount ((run demoEnv 10
        [iterAt 4406 [115], iterAt 8312 [32], iterAt 12218 [], iterAt 16124 []]
        (afterRun startRound)).getD powerOn) :=
  have hJ : LiveCountInStep (afterRun startRound) := by decide!
  have h := eq_some_getD (run demoEnv 10
    [iterAt 4406 [115], iterAt 8312 [32], iterAt 12218 [], iterAt 16124 []]
    (afterRun startRound)) powerOn (by decide!)
  ⟨hJ, h, by decide!,
    (live_count_equals_visible_enemies demoEnv 10
      [iterAt 4406 [115], iterAt 8312 [32], iterAt 12218 [], iterAt 16124 []]
      (afterRun startRound) _ hJ h).1.1⟩

end AlienAdvance


/-! ## The boss frame that is cut short -/

namespace AlienAdvance

/-- The top of a frame leaves the health of the mothership alone. -/
theorem frameEntry_health (inp : Input) (w : World) :
    (frameEntry inp w).mother_health = w.mother_health := by
  have e := congrArg World.mother_health (frameEntry_hide inp w)
  exact e

/-- One life less is never the same count. -/
theorem loseLife_lives (msg : DebugMsg) (w : World) : (loseLife msg w).lives ≠ w.lives := by
  show (w.lives + 255) % 256 ≠ w.lives
  omega

/-- A hit of the player changes the count of lives. -/
theorem playerHit_lives (env : Env) (fuel : Nat) (msg : DebugMsg) (w w' : World)
    (h : playerHit env fuel msg w = some w') : w'.lives ≠ w.lives := by
  unfold playerHit at h
  split_ifs at h with c
  · have e := Option.some.inj h; subst e; exact loseLife_lives msg w
  · split at h
    · simp at h
    · have e := Option.some.inj h; subst e; exact loseLife_lives msg w

/-- Up to line 632 of a boss frame the player is moved only by a hit. -/
theorem atMotherMissile_player (env : Env) (fuel : Nat) (w v : World)
    (h : atMotherMissile env fuel w = some v) :
    v.lives = w.lives → v.player = w.player := by
  unfold atMotherMissile at h
  simp only [Option.map_eq_some'] at h
  obtain ⟨w1, h1, rfl⟩ := h
  have hm : (mothershipMove env w).1.player = w.player ∧
      (mothershipMove env w).1.lives = w.lives := by
    unfold mothershipMove
    split_ifs <;> exact ⟨rfl, rfl⟩
  have hs : (mothershipShoot env w1).player = w1.player ∧
      (mothershipShoot env w1).lives = w1.lives := by
    unfold mothershipShoot
    split_ifs <;> exact ⟨rfl, rfl⟩
  have hc : w1.lives = w.lives → w1.player = w.player := by
    unfold mothershipContact at h1
    simp only [Option.map_eq_some'] at h1
    obtain ⟨q, hq, rfl⟩ := h1
    have hq1 : q.1.lives = w.lives → q.1.player = w.player := by
      split_ifs at hq
      all_goals first
        | (have e := Option.some.inj hq; subst e; exact fun _ => hm.1)
        | (simp only [Option.map_eq_some'] at hq
           obtain ⟨w2, h3, rfl⟩ := hq
           intro hl
           exact absurd (hl.trans hm.2.symm) (playerHit_lives env fuel _ _ _ h3))
    split_ifs
    · exact hq1
    · exact hq1
  intro hl
  rw [hs.1]
  exact hc (hs.2.symm.trans hl)

/-- C22.  In a boss frame, let `v` be the world at line 632, before the
missile of the mothership moves.  If that missile is in flight and its move
takes it out of the playfield (x < 1, x > 81, y < 9 or y > 45), the frame
returns there: the world at its end is `v` with the missile moved and made
invisible, so the player, the missile slots, the score, the health of the
mothership and the latched fire flag are as in `v`, whatever the buttons and
the serial channel ask for.  Slots, score, health and flag are also as at the
start of the frame, and so is the player unless the contact with the
mothership cost a life in this frame. -/
theorem cut_short_frame_skips_the_rest (env : Env) (fuel : Nat) (inp : Input) (w v : World)
    (hb : w.mothership_battle ≠ 0)
    (hv : atMotherMissile env fuel (frameEntry inp w) = some v)
    (hvis : v.mother_missile.is_visible ≠ 0)
    (hout : (movedMotherMissile v).x < 1 ∨ (movedMotherMissile v).x > 81 ∨
      (movedMotherMissile v).y < 9 ∨ (movedMotherMissile v).y > 45) :
    gameplayFrame env fuel inp w = some (dropMotherMissile v) ∧
    (dropMotherMissile v).mother_missile.is_visible = 0 ∧
    ((dropMotherMissile v).player = v.player ∧ (dropMotherMissile v).missiles = v.missiles ∧
      (dropMotherMissile v).score = v.score ∧
      (dropMotherMissile v).mother_health = v.mother_health ∧
      (dropMotherMissile v).btn_right_pressed = v.btn_right_pressed) ∧
    (v.missiles = w.missiles ∧ v.score = w.score ∧ v.mother_health = w.mother_health ∧
      v.btn_right_pressed = w.btn_right_pressed) ∧
    (v.lives = w.lives → v.player = w.player) := by
  obtain ⟨f1, f2, f3, -⟩ := frameEntry_keeps inp w
  have hbe : (frameEntry inp w).mothership_battle ≠ 0 := by rw [f3]; exact hb
  have hof : outOfField (movedMotherMissile v) := by
    unfold outOfField
    norm_num [MWIDTH, MHEIGHT]
    exact hout
  have hstep : motherMissileStep env fuel v = some (dropMotherMissile v, true) := by
    unfold motherMissileStep
    rw [if_pos hvis, if_pos (show _ ∨ _ ∨ _ ∨ _ from hof)]
  have hphase : mothershipPhase env fuel (frameEntry inp w) = some (dropMotherMissile v, true) := by
    unfold atMotherMissile at hv
    simp only [Option.map_eq_some'] at hv
    obtain ⟨w1, h1, rfl⟩ := hv
    unfold mothershipPhase
    dsimp only
    rw [h1]
    exact hstep
  have hframe : gameplayFrame env fuel inp w = some (dropMotherMissile v) := by
    unfold gameplayFrame
    rw [if_pos hbe, hphase]
    rfl
  have hh := mothershipPhase_hide env fuel _ _ hphase
  have hd : hidePhase (dropMotherMissile v) = hidePhase v := rfl
  obtain ⟨-, -, p3, p4, p5, p6, -, -⟩ := hidePhase_fields _ _ (hd.symm.trans hh)
  obtain ⟨-, e2, e3, -, -, -, -, e8, e9, -, e11, -⟩ := hideEntry_fields _ _ (frameEntry_hide inp w)
  refine ⟨hframe, rfl, ⟨rfl, rfl, rfl, rfl, rfl⟩,
    ⟨p3.trans e9, p4.trans e11, p5.trans (frameEntry_health inp w), p6.trans e8⟩, fun hl => ?_⟩
  have g := atMotherMissile_player env fuel _ v hv (hl.trans e2.symm)
  exact g.trans e3

set_option maxRecDepth 1000000 in
/-- C22, witness: the boss frame of the example in which the missile of the
mothership flies from (80, 20) out of the field, with the fire flag latched
and with `d` and a space pending on the serial channel.  The frame ends where
the missile leaves: the player has not moved and no slot holds a missile. -/
theorem cut_short_frame_skips_the_rest_witness :
    cutShortDemo.mothership_battle ≠ 0 ∧
    gameplayFrame demoEnv 10 moveFireInput cutShortDemo =
      some (dropMotherMissile
        ((atMotherMissile demoEnv 10 (frameEntry moveFireInput cutShortDemo)).getD powerOn)) ∧
    (gameplayFrame demoEnv 10 moveFireInput cutShortDemo).map
      (fun w' => (w'.player.x - cutShortDemo.player.x, w'.player.y - cutShortDemo.player.y,
        missilesInFlight w', w'.btn_right_pressed, w'.mother_missile.is_visible,
        w'.mother_missile.x)) =
      some (0, 0, 0, 1, 0, 265624 / 3125) :=
  ⟨by decide!,
    (cut_short_frame_skips_the_rest demoEnv 10 moveFireInput cutShortDemo _ (by decide!)
      (eq_some_getD (atMotherMissile demoEnv 10 (frameEntry moveFireInput cutShortDemo))
        powerOn (by decide!))
      (by decide!) (by decide!)).1,
    by decide!⟩

end AlienAdvance


/-! ## `reset_enemies` and the velocities -/

namespace AlienAdvance

theorem placeEnemy_velocity (env : Env) (fuel cp i : Nat) (w w' : World)
    (h : placeEnemy env fuel cp i w = some w') :
    ∀ k, (w'.enemies k).dx = (w.enemies k).dx ∧ (w'.enemies k).dy = (w.enemies k).dy := by
  unfold placeEnemy at h
  split at h
  · simp at h
  · have e := Option.some.inj h
    subst e
    intro k
    by_cases c : k = i
    · subst c; simp [setAt]
    · simp [setAt, c]

theorem enemiesToOrigin_velocity (w : World) :
    ∀ k, ((enemiesToOrigin w).enemies k).dx = (w.enemies k).dx ∧
      ((enemiesToOrigin w).enemies k).dy = (w.enemies k).dy := by
  unfold enemiesToOrigin
  generalize List.range NUM_ENEMIES = l
  induction l generalizing w with
  | nil => intro k; exact ⟨rfl, rfl⟩
  | cons i t ih =>
    intro k
    rw [List.foldl_cons]
    obtain ⟨a, b⟩ := ih { w with enemies := setAt w.enemies i { w.enemies i with x := 0, y := 0 } } k
    rw [a, b]
    by_cases c : k = i
    · subst c; simp [setAt]
    · simp [setAt, c]

/-- `reset_enemies` leaves every velocity as it was. -/
theorem reset_enemies_velocity (env : Env) (fuel cp : Nat) (w w' : World)
    (h : reset_enemies env fuel cp w = some w') :
    ∀ k, (w'.enemies k).dx = (w.enemies k).dx ∧ (w'.enemies k).dy = (w.enemies k).dy := by
  unfold reset_enemies at h
  simp only [Option.map_eq_some'] at h
  obtain ⟨w1, h1, rfl⟩ := h
  have key := forM_invariant (placeEnemy env fuel cp)
    (fun v => ∀ k, (v.enemies k).dx = (w.enemies k).dx ∧ (v.enemies k).dy = (w.enemies k).dy) _
    (fun i _ s s' hP hb k => by
      obtain ⟨a, b⟩ := placeEnemy_velocity env fuel cp i s s' hb k
      obtain ⟨c, d⟩ := hP k
      exact ⟨a.trans c, b.trans d⟩)
    (enemiesToOrigin w) w1 (enemiesToOrigin_velocity w) h1
  exact key

/-- An enemy whose think timer has expired and whose `dx` is not 0 moves with
the velocity it has. -/
theorem enemyMove_coasts (env : Env) (i : Nat) (v : World) (ht : v.enemy_timers i ≤ 0)
    (hd : (v.enemies i).dx ≠ 0) :
    ((enemyMove env i v).1.enemies i).dx = (v.enemies i).dx ∧
    ((enemyMove env i v).1.enemies i).dy = (v.enemies i).dy ∧
    ((enemyMove env i v).1.enemies i).x =
      (clampAxis ((v.enemies i).x + (v.enemies i).dx * v.DT) 1 78).1 ∧
    ((enemyMove env i v).1.enemies i).y =
      (clampAxis ((v.enemies i).y + (v.enemies i).dy * v.DT) 9 42).1 := by
  unfold enemyMove
  rw [if_neg (not_lt.mpr ht)]
  dsimp only
  rw [if_neg hd]
  simp only [setAt_same]
  norm_num [EWIDTH, EHEIGHT]

/-- C23.  `reset_enemies` writes the enemy sprites, the think timers and the
live count (and draws from `rand`), nothing else, and of the sprites it
leaves `dx` and `dy` of every enemy as they were.  So an enemy whose `dx` was
not 0 before the call, a dash in progress, moves with that old velocity from
its new place once its new think timer has expired: the aim is taken only
when `dx` is 0. -/
theorem reset_enemies_keeps_velocity (env : Env) (fuel check_player : Nat) (w w' : World)
    (h : reset_enemies env fuel check_player w = some w') :
    hideEnemies w' = hideEnemies w ∧
    (w'.player = w.player ∧ w'.missiles = w.missiles ∧ w'.score = w.score ∧
      w'.mothership_battle = w.mothership_battle) ∧
    (∀ i, (w'.enemies i).dx = (w.enemies i).dx ∧ (w'.enemies i).dy = (w.enemies i).dy) ∧
    (∀ (i : Nat) (v : World), v.enemies i = w'.enemies i → (w.enemies i).dx ≠ 0 →
      v.enemy_timers i ≤ 0 →
      ((enemyMove env i v).1.enemies i).dx = (w.enemies i).dx ∧
      ((enemyMove env i v).1.enemies i).dy = (w.enemies i).dy ∧
      ((enemyMove env i v).1.enemies i).x =
        (clampAxis ((w'.enemies i).x + (w.enemies i).dx * v.DT) 1 78).1 ∧
      ((enemyMove env i v).1.enemies i).y =
        (clampAxis ((w'.enemies i).y + (w.enemies i).dy * v.DT) 9 42).1) := by
  have hh := reset_enemies_hide env fuel check_player w w' h
  have hv := reset_enemies_velocity env fuel check_player w w' h
  obtain ⟨a, b, c, d⟩ := hideEnemies_fields _ _ hh
  refine ⟨hh, ⟨d, c, b, a⟩, hv, fun i v he hd ht => ?_⟩
  obtain ⟨x1, x2⟩ := hv i
  have hd' : (v.enemies i).dx ≠ 0 := by rw [he, x1]; exact hd
  obtain ⟨g1, g2, g3, g4⟩ := enemyMove_coasts env i v ht hd'
  rw [he] at g1 g2 g3 g4
  rw [x1] at g1 g3
  rw [x2] at g2 g4
  exact ⟨g1, g2, g3, g4⟩

set_option maxRecDepth 1000000 in
/-- C23, witness: in the example world enemy 0 is in a dash to the left,
`dx = -4`; `reset_enemies` returns and its `dx` is -4 still. -/
theorem reset_enemies_keeps_velocity_witness :
    reset_enemies demoEnv 10 0 clampDemo =
      some ((reset_enemies demoEnv 10 0 clampDemo).getD powerOn) ∧
    (clampDemo.enemies 0).dx = -4 ∧
    (((reset_enemies demoEnv 10 0 clampDemo).getD powerOn).enemies 0).dx =
      (clampDemo.enemies 0).dx :=
  have h := eq_some_getD (reset_enemies demoEnv 10 0 clampDemo) powerOn (by decide!)
  ⟨h, by decide!, ((reset_enemies_keeps_velocity demoEnv 10 0 clampDemo _ h).2.2.1 0).1⟩

end AlienAdvance


/-! ## The two readings of a frame agree -/

namespace AlienAdvance

theorem returned_map {α β : Type} (f : α → β) (o : Outcome α) :
    (o.map f).returned = o.returned.map f := by
  cases o <;> rfl

theorem returned_bind {α β : Type} (o : Outcome α) (f : α → Outcome β) :
    (o.bind f).returned = o.returned.bind (fun a => (f a).returned) := by
  cases o <;> rfl

theorem returned_done {α : Type} (o : Outcome α) (a : α) (h : o.returned = some a) :
    o = Outcome.done a := by
  cases o with
  | done b => simp only [Outcome.returned, Option.some.injEq] at h; rw [h]
  | spins v => simp [Outcome.returned] at h

theorem forMOutcome_returned {σ : Type} (body : Nat → σ → Option σ)
    (bodyO : Nat → σ → Outcome σ) (h : ∀ i s, (bodyO i s).returned = body i s) :
    ∀ l s, (forMOutcome bodyO l s).returned = forM body l s := by
  intro l
  induction l with
  | nil => intro s; rfl
  | cons i t ih =>
    intro s
    show ((bodyO i s).bind (forMOutcome bodyO t)).returned = (body i s).bind (forM body t)
    rw [returned_bind, h]
    congr 1
    funext a
    exact ih a

theorem holds_map {α β : Type} (P : β → Prop) (Q : World → Prop) (f : α → β) (o : Outcome α)
    (h : o.holds (fun a => P (f a)) Q) : (o.map f).holds P Q := by
  cases o <;> exact h

theorem holds_bind {α β : Type} (P : β → Prop) (Q : World → Prop) (o : Outcome α)
    (f : α → Outcome β) (h : o.holds (fun a => (f a).holds P Q) Q) : (o.bind f).holds P Q := by
  cases o <;> exact h

theorem holds_mono {α : Type} (P P' : α → Prop) (Q Q' : World → Prop) (o : Outcome α)
    (hP : ∀ a, P a → P' a) (hQ : ∀ v, Q v → Q' v) (h : o.holds P Q) : o.holds P' Q' := by
  cases o with
  | done a => exact hP a h
  | spins v => exact hQ v h

/-- A property of the result known from the result alone, and a property of
the world of a search that spins. -/
theorem holds_of_returned {α : Type} (P : α → Prop) (Q : World → Prop) (o : Outcome α)
    (h1 : ∀ a, o.returned = some a → P a) (h2 : o.holds (fun _ => True) Q) : o.holds P Q := by
  cases o with
  | done a => exact h1 a rfl
  | spins v => exact h2

theorem holds_world (P : World → Prop) (o : Outcome World) (h : o.holds P P) : P o.world := by
  cases o <;> exact h

theorem forMOutcome_holds {σ : Type} (body : Nat → σ → Outcome σ) (I : σ → Prop)
    (Q : World → Prop) (l : List Nat)
    (hstep : ∀ i, i ∈ l → ∀ s, I s → (body i s).holds I Q) :
    ∀ s, I s → (forMOutcome body l s).holds I Q := by
  induction l with
  | nil => intro s hI; exact hI
  | cons i t ih =>
    intro s hI
    show ((body i s).bind (forMOutcome body t)).holds I Q
    apply holds_bind
    refine holds_mono _ _ _ _ _ (fun a ha => ?_) (fun _ hv => hv)
      (hstep i (List.mem_cons_self _ _) s hI)
    exact ih (fun j hj => hstep j (List.mem_cons_of_mem _ hj)) a ha

/-- A property that depends on the rounds still to run. -/
theorem forMOutcome_holds_rest {σ : Type} (body : Nat → σ → Outcome σ)
    (I : List Nat → σ → Prop) (Q : World → Prop)
    (hstep : ∀ i l s, I (i :: l) s → (body i s).holds (I l) Q) :
    ∀ l s, I l s → (forMOutcome body l s).holds (I []) Q := by
  intro l
  induction l with
  | nil => intro s hI; exact hI
  | cons i t ih =>
    intro s hI
    show ((body i s).bind (forMOutcome body t)).holds (I []) Q
    apply holds_bind
    exact holds_mono _ _ _ _ _ (fun a ha => ih a ha) (fun _ hv => hv) (hstep i t s hI)

theorem playerHitOutcome_returned (env : Env) (fuel : Nat) (msg : DebugMsg) (w : World) :
    (playerHitOutcome env fuel msg w).returned = playerHit env fuel msg w := by
  unfold playerHitOutcome playerHit
  split_ifs
  · rfl
  · cases find_empty_position env (loseLife msg w) PWIDTH PHEIGHT 0 fuel
        (loseLife msg w).rand_calls with
    | none => rfl
    | some p => rfl

theorem placeEnemyOutcome_returned (env : Env) (fuel cp i : Nat) (w : World) :
    (placeEnemyOutcome env fuel cp i w).returned = placeEnemy env fuel cp i w := by
  unfold placeEnemyOutcome placeEnemy
  cases find_empty_position env w EWIDTH EHEIGHT cp fuel w.rand_calls with
  | none => rfl
  | some p => rfl

theorem reset_enemiesOutcome_returned (env : Env) (fuel cp : Nat) (w : World) :
    (reset_enemiesOutcome env fuel cp w).returned = reset_enemies env fuel cp w := by
  unfold reset_enemiesOutcome reset_enemies
  rw [returned_map, forMOutcome_returned (placeEnemy env fuel cp) _
    (fun i s => placeEnemyOutcome_returned env fuel cp i s)]

theorem mothershipContactOutcome_returned (env : Env) (fuel end_path : Nat) (w : World) :
    (mothershipContactOutcome env fuel end_path w).returned =
      mothershipContact env fuel end_path w := by
  unfold mothershipContactOutcome mothershipContact
  dsimp only
  rw [returned_map]
  by_cases c : overlaps w.mothership.x w.mothership.y MSWIDTH MSHEIGHT
      w.player.x w.player.y PWIDTH PHEIGHT
  · rw [if_pos c, if_pos c, returned_map, playerHitOutcome_returned]
  · rw [if_neg c, if_neg c]
    rfl

theorem motherMissileStepOutcome_returned (env : Env) (fuel : Nat) (w : World) :
    (motherMissileStepOutcome env fuel w).returned = motherMissileStep env fuel w := by
  unfold motherMissileStepOutcome motherMissileStep
  split_ifs
  · rfl
  · rw [returned_map, playerHitOutcome_returned]
  · rfl
  · rfl

theorem mothershipPhaseOutcome_returned (env : Env) (fuel : Nat) (w : World) :
    (mothershipPhaseOutcome env fuel w).returned = mothershipPhase env fuel w := by
  unfold mothershipPhaseOutcome mothershipPhase
  dsimp only
  rw [returned_bind, mothershipContactOutcome_returned]
  congr 1
  funext w1
  exact motherMissileStepOutcome_returned env fuel _

theorem enemyContactOutcome_returned (env : Env) (fuel i end_path : Nat) (w : World) :
    (enemyContactOutcome env fuel i end_path w).returned =
      enemyContact env fuel i end_path w := by
  unfold enemyContactOutcome enemyContact
  dsimp only
  rw [returned_map]
  by_cases c : overlaps (w.enemies i).x (w.enemies i).y EWIDTH EHEIGHT
      w.player.x w.player.y PWIDTH PHEIGHT
  · rw [if_pos c, if_pos c, returned_map, playerHitOutcome_returned]
  · rw [if_neg c, if_neg c]
    rfl

theorem enemyStepOutcome_returned (env : Env) (fuel i : Nat) (w : World) :
    (enemyStepOutcome env fuel i w).returned = enemyStep env fuel i w := by
  unfold enemyStepOutcome enemyStep
  split_ifs
  · rfl
  · exact enemyContactOutcome_returned env fuel i _ _

theorem enemiesPhaseOutcome_returned (env : Env) (fuel : Nat) (w : World) :
    (enemiesPhaseOutcome env fuel w).returned = enemiesPhase env fuel w :=
  forMOutcome_returned (enemyStep env fuel) _
    (fun i s => enemyStepOutcome_returned env fuel i s) _ w

theorem enterBossOutcome_returned (env : Env) (fuel : Nat) (w : World) :
    (enterBossOutcome env fuel w).returned = enterBoss env fuel w := by
  unfold enterBossOutcome enterBoss
  cases motherSearch env (bossSetup env w) fuel 1 (bossSetup env w).rand_calls with
  | none => rfl
  | some p => rfl

theorem missileEnemyOutcome_returned (env : Env) (fuel i j : Nat) (w : World) :
    (missileEnemyOutcome env fuel i j w).returned = missileEnemy env fuel i j w := by
  unfold missileEnemyOutcome missileEnemy
  split_ifs
  · rfl
  · exact enterBossOutcome_returned env fuel _
  · rfl
  · rfl

theorem missileMothershipOutcome_returned (env : Env) (fuel i : Nat) (w : World) :
    (missileMothershipOutcome env fuel i w).returned = missileMothership env fuel i w := by
  unfold missileMothershipOutcome missileMothership
  split_ifs
  · rw [returned_map, reset_enemiesOutcome_returned]
  · rfl
  · rfl

theorem missileStepOutcome_returned (env : Env) (fuel : Nat) (angle : ℚ) (i : Nat)
    (s : World × Nat) :
    (missileStepOutcome env fuel angle i s).returned = missileStep env fuel angle i s := by
  unfold missileStepOutcome missileStep
  split_ifs
  · rfl
  · rw [returned_map, missileMothershipOutcome_returned]
  · rw [returned_map, forMOutcome_returned (missileEnemy env fuel i) _
      (fun j v => missileEnemyOutcome_returned env fuel i j v)]
  · rfl
  · rfl

theorem missilesPhaseOutcome_returned (env : Env) (fuel : Nat) (angle : ℚ) (w : World) :
    (missilesPhaseOutcome env fuel angle w).returned = missilesPhase env fuel angle w := by
  unfold missilesPhaseOutcome missilesPhase
  dsimp only
  rw [returned_map, forMOutcome_returned (missileStep env fuel angle) _
    (fun i s => missileStepOutcome_returned env fuel angle i s)]

/-- The frame that keeps the world of a search that spins returns what
`gameplayFrame` returns, and returns exactly when it does. -/
theorem gameplayFrameOutcome_returned (env : Env) (fuel : Nat) (inp : Input) (w : World) :
    (gameplayFrameOutcome env fuel inp w).returned = gameplayFrame env fuel inp w := by
  unfold gameplayFrameOutcome gameplayFrame
  split_ifs
  · rw [returned_bind, mothershipPhaseOutcome_returned]
    congr 1
    funext r
    split_ifs
    · rfl
    · exact missilesPhaseOutcome_returned env fuel _ _
  · rw [returned_bind, enemiesPhaseOutcome_returned]
    congr 1
    funext w2
    exact missilesPhaseOutcome_returned env fuel _ _

end AlienAdvance


/-! ## Stretches of a frame in which nothing is killed -/

namespace AlienAdvance

theorem bossKillsLogged_append (a b : List DebugMsg) :
    bossKillsLogged (a ++ b) = bossKillsLogged a + bossKillsLogged b := by
  simp [bossKillsLogged, List.countP_append]

theorem quiet_refl (w : World) : Quiet w w :=
  ⟨rfl, rfl, fun _ => rfl, [], by simp, rfl, rfl⟩

theorem quiet_trans {a b c : World} (h1 : Quiet a b) (h2 : Quiet b c) : Quiet a c := by
  obtain ⟨a1, a2, a3, n1, a4, a5, a6⟩ := h1
  obtain ⟨b1, b2, b3, n2, b4, b5, b6⟩ := h2
  refine ⟨b1.trans a1, b2.trans a2, fun k => (b3 k).trans (a3 k), n1 ++ n2, ?_, ?_, ?_⟩
  · rw [b4, a4, List.append_assoc]
  · rw [killsLogged_append, a5, b5]
  · rw [bossKillsLogged_append, a6, b6]

/-- A block that leaves the flag, the live count, the enemies and the log
alone. -/
theorem quiet_same (w u : World) (h1 : u.mothership_battle = w.mothership_battle)
    (h2 : u.enemies_alive = w.enemies_alive) (h3 : u.enemies = w.enemies)
    (h4 : u.log = w.log) : Quiet w u :=
  ⟨h1, h2, fun k => by rw [h3], [], by rw [h4]; simp, rfl, rfl⟩

theorem quiet_loseLife (msg : DebugMsg) (w : World) (hm : isKill msg = false)
    (hb : isBossKill msg = false) : Quiet w (loseLife msg w) := by
  refine ⟨rfl, rfl, fun _ => rfl, [msg], rfl, ?_, ?_⟩
  · simp [killsLogged, List.countP_cons, hm]
  · simp [bossKillsLogged, List.countP_cons, hb]

theorem holds_quiet_trans {α : Type} (f : α → World) (w a : World) (o : Outcome α)
    (h1 : Quiet w a) (h2 : o.holds (fun r => Quiet a (f r)) (Quiet a)) :
    o.holds (fun r => Quiet w (f r)) (Quiet w) :=
  holds_mono _ _ _ _ o (fun _ hr => quiet_trans h1 hr) (fun _ hv => quiet_trans h1 hv) h2

/-- A hit of the player kills nothing, whether or not the search for the
place of the respawn returns. -/
theorem playerHitOutcome_quiet (env : Env) (fuel : Nat) (msg : DebugMsg) (w : World)
    (hm : isKill msg = false) (hb : isBossKill msg = false) :
    (playerHitOutcome env fuel msg w).holds (Quiet w) (Quiet w) := by
  have key := quiet_loseLife msg w hm hb
  unfold playerHitOutcome
  split_ifs
  · exact quiet_trans key (quiet_same _ _ rfl rfl rfl rfl)
  · cases find_empty_position env (loseLife msg w) PWIDTH PHEIGHT 0 fuel
        (loseLife msg w).rand_calls with
    | none => exact key
    | some p => exact quiet_trans key (quiet_same _ _ rfl rfl rfl rfl)

theorem enemyMove_quiet (env : Env) (i : Nat) (w : World) : Quiet w (enemyMove env i w).1 := by
  unfold enemyMove
  split_ifs
  · exact quiet_same _ _ rfl rfl rfl rfl
  · refine ⟨rfl, rfl, fun k => ?_, [], by simp, rfl, rfl⟩
    by_cases e : k = i
    · subst e
      simp only [setAt, if_true]
      split_ifs <;> rfl
    · simp [setAt, e]

theorem stopEnemy_quiet (env : Env) (i : Nat) (w : World) : Quiet w (stopEnemy env i w) := by
  refine ⟨rfl, rfl, fun k => ?_, [], by simp [stopEnemy], rfl, rfl⟩
  by_cases e : k = i
  · subst e; simp [stopEnemy, setAt]
  · simp [stopEnemy, setAt, e]

theorem enemyContactOutcome_quiet (env : Env) (fuel i end_path : Nat) (w : World) :
    (enemyContactOutcome env fuel i end_path w).holds (Quiet w) (Quiet w) := by
  have hstop : ∀ (r : World × Nat), Quiet w r.1 →
      Quiet w (if r.2 ≠ 0 then stopEnemy env i r.1 else r.1) := by
    intro r hr
    split_ifs
    · exact quiet_trans hr (stopEnemy_quiet env i r.1)
    · exact hr
  unfold enemyContactOutcome
  dsimp only
  apply holds_map
  by_cases c : overlaps (w.enemies i).x (w.enemies i).y EWIDTH EHEIGHT
      w.player.x w.player.y PWIDTH PHEIGHT
  · rw [if_pos c]
    apply holds_map
    exact holds_mono _ _ _ _ _ (fun a ha => hstop (a, _) ha) (fun _ hv => hv)
      (playerHitOutcome_quiet env fuel DebugMsg.alienKilledPlayer w rfl rfl)
  · rw [if_neg c]
    exact hstop (w, end_path) (quiet_refl w)

/-- The body of the enemy loop kills nothing. -/
theorem enemyStepOutcome_quiet (env : Env) (fuel i : Nat) (w : World) :
    (enemyStepOutcome env fuel i w).holds (Quiet w) (Quiet w) := by
  unfold enemyStepOutcome
  split_ifs
  · exact quiet_refl w
  · exact holds_quiet_trans (fun r => r) w _ _ (enemyMove_quiet env i w)
      (enemyContactOutcome_quiet env fuel i _ _)

/-- The normal branch of a frame kills nothing. -/
theorem enemiesPhaseOutcome_quiet (env : Env) (fuel : Nat) (w : World) :
    (enemiesPhaseOutcome env fuel w).holds (Quiet w) (Quiet w) :=
  forMOutcome_holds (enemyStepOutcome env fuel) (Quiet w) (Quiet w) _
    (fun i _ s hs => holds_quiet_trans (fun r => r) w s _ hs
      (enemyStepOutcome_quiet env fuel i s)) w (quiet_refl w)

theorem mothershipMove_quiet (env : Env) (w : World) : Quiet w (mothershipMove env w).1 := by
  unfold mothershipMove
  split_ifs
  · exact quiet_same _ _ rfl rfl rfl rfl
  · exact quiet_same _ _ rfl rfl rfl rfl

theorem mothershipContactOutcome_quiet (env : Env) (fuel end_path : Nat) (w : World) :
    (mothershipContactOutcome env fuel end_path w).holds (Quiet w) (Quiet w) := by
  have hstop : ∀ (r : World × Nat), Quiet w r.1 →
      Quiet w (if r.2 ≠ 0 then stopMothership env r.1 else r.1) := by
    intro r hr
    split_ifs
    · exact quiet_trans hr (quiet_same _ _ rfl rfl rfl rfl)
    · exact hr
  unfold mothershipContactOutcome
  dsimp only
  apply holds_map
  by_cases c : overlaps w.mothership.x w.mothership.y MSWIDTH MSHEIGHT
      w.player.x w.player.y PWIDTH PHEIGHT
  · rw [if_pos c]
    apply holds_map
    exact holds_mono _ _ _ _ _ (fun a ha => hstop (a, _) ha) (fun _ hv => hv)
      (playerHitOutcome_quiet env fuel DebugMsg.mothershipDestroyedPlayer w rfl rfl)
  · rw [if_neg c]
    exact hstop (w, end_path) (quiet_refl w)

theorem mothershipShoot_quiet (env : Env) (w : World) : Quiet w (mothershipShoot env w) := by
  unfold mothershipShoot
  split_ifs
  · exact quiet_same _ _ rfl rfl rfl rfl
  · exact quiet_same _ _ rfl rfl rfl rfl
  · exact quiet_refl w

theorem motherMissileStepOutcome_quiet (env : Env) (fuel : Nat) (w : World) :
    (motherMissileStepOutcome env fuel w).holds (fun r => Quiet w r.1) (Quiet w) := by
  unfold motherMissileStepOutcome
  split_ifs
  · exact quiet_same _ _ rfl rfl rfl rfl
  · apply holds_map
    exact holds_quiet_trans (fun r => r) w (dropMotherMissile w) _
      (quiet_same _ _ rfl rfl rfl rfl)
      (playerHitOutcome_quiet env fuel DebugMsg.mothershipDestroyedPlayer _ rfl rfl)
  · exact quiet_same _ _ rfl rfl rfl rfl
  · exact quiet_refl w

/-- The boss branch of a frame kills nothing. -/
theorem mothershipPhaseOutcome_quiet (env : Env) (fuel : Nat) (w : World) :
    (mothershipPhaseOutcome env fuel w).holds (fun r => Quiet w r.1) (Quiet w) := by
  unfold mothershipPhaseOutcome
  dsimp only
  apply holds_bind
  refine holds_mono _ _ _ _ _ (fun a ha => ?_) (fun _ hv => hv)
    (holds_quiet_trans (fun r => r) w _ _ (mothershipMove_quiet env w)
      (mothershipContactOutcome_quiet env fuel _ _))
  exact holds_quiet_trans (fun r : World × Bool => r.1) w _ _
    (quiet_trans ha (mothershipShoot_quiet env a)) (motherMissileStepOutcome_quiet env fuel _)

theorem debugStep_log (angle : ℚ) (w : World) :
    ∃ new : List DebugMsg, (debugStep angle w).log = w.log ++ new ∧ killsLogged new = 0 ∧
      bossKillsLogged new = 0 := by
  by_cases c : w.debug_timer > 0
  · refine ⟨[], ?_, rfl, rfl⟩
    unfold debugStep
    rw [if_pos c, List.append_nil]
  · refine ⟨[DebugMsg.playerPosition (toU8 w.player.x) (toU8 w.player.y)] ++
      [DebugMsg.playerAim (angle * (180 / PI))], ?_, rfl, rfl⟩
    unfold debugStep
    rw [if_neg c]
    show w.log ++ _ ++ _ = _
    rw [List.append_assoc]

/-- The top of a frame kills nothing. -/
theorem frameEntry_quiet (inp : Input) (w : World) : Quiet w (frameEntry inp w) := by
  have he := frameEntry_hide inp w
  have e1 : (frameEntry inp w).mothership_battle = w.mothership_battle := by
    have e := congrArg World.mothership_battle he; exact e
  have e2 : (frameEntry inp w).enemies_alive = w.enemies_alive := by
    have e := congrArg World.enemies_alive he; exact e
  have e3 : (frameEntry inp w).enemies = w.enemies := by
    have e := congrArg World.enemies he; exact e
  have hu : ∀ (l : List Int) (u : World), (l.foldl usbKey u).log = u.log := by
    intro l
    induction l with
    | nil => intro u; rfl
    | cons c t ih =>
      intro u
      rw [List.foldl_cons, ih]
      unfold usbKey
      split_ifs <;> rfl
  have hlog : (frameEntry inp w).log =
      (debugStep (get_shooting_angle inp.adc) { w with time := w.time + w.DT }).log := by
    unfold frameEntry drainUsb
    rw [hu]
  obtain ⟨new, h1, h2, h3⟩ :=
    debugStep_log (get_shooting_angle inp.adc) { w with time := w.time + w.DT }
  exact ⟨e1, e2, fun k => by rw [e3], new, hlog.trans h1, h2, h3⟩

theorem playerStep_quiet (w : World) : Quiet w (playerStep w) :=
  quiet_same _ _ rfl rfl rfl rfl

/-- The normal branch, in the reading that returns. -/
theorem enemiesPhase_quiet (env : Env) (fuel : Nat) (w w' : World)
    (h : enemiesPhase env fuel w = some w') : Quiet w w' := by
  have key := enemiesPhaseOutcome_quiet env fuel w
  rw [returned_done _ w' ((enemiesPhaseOutcome_returned env fuel w).trans h)] at key
  exact key

/-- The boss branch, in the reading that returns. -/
theorem mothershipPhase_quiet (env : Env) (fuel : Nat) (w : World) (r : World × Bool)
    (h : mothershipPhase env fuel w = some r) : Quiet w r.1 := by
  have key := mothershipPhaseOutcome_quiet env fuel w
  rw [returned_done _ r ((mothershipPhaseOutcome_returned env fuel w).trans h)] at key
  exact key

end AlienAdvance


/-! ## The switch to the mothership battle, in frames that return and in
frames whose search spins -/

namespace AlienAdvance

/-- The log has grown since `w0`. -/
theorem acct_log {a b : World} (h : Acct a b) : ∃ new : List DebugMsg, b.log = a.log ++ new := by
  obtain ⟨new, hl, -⟩ := h
  exact ⟨new, hl⟩

theorem log_grows_trans {a b c : World} (h1 : ∃ new : List DebugMsg, b.log = a.log ++ new)
    (h2 : ∃ new : List DebugMsg, c.log = b.log ++ new) :
    ∃ new : List DebugMsg, c.log = a.log ++ new := by
  obtain ⟨n1, e1⟩ := h1
  obtain ⟨n2, e2⟩ := h2
  exact ⟨n1 ++ n2, by rw [e2, e1, List.append_assoc]⟩

/-- The switch sets the flag before its search is entered: the flag is set
whether the search returns or not. -/
theorem enterBossOutcome_flag (env : Env) (fuel : Nat) (w : World) :
    (enterBossOutcome env fuel w).world.mothership_battle = 1 := by
  unfold enterBossOutcome
  cases motherSearch env (bossSetup env w) fuel 1 (bossSetup env w).rand_calls with
  | none => rfl
  | some p => rfl

/-- The loop over the enemies for one missile: a search that spins in it is
the search of the switch, entered after the kill of the last enemy. -/
theorem missileEnemyOutcome_switch (env : Env) (fuel i j n : Nat) (w0 v : World)
    (hj : j < NUM_ENEMIES) (hI : MissileInv env w0 n v)
    (hl : ∃ new : List DebugMsg, v.log = w0.log ++ new) :
    (missileEnemyOutcome env fuel i j v).holds (fun _ => True) (SwitchSpins w0) := by
  obtain ⟨k1, k2, k3⟩ := killEnemy_facts i j v
  unfold missileEnemyOutcome
  by_cases c1 : (v.enemies j).is_visible = 0
  · rw [if_pos c1]; trivial
  · rw [if_neg c1]
    by_cases c2 : overlaps (v.missiles i).x (v.missiles i).y MWIDTH MHEIGHT
        (v.enemies j).x (v.enemies j).y EWIDTH EHEIGHT
    · rw [if_pos c2]
      by_cases c3 : (killEnemy i j v).enemies_alive ≤ 0
      · rw [if_pos c3]
        unfold enterBossOutcome
        cases motherSearch env (bossSetup env (killEnemy i j v)) fuel 1
            (bossSetup env (killEnemy i j v)).rand_calls with
        | some p => trivial
        | none =>
          show SwitchSpins w0 (bossSetup env (killEnemy i j v))
          rcases hI with ⟨a1, a2, a3, a4, a5⟩ | ⟨b, -⟩
          · have hpos := visibleCount_pos v j hj c1
            have hle := visibleCount_le v
            have hN : NUM_ENEMIES = 6 := rfl
            rw [k2] at c3
            have halive : v.enemies_alive = 1 := by omega
            have hk : killsLogged (bossSetup env (killEnemy i j v)).log =
                killsLogged v.log + 1 := k3
            have ha : (bossSetup env (killEnemy i j v)).enemies_alive =
                (v.enemies_alive + 255) % 256 := k2
            refine ⟨rfl, ?_, ?_, ?_, ?_⟩
            · rw [ha]; omega
            · rw [hk]; omega
            · omega
            · obtain ⟨new, e⟩ := hl
              refine ⟨new ++ [DebugMsg.playerKilledAlien], ?_⟩
              show v.log ++ [DebugMsg.playerKilledAlien] = _
              rw [e, List.append_assoc]
          · exact absurd (b.2.2.1 j hj) c1
      · rw [if_neg c3]; trivial
    · rw [if_neg c2]; trivial

/-- The state of the missile loop between two of its rounds, in a frame that
entered it at `w0`. -/
theorem missileEnemyOutcome_inv (env : Env) (fuel i j n : Nat) (w0 v : World) (hn : n ≤ 4)
    (hj : j < NUM_ENEMIES)
    (hI : MissileInv env w0 n v ∧ ∃ new : List DebugMsg, v.log = w0.log ++ new) :
    (missileEnemyOutcome env fuel i j v).holds
      (fun v' => MissileInv env w0 n v' ∧ ∃ new : List DebugMsg, v'.log = w0.log ++ new)
      (SwitchSpins w0) := by
  apply holds_of_returned
  · intro v' h
    rw [missileEnemyOutcome_returned] at h
    exact ⟨missileEnemy_inv env fuel i j n w0 v v' hn hj hI.1 h,
      log_grows_trans hI.2 (acct_log (missileEnemy_acct env fuel i j v v' h))⟩
  · exact missileEnemyOutcome_switch env fuel i j n w0 v hj hI.1 hI.2

/-- A mothership entered in this frame is not destroyed in it: the hit of a
missile finds no search to enter. -/
theorem missileMothershipOutcome_fresh (env : Env) (fuel i : Nat) (Q : World → Prop) (v : World)
    (hh : 11 ≤ v.mother_health) (hmax : v.mother_health ≤ 15) :
    (missileMothershipOutcome env fuel i v).holds (fun _ => True) Q := by
  unfold missileMothershipOutcome
  by_cases d1 : overlaps (v.missiles i).x (v.missiles i).y MWIDTH MHEIGHT
      v.mothership.x v.mothership.y MSWIDTH MSHEIGHT
  · rw [if_pos d1]
    have e : (hitMothership i v).mother_health = (v.mother_health + 255) % 256 := rfl
    have d2 : ¬ (hitMothership i v).mother_health ≤ 0 := by rw [e]; omega
    rw [if_neg d2]
    trivial
  · rw [if_neg d1]; trivial

/-- One round of the missile loop. -/
theorem missileStepOutcome_inv (env : Env) (fuel : Nat) (angle : ℚ) (w0 : World) (i n : Nat)
    (s : World × Nat) (hn : n ≤ 4)
    (hI : MissileInv env w0 (n + 1) s.1 ∧ ∃ new : List DebugMsg, s.1.log = w0.log ++ new) :
    (missileStepOutcome env fuel angle i s).holds
      (fun s' => MissileInv env w0 n s'.1 ∧ ∃ new : List DebugMsg, s'.1.log = w0.log ++ new)
      (SwitchSpins w0) := by
  apply holds_of_returned
  · intro s' h
    rw [missileStepOutcome_returned] at h
    exact ⟨missileStep_inv env fuel angle w0 i n s s' hn hI.1 h,
      log_grows_trans hI.2 (acct_log (missileStep_acct env fuel angle i s s' h))⟩
  · have hadv : MissileInv env w0 (n + 1) (advanceMissile i s.1) :=
      MissileInv.congr env w0 _ s.1 _ rfl rfl rfl rfl rfl rfl rfl rfl hI.1
    unfold missileStepOutcome
    by_cases c1 : (s.1.missiles i).is_visible ≠ 0
    · rw [if_pos c1]
      by_cases c2 : (movedMissile i s.1).x < 1 ∨
          (movedMissile i s.1).x > ((83 - MWIDTH : Nat) : ℚ) ∨
          (movedMissile i s.1).y < 9 ∨ (movedMissile i s.1).y > ((47 - MHEIGHT : Nat) : ℚ)
      · rw [if_pos c2]; trivial
      · rw [if_neg c2]
        by_cases c3 : (advanceMissile i s.1).mothership_battle ≠ 0
        · rw [if_pos c3]
          apply holds_map
          rcases hadv with ⟨a1, -⟩ | ⟨b, -, -, e3⟩
          · exact absurd a1 c3
          · exact missileMothershipOutcome_fresh env fuel i _ _ (by omega) b.2.2.2.2.2.2.1
        · rw [if_neg c3]
          apply holds_map
          refine holds_mono _ _ _ _ _ (fun _ _ => trivial) (fun _ hv => hv)
            (forMOutcome_holds (missileEnemyOutcome env fuel i)
              (fun v => MissileInv env w0 n v ∧ ∃ new : List DebugMsg, v.log = w0.log ++ new)
              (SwitchSpins w0) _
              (fun j hj v hv =>
                missileEnemyOutcome_inv env fuel i j n w0 v hn (List.mem_range.mp hj) hv)
              _ ⟨MissileInv.weaken env w0 (n + 1) n _ (by omega) hadv, hI.2⟩)
    · rw [if_neg c1]
      split_ifs <;> trivial

/-- The missile part of a frame entered in normal phase with the counts in
step: it ends in normal phase with the counts in step, or in the mothership
battle just entered, or it spins in the search of the switch. -/
theorem missilesPhaseOutcome_inv (env : Env) (fuel : Nat) (angle : ℚ) (w : World)
    (hb : w.mothership_battle = 0) (hc : w.enemies_alive = visibleCount w) :
    (missilesPhaseOutcome env fuel angle w).holds
      (fun w' => MissileInv env w 0 w' ∧ ∃ new : List DebugMsg, w'.log = w.log ++ new)
      (SwitchSpins w) := by
  have start : MissileInv env w NUM_MISSILES w :=
    Or.inl ⟨hb, hc, le_refl _, rfl, fun hlt => absurd hlt (lt_irrefl _)⟩
  unfold missilesPhaseOutcome
  dsimp only
  apply holds_map
  have key := forMOutcome_holds_rest (missileStepOutcome env fuel angle)
    (fun l s => l.length ≤ NUM_MISSILES ∧ MissileInv env w l.length s.1 ∧
      ∃ new : List DebugMsg, s.1.log = w.log ++ new) (SwitchSpins w)
    (fun i l s hP => by
      have hl : l.length ≤ 4 := by
        have := hP.1
        simp only [List.length_cons] at this
        have hN : NUM_MISSILES = 5 := rfl
        omega
      refine holds_mono _ _ _ _ _ (fun a ha => ?_) (fun _ hv => hv)
        (missileStepOutcome_inv env fuel angle w i l.length s hl hP.2)
      exact ⟨by have hN : NUM_MISSILES = 5 := rfl; omega, ha⟩)
    (List.range NUM_MISSILES)
    (if w.btn_right_pressed ≠ 0 ∨ w.usb_shoot ≠ 0 then ({ w with btn_right_pressed := 0 }, 1)
      else (w, 0)) ?_
  · exact holds_mono _ _ _ _ _ (fun a ha => ha.2) (fun _ hv => hv) key
  · refine ⟨by simp, ?_⟩
    rw [List.length_range]
    split_ifs
    · exact ⟨MissileInv.congr env w _ w _ rfl rfl rfl rfl rfl rfl rfl rfl start, [], by simp⟩
    · exact ⟨start, [], by simp⟩

/-- A frame that starts in normal phase with the live count in step, whether
it returns or spins in a search: the flag is set in the world it ends with
exactly when the kills logged in it are at least one and as many as the live
count at the start, and then the live count is 0. -/
theorem normalFrameOutcome_switch (env : Env) (fuel : Nat) (inp : Input) (w : World)
    (hb : w.mothership_battle = 0) (hc : w.enemies_alive = visibleCount w) :
    (gameplayFrameOutcome env fuel inp w).holds
      (fun v => ∃ new : List DebugMsg, v.log = w.log ++ new ∧
        (v.mothership_battle ≠ 0 ↔ (1 ≤ killsLogged new ∧ killsLogged new = w.enemies_alive)) ∧
        (v.mothership_battle ≠ 0 → v.enemies_alive = 0))
      (fun v => ∃ new : List DebugMsg, v.log = w.log ++ new ∧
        (v.mothership_battle ≠ 0 ↔ (1 ≤ killsLogged new ∧ killsLogged new = w.enemies_alive)) ∧
        (v.mothership_battle ≠ 0 → v.enemies_alive = 0)) := by
  have hq : ∀ v, Quiet w v → ∃ new : List DebugMsg, v.log = w.log ++ new ∧
      (v.mothership_battle ≠ 0 ↔ (1 ≤ killsLogged new ∧ killsLogged new = w.enemies_alive)) ∧
      (v.mothership_battle ≠ 0 → v.enemies_alive = 0) := by
    rintro v ⟨q1, -, -, new, q4, q5, -⟩
    refine ⟨new, q4, ?_, fun hne => absurd (q1.trans hb) hne⟩
    constructor
    · intro hne; exact absurd (q1.trans hb) hne
    · rintro ⟨p1, -⟩; omega
  have he := frameEntry_quiet inp w
  unfold gameplayFrameOutcome
  rw [if_neg (by rw [he.1, hb]; exact fun h => h rfl)]
  apply holds_bind
  refine holds_mono _ _ _ _ _ (fun w2 h2 => ?_) (fun v hv => hq v (quiet_trans he hv))
    (enemiesPhaseOutcome_quiet env fuel (frameEntry inp w))
  have hq2 : Quiet w (playerStep w2) := quiet_trans (quiet_trans he h2) (playerStep_quiet w2)
  obtain ⟨q1, q2, q3, n1, q4, q5, -⟩ := hq2
  have hvc : visibleCount (playerStep w2) = visibleCount w := visibleCount_congr _ _ q3
  have hk0 : killsLogged (playerStep w2).log = killsLogged w.log := by
    rw [q4, killsLogged_append, q5]; rfl
  refine holds_mono _ _ _ _ _ (fun w' hw' => ?_) (fun v hv => ?_)
    (missilesPhaseOutcome_inv env fuel (get_shooting_angle inp.adc) (playerStep w2)
      (q1.trans hb) (by rw [q2, hvc]; exact hc))
  · obtain ⟨hI, n2, e2⟩ := hw'
    have hl : w'.log = w.log ++ (n1 ++ n2) := by rw [e2, q4, List.append_assoc]
    have hk : killsLogged w'.log = killsLogged w.log + killsLogged (n1 ++ n2) := by
      rw [hl, killsLogged_append]
    refine ⟨n1 ++ n2, hl, ?_, ?_⟩
    · rcases hI with ⟨a1, a2, a3, a4, a5⟩ | ⟨b, e1, e3, e4⟩
      · constructor
        · intro hne; exact absurd a1 hne
        · rintro ⟨p1, p2⟩
          exfalso
          have := a5 (by omega)
          omega
      · constructor
        · intro _; omega
        · intro _; rw [b.1]; decide
    · rcases hI with ⟨a1, -⟩ | ⟨b, -⟩
      · intro hne; exact absurd a1 hne
      · intro _; exact b.2.1
  · obtain ⟨s1, s2, s3, s4, n2, e2⟩ := hv
    have hl : v.log = w.log ++ (n1 ++ n2) := by rw [e2, q4, List.append_assoc]
    have hk : killsLogged v.log = killsLogged w.log + killsLogged (n1 ++ n2) := by
      rw [hl, killsLogged_append]
    refine ⟨n1 ++ n2, hl, ?_, fun _ => s2⟩
    constructor
    · intro _; omega
    · intro _; rw [s1]; decide

end AlienAdvance


/-! ## The kills logged and the enemies made invisible -/

namespace AlienAdvance

theorem tied_refl (w : World) : KillsTied w w := rfl

theorem tied_trans {a b c : World} (h1 : KillsTied a b) (h2 : KillsTied b c) :
    KillsTied a c := by
  unfold KillsTied at *
  omega

/-- A block that leaves the enemies and the log alone. -/
theorem tied_same (a b : World) (h1 : b.enemies = a.enemies) (h2 : b.log = a.log) :
    KillsTied a b := by
  unfold KillsTied
  rw [h2, visibleCount_congr b a (fun k => by rw [h1])]

theorem tied_of_quiet {a b : World} (h : Quiet a b) : KillsTied a b := by
  obtain ⟨-, -, q3, new, q4, q5, q6⟩ := h
  unfold KillsTied
  rw [q4, killsLogged_append, bossKillsLogged_append, q5, q6, visibleCount_congr b a q3]
  omega

/-- A kill logs one line and makes one visible enemy invisible. -/
theorem killEnemy_tied (i j : Nat) (w : World) (hj : j < NUM_ENEMIES)
    (hv : (w.enemies j).is_visible ≠ 0) : KillsTied w (killEnemy i j w) := by
  have hc := visibleCount_killEnemy i j w hj hv
  have hk := (killEnemy_facts i j w).2.2
  have hb : bossKillsLogged (killEnemy i j w).log = bossKillsLogged w.log := by
    show bossKillsLogged (w.log ++ [DebugMsg.playerKilledAlien]) = _
    rw [bossKillsLogged_append]
    rfl
  unfold KillsTied
  rw [hk, hb]
  omega

theorem missileEnemy_tied (env : Env) (fuel i j : Nat) (v v' : World) (hj : j < NUM_ENEMIES)
    (h : missileEnemy env fuel i j v = some v') : KillsTied v v' := by
  unfold missileEnemy at h
  by_cases c1 : (v.enemies j).is_visible = 0
  · rw [if_pos c1] at h
    have e := Option.some.inj h; subst e; exact tied_refl _
  · rw [if_neg c1] at h
    by_cases c2 : overlaps (v.missiles i).x (v.missiles i).y MWIDTH MHEIGHT
        (v.enemies j).x (v.enemies j).y EWIDTH EHEIGHT
    · rw [if_pos c2] at h
      by_cases c3 : (killEnemy i j v).enemies_alive ≤ 0
      · rw [if_pos c3] at h
        obtain ⟨-, -, -, -, -, -, r7, -, r9⟩ := enterBoss_result env fuel _ _ h
        exact tied_trans (killEnemy_tied i j v hj c1) (tied_same _ _ r7 r9)
      · rw [if_neg c3] at h
        have e := Option.some.inj h; subst e
        exact killEnemy_tied i j v hj c1
    · rw [if_neg c2] at h
      have e := Option.some.inj h; subst e; exact tied_refl _

/-- The kill of the mothership logs one line and makes the six enemies
visible, none of which was visible before. -/
theorem missileMothership_tied (env : Env) (fuel i : Nat) (v v' : World)
    (hJ : LiveCountInStep v) (hb : v.mothership_battle ≠ 0)
    (h : missileMothership env fuel i v = some v') : KillsTied v v' := by
  unfold missileMothership at h
  by_cases c1 : overlaps (v.missiles i).x (v.missiles i).y MWIDTH MHEIGHT
      v.mothership.x v.mothership.y MSWIDTH MSHEIGHT
  · rw [if_pos c1] at h
    by_cases c2 : (hitMothership i v).mother_health ≤ 0
    · rw [if_pos c2] at h
      simp only [Option.map_eq_some'] at h
      obtain ⟨w1, h1, rfl⟩ := h
      obtain ⟨r1, r2, -⟩ := reset_enemies_count env fuel 1 _ w1 h1
      have hl : w1.log = v.log ++ [DebugMsg.playerDestroyedMothership] := by
        have e := congrArg World.log (reset_enemies_hide env fuel 1 _ w1 h1)
        exact e
      have hv0 : visibleCount v = 0 := by rw [← hJ.1]; exact hJ.2 hb
      have hv6 : visibleCount (clearMotherMissile w1) = 6 := by
        show visibleCount w1 = 6
        rw [← r1, r2]
        rfl
      unfold KillsTied
      show killsLogged w1.log + _ + _ = _ + _ + 6 * bossKillsLogged w1.log
      rw [hl, killsLogged_append, bossKillsLogged_append, hv0, hv6]
      have e1 : killsLogged [DebugMsg.playerDestroyedMothership] = 0 := rfl
      have e2 : bossKillsLogged [DebugMsg.playerDestroyedMothership] = 1 := rfl
      rw [e1, e2]
      omega
    · rw [if_neg c2] at h
      have e := Option.some.inj h; subst e
      exact tied_same _ _ rfl rfl
  · rw [if_neg c1] at h
    have e := Option.some.inj h; subst e; exact tied_refl _

theorem missileStep_tied (env : Env) (fuel : Nat) (angle : ℚ) (i : Nat) (s s' : World × Nat)
    (hJ : LiveCountInStep s.1) (h : missileStep env fuel angle i s = some s') :
    KillsTied s.1 s'.1 := by
  have hadv : LiveCountInStep (advanceMissile i s.1) :=
    liveCountInStep_congr s.1 _ rfl rfl (fun _ => rfl) hJ
  have ha : KillsTied s.1 (advanceMissile i s.1) := tied_same _ _ rfl rfl
  unfold missileStep at h
  split_ifs at h with c1 c2 c3 c4
  · simp only [Option.some.injEq] at h; subst h
    exact tied_same _ _ rfl rfl
  · simp only [Option.map_eq_some'] at h
    obtain ⟨w2, h2, rfl⟩ := h
    exact tied_trans ha (missileMothership_tied env fuel i _ _ hadv c3 h2)
  · simp only [Option.map_eq_some'] at h
    obtain ⟨w2, h2, rfl⟩ := h
    exact forM_invariant (missileEnemy env fuel i) (fun v => KillsTied s.1 v) _
      (fun j hj v v' hP hb =>
        tied_trans hP (missileEnemy_tied env fuel i j v v' (List.mem_range.mp hj) hb))
      _ w2 ha h2
  · simp only [Option.some.injEq] at h; subst h
    exact tied_same _ _ rfl rfl
  · simp only [Option.some.injEq] at h; subst h; exact tied_refl _

theorem missilesPhase_tied (env : Env) (fuel : Nat) (angle : ℚ) (w w' : World)
    (hJ : LiveCountInStep w) (h : missilesPhase env fuel angle w = some w') :
    KillsTied w w' := by
  unfold missilesPhase at h
  simp only [Option.map_eq_some'] at h
  obtain ⟨s', hs, rfl⟩ := h
  refine (forM_invariant (missileStep env fuel angle)
    (fun s => LiveCountInStep s.1 ∧ KillsTied w s.1) _
    (fun i _ s s1 hP hb =>
      ⟨missileStep_count env fuel angle i s s1 hP.1 hb,
        tied_trans hP.2 (missileStep_tied env fuel angle i s s1 hP.1 hb)⟩) _ s' ?_ hs).2
  split_ifs
  · exact ⟨liveCountInStep_congr w _ rfl rfl (fun _ => rfl) hJ, tied_same _ _ rfl rfl⟩
  · exact ⟨hJ, tied_refl _⟩

theorem liveCountInStep_quiet {a b : World} (h : Quiet a b) (hJ : LiveCountInStep a) :
    LiveCountInStep b :=
  liveCountInStep_congr a b h.1 h.2.1 h.2.2.1 hJ

/-- In a gameplay frame that returns, from a world with the live count in
step, the kills logged and the enemies visible stay tied. -/
theorem gameplayFrame_tied (env : Env) (fuel : Nat) (inp : Input) (w w' : World)
    (hJ : LiveCountInStep w) (h : gameplayFrame env fuel inp w = some w') :
    KillsTied w w' := by
  have he := frameEntry_quiet inp w
  rcases gameplayFrame_cases env fuel inp w w' h with ⟨-, w2, h1, h2⟩ | ⟨-, r, h1, h2⟩
  · have hq := quiet_trans (quiet_trans he (enemiesPhase_quiet env fuel _ _ h1))
      (playerStep_quiet w2)
    exact tied_trans (tied_of_quiet hq)
      (missilesPhase_tied env fuel _ _ _ (liveCountInStep_quiet hq hJ) h2)
  · have hq1 := quiet_trans he (mothershipPhase_quiet env fuel _ _ h1)
    rcases h2 with ⟨-, rfl⟩ | ⟨-, h3⟩
    · exact tied_of_quiet hq1
    · have hq := quiet_trans hq1 (playerStep_quiet r.1)
      exact tied_trans (tied_of_quiet hq)
        (missilesPhase_tied env fuel _ _ _ (liveCountInStep_quiet hq hJ) h3)

/-- C6, as amended.  In every gameplay frame that returns, from a score that
fits its 16-bit type: the log grows by some lines `new`; the score at the end
is the score at the start plus 1 for each enemy kill and 10 for each
mothership kill logged in `new`, reduced modulo 65536; and when that sum stays
below 65536 the score is exactly the sum and has not decreased.  When the live
count is in step at the start (as it is from round initialisation on), the
enemy kills logged in `new` are the enemies made invisible in the frame: with
the enemies visible at the end they make up the enemies visible at the start
and the six that each mothership kill makes visible; and the score plus the
live count keeps its remainder modulo 16, which is 6 after round
initialisation.  A kill is what the block of lines 836-842 does: it makes a
visible enemy invisible, raises the score by one and logs the line, all three
together. -/
theorem score_counts_kills_modulo_65536 (env : Env) (fuel : Nat) (inp : Input) (w w' : World)
    (hw : w.score < 65536) (h : gameplayFrame env fuel inp w = some w') :
    (∃ new : List DebugMsg, w'.log = w.log ++ new ∧
      w'.score = (w.score + killsLogged new + 10 * bossKillsLogged new) % 65536 ∧
      (w.score + killsLogged new + 10 * bossKillsLogged new < 65536 →
        w'.score = w.score + killsLogged new + 10 * bossKillsLogged new ∧
        w.score ≤ w'.score) ∧
      (LiveCountInStep w →
        killsLogged new + visibleCount w' = visibleCount w + 6 * bossKillsLogged new ∧
        (w'.score + w'.enemies_alive) % 16 = (w.score + w.enemies_alive) % 16)) ∧
    (∀ i j (v : World), j < NUM_ENEMIES → (v.enemies j).is_visible ≠ 0 →
      ((killEnemy i j v).enemies j).is_visible = 0 ∧
      visibleCount (killEnemy i j v) + 1 = visibleCount v ∧
      (killEnemy i j v).score = (v.score + 1) % 65536 ∧
      (killEnemy i j v).log = v.log ++ [DebugMsg.playerKilledAlien]) ∧
    (∀ inp0 (v v' : World), roundInit env fuel inp0 v = some v' →
      LiveCountInStep v' ∧ (v'.score + v'.enemies_alive) % 16 = 6) := by
  refine ⟨?_, ?_, ?_⟩
  · obtain ⟨new, hl, hs, -, hb⟩ := gameplayFrame_acct env fuel inp w w' h
    have hlt := hb hw
    have hsc : w'.score = (w.score + killsLogged new + 10 * bossKillsLogged new) % 65536 := by
      rw [← hs]; exact (Nat.mod_eq_of_lt hlt).symm
    refine ⟨new, hl, hsc, fun hsum => ?_, fun hJ => ?_⟩
    · rw [Nat.mod_eq_of_lt hsum, Nat.mod_eq_of_lt hlt] at hs
      exact ⟨hs, by omega⟩
    · have ht := gameplayFrame_tied env fuel inp w w' hJ h
      have hJ' := gameplayFrame_count env fuel inp w w' hJ h
      unfold KillsTied at ht
      rw [hl, killsLogged_append, bossKillsLogged_append] at ht
      have e1 := hJ.1
      have e2 := hJ'.1
      constructor
      · omega
      · rw [e1, e2, hsc]
        omega
  · intro i j v hj hv
    refine ⟨?_, visibleCount_killEnemy i j v hj hv, rfl, rfl⟩
    simp [killEnemy, send_debug_string, setAt]
  · intro inp0 v v' hr
    obtain ⟨-, -, -, r4, -, -, -, r8, -⟩ := roundInit_result env fuel inp0 v v' hr
    refine ⟨roundInit_count env fuel inp0 v v' hr, ?_⟩
    rw [r4, r8]
    rfl

end AlienAdvance


/-! ## The five collisions of a frame -/

namespace AlienAdvance

/-- A hit of the player takes a life and logs its line before the search for
the place of the respawn is entered. -/
theorem playerHitOutcome_hit (env : Env) (fuel : Nat) (msg : DebugMsg) (w : World) :
    (playerHitOutcome env fuel msg w).holds
      (fun v => v.lives = (w.lives + 255) % 256 ∧ v.log = w.log ++ [msg] ∧
        v.mother_missile = w.mother_missile)
      (fun v => v.lives = (w.lives + 255) % 256 ∧ v.log = w.log ++ [msg] ∧
        v.mother_missile = w.mother_missile) := by
  unfold playerHitOutcome
  split_ifs
  · exact ⟨rfl, rfl, rfl⟩
  · cases find_empty_position env (loseLife msg w) PWIDTH PHEIGHT 0 fuel
        (loseLife msg w).rand_calls with
    | none => exact ⟨rfl, rfl, rfl⟩
    | some p => exact ⟨rfl, rfl, rfl⟩

/-- The contact of enemy `i` with the player (line 716): a life is lost and
the line logged exactly when the two boxes overlap. -/
theorem enemyContactOutcome_site (env : Env) (fuel i end_path : Nat) (w : World) :
    (enemyContactOutcome env fuel i end_path w).world.lives =
      (if overlaps (w.enemies i).x (w.enemies i).y EWIDTH EHEIGHT
          w.player.x w.player.y PWIDTH PHEIGHT then (w.lives + 255) % 256 else w.lives) ∧
    (enemyContactOutcome env fuel i end_path w).world.log =
      (if overlaps (w.enemies i).x (w.enemies i).y EWIDTH EHEIGHT
          w.player.x w.player.y PWIDTH PHEIGHT then w.log ++ [DebugMsg.alienKilledPlayer]
        else w.log) := by
  by_cases c : overlaps (w.enemies i).x (w.enemies i).y EWIDTH EHEIGHT
      w.player.x w.player.y PWIDTH PHEIGHT
  · rw [if_pos c, if_pos c]
    apply holds_world (fun v => v.lives = (w.lives + 255) % 256 ∧
      v.log = w.log ++ [DebugMsg.alienKilledPlayer])
    unfold enemyContactOutcome
    dsimp only
    rw [if_pos c]
    apply holds_map
    apply holds_map
    refine holds_mono _ _ _ _ _ (fun a ha => ?_) (fun _ hv => ⟨hv.1, hv.2.1⟩)
      (playerHitOutcome_hit env fuel DebugMsg.alienKilledPlayer w)
    dsimp only
    split_ifs <;> exact ⟨ha.1, ha.2.1⟩
  · rw [if_neg c, if_neg c]
    unfold enemyContactOutcome
    dsimp only
    rw [if_neg c]
    show (Outcome.done (if end_path ≠ 0 then stopEnemy env i w else w)).world.lives = _ ∧
      (Outcome.done (if end_path ≠ 0 then stopEnemy env i w else w)).world.log = _
    split_ifs
    · exact ⟨rfl, rfl⟩
    · exact ⟨rfl, rfl⟩

/-- The contact of the mothership with the player (line 588). -/
theorem mothershipContactOutcome_site (env : Env) (fuel end_path : Nat) (w : World) :
    (mothershipContactOutcome env fuel end_path w).world.lives =
      (if overlaps w.mothership.x w.mothership.y MSWIDTH MSHEIGHT
          w.player.x w.player.y PWIDTH PHEIGHT then (w.lives + 255) % 256 else w.lives) ∧
    (mothershipContactOutcome env fuel end_path w).world.log =
      (if overlaps w.mothership.x w.mothership.y MSWIDTH MSHEIGHT
          w.player.x w.player.y PWIDTH PHEIGHT then
        w.log ++ [DebugMsg.mothershipDestroyedPlayer]
        else w.log) := by
  by_cases c : overlaps w.mothership.x w.mothership.y MSWIDTH MSHEIGHT
      w.player.x w.player.y PWIDTH PHEIGHT
  · rw [if_pos c, if_pos c]
    apply holds_world (fun v => v.lives = (w.lives + 255) % 256 ∧
      v.log = w.log ++ [DebugMsg.mothershipDestroyedPlayer])
    unfold mothershipContactOutcome
    dsimp only
    rw [if_pos c]
    apply holds_map
    apply holds_map
    refine holds_mono _ _ _ _ _ (fun a ha => ?_) (fun _ hv => ⟨hv.1, hv.2.1⟩)
      (playerHitOutcome_hit env fuel DebugMsg.mothershipDestroyedPlayer w)
    dsimp only
    split_ifs <;> exact ⟨ha.1, ha.2.1⟩
  · rw [if_neg c, if_neg c]
    unfold mothershipContactOutcome
    dsimp only
    rw [if_neg c]
    show (Outcome.done (if end_path ≠ 0 then stopMothership env w else w)).world.lives = _ ∧
      (Outcome.done (if end_path ≠ 0 then stopMothership env w else w)).world.log = _
    split_ifs
    · exact ⟨rfl, rfl⟩
    · exact ⟨rfl, rfl⟩

/-- The missile of the mothership against the player (line 642), for a
missile in flight that stays in the playfield. -/
theorem motherMissileStepOutcome_site (env : Env) (fuel : Nat) (w : World)
    (hv : w.mother_missile.is_visible ≠ 0) (hf : ¬ outOfField (movedMotherMissile w)) :
    ((motherMissileStepOutcome env fuel w).map (fun r => r.1)).world.lives =
      (if overlaps (movedMotherMissile w).x (movedMotherMissile w).y MWIDTH MHEIGHT
          w.player.x w.player.y PWIDTH PHEIGHT then (w.lives + 255) % 256 else w.lives) ∧
    ((motherMissileStepOutcome env fuel w).map (fun r => r.1)).world.log =
      (if overlaps (movedMotherMissile w).x (movedMotherMissile w).y MWIDTH MHEIGHT
          w.player.x w.player.y PWIDTH PHEIGHT then
        w.log ++ [DebugMsg.mothershipDestroyedPlayer]
        else w.log) ∧
    ((motherMissileStepOutcome env fuel w).map (fun r => r.1)).world.mother_missile.is_visible =
      (if overlaps (movedMotherMissile w).x (movedMotherMissile w).y MWIDTH MHEIGHT
          w.player.x w.player.y PWIDTH PHEIGHT then 0 else w.mother_missile.is_visible) := by
  unfold motherMissileStepOutcome
  rw [if_pos hv, if_neg (show ¬ (_ ∨ _ ∨ _ ∨ _) from hf)]
  by_cases c : overlaps (movedMotherMissile w).x (movedMotherMissile w).y MWIDTH MHEIGHT
      w.player.x w.player.y PWIDTH PHEIGHT
  · rw [if_pos c, if_pos c, if_pos c, if_pos c]
    apply holds_world (fun v => v.lives = (w.lives + 255) % 256 ∧
      v.log = w.log ++ [DebugMsg.mothershipDestroyedPlayer] ∧ v.mother_missile.is_visible = 0)
    apply holds_map
    apply holds_map
    exact holds_mono _ _ _ _ _ (fun a ha => ⟨ha.1, ha.2.1, by rw [ha.2.2]; rfl⟩)
      (fun v hv => ⟨hv.1, hv.2.1, by rw [hv.2.2]; rfl⟩)
      (playerHitOutcome_hit env fuel DebugMsg.mothershipDestroyedPlayer (dropMotherMissile w))
  · rw [if_neg c, if_neg c, if_neg c, if_neg c]
    exact ⟨rfl, rfl, rfl⟩

/-- Missile `j` against a visible enemy `i` (line 833): the enemy and the
missile go, the score rises and the line is logged exactly when the two boxes
overlap, whether or not the kill is the last and its search returns. -/
theorem missileEnemyOutcome_site (env : Env) (fuel i j : Nat) (w : World)
    (hv : (w.enemies i).is_visible ≠ 0) :
    (missileEnemyOutcome env fuel j i w).world.score =
      (if overlaps (w.missiles j).x (w.missiles j).y MWIDTH MHEIGHT
          (w.enemies i).x (w.enemies i).y EWIDTH EHEIGHT then (w.score + 1) % 65536
        else w.score) ∧
    ((missileEnemyOutcome env fuel j i w).world.enemies i).is_visible =
      (if overlaps (w.missiles j).x (w.missiles j).y MWIDTH MHEIGHT
          (w.enemies i).x (w.enemies i).y EWIDTH EHEIGHT then 0
        else (w.enemies i).is_visible) ∧
    ((missileEnemyOutcome env fuel j i w).world.missiles j).is_visible =
      (if overlaps (w.missiles j).x (w.missiles j).y MWIDTH MHEIGHT
          (w.enemies i).x (w.enemies i).y EWIDTH EHEIGHT then 0
        else (w.missiles j).is_visible) ∧
    (missileEnemyOutcome env fuel j i w).world.log =
      (if overlaps (w.missiles j).x (w.missiles j).y MWIDTH MHEIGHT
          (w.enemies i).x (w.enemies i).y EWIDTH EHEIGHT then
        w.log ++ [DebugMsg.playerKilledAlien]
        else w.log) := by
  have k1 : ((killEnemy j i w).enemies i).is_visible = 0 := by
    simp [killEnemy, send_debug_string, setAt]
  have k2 : ((killEnemy j i w).missiles j).is_visible = 0 := by
    simp [killEnemy, send_debug_string, setAt]
  unfold missileEnemyOutcome
  rw [if_neg hv]
  by_cases c : overlaps (w.missiles j).x (w.missiles j).y MWIDTH MHEIGHT
      (w.enemies i).x (w.enemies i).y EWIDTH EHEIGHT
  · rw [if_pos c, if_pos c, if_pos c, if_pos c, if_pos c]
    by_cases c3 : (killEnemy j i w).enemies_alive ≤ 0
    · rw [if_pos c3]
      unfold enterBossOutcome
      cases motherSearch env (bossSetup env (killEnemy j i w)) fuel 1
          (bossSetup env (killEnemy j i w)).rand_calls with
      | none => exact ⟨rfl, k1, k2, rfl⟩
      | some p => exact ⟨rfl, k1, k2, rfl⟩
    · rw [if_neg c3]
      exact ⟨rfl, k1, k2, rfl⟩
  · rw [if_neg c, if_neg c, if_neg c, if_neg c, if_neg c]
    exact ⟨rfl, rfl, rfl, rfl⟩

/-- The placement of the enemies leaves the mothership's health and the
missiles alone, whether or not its searches return. -/
theorem reset_enemiesOutcome_keeps (env : Env) (fuel cp : Nat) (u : World) :
    (reset_enemiesOutcome env fuel cp u).holds
      (fun v => v.mother_health = u.mother_health ∧ v.missiles = u.missiles)
      (fun v => v.mother_health = u.mother_health ∧ v.missiles = u.missiles) := by
  have hf : ∀ v, hideEnemies v = hideEnemies u →
      v.mother_health = u.mother_health ∧ v.missiles = u.missiles := by
    intro v h
    exact ⟨by have e := congrArg World.mother_health h; exact e,
      by have e := congrArg World.missiles h; exact e⟩
  unfold reset_enemiesOutcome
  apply holds_map
  refine holds_mono _ _ _ _ _ (fun a ha => hf _ (by rw [← ha]; rfl)) (fun v hv => hf v hv)
    (forMOutcome_holds (placeEnemyOutcome env fuel cp)
      (fun v => hideEnemies v = hideEnemies u) (fun v => hideEnemies v = hideEnemies u) _
      (fun i _ s hs => ?_) _ (enemiesToOrigin_hide u))
  apply holds_of_returned
  · intro a h
    rw [placeEnemyOutcome_returned] at h
    exact (placeEnemy_hide env fuel cp i s a h).trans hs
  · unfold placeEnemyOutcome
    cases find_empty_position env s EWIDTH EHEIGHT cp fuel s.rand_calls with
    | none => exact hs
    | some p => trivial

/-- Missile `j` against the mothership (line 809): the missile goes and the
mothership loses one point of health exactly when the two boxes overlap. -/
theorem missileMothershipOutcome_site (env : Env) (fuel j : Nat) (w : World) :
    (missileMothershipOutcome env fuel j w).world.mother_health =
      (if overlaps (w.missiles j).x (w.missiles j).y MWIDTH MHEIGHT
          w.mothership.x w.mothership.y MSWIDTH MSHEIGHT then (w.mother_health + 255) % 256
        else w.mother_health) ∧
    ((missileMothershipOutcome env fuel j w).world.missiles j).is_visible =
      (if overlaps (w.missiles j).x (w.missiles j).y MWIDTH MHEIGHT
          w.mothership.x w.mothership.y MSWIDTH MSHEIGHT then 0
        else (w.missiles j).is_visible) := by
  have k2 : ((hitMothership j w).missiles j).is_visible = 0 := by
    simp [hitMothership, setAt]
  unfold missileMothershipOutcome
  by_cases c : overlaps (w.missiles j).x (w.missiles j).y MWIDTH MHEIGHT
      w.mothership.x w.mothership.y MSWIDTH MSHEIGHT
  · rw [if_pos c, if_pos c, if_pos c]
    by_cases c2 : (hitMothership j w).mother_health ≤ 0
    · rw [if_pos c2]
      apply holds_world (fun v => v.mother_health = (w.mother_health + 255) % 256 ∧
        (v.missiles j).is_visible = 0)
      apply holds_map
      refine holds_mono _ _ _ _ _ (fun a ha => ?_) (fun v hv => ?_)
        (reset_enemiesOutcome_keeps env fuel 1 (bossDefeated (hitMothership j w)))
      · refine ⟨ha.1, ?_⟩
        show (a.missiles j).is_visible = 0
        rw [ha.2]
        exact k2
      · refine ⟨hv.1, ?_⟩
        rw [hv.2]
        exact k2
    · rw [if_neg c2]
      exact ⟨rfl, k2⟩
  · rw [if_neg c, if_neg c, if_neg c]
    exact ⟨rfl, rfl⟩

end AlienAdvance

namespace AlienAdvance

/-- C17.  The rectangle test of the program reports an overlap exactly when
`a.x < b.x + bw`, `b.x < a.x + aw`, `a.y < b.y + bh` and `b.y < a.y + ah`; it
is symmetric in the two rectangles; and rectangles that only touch along an
edge do not overlap.  It is the test the five collisions use, and each of
them registers exactly when the test reports an overlap, in the world the
collision ends with, whether or not a search entered by it returns.  Enemy `i`
against the player and the mothership against the player: a life is lost and
the line logged on an overlap, and lives and log are unchanged without.  The
missile of the mothership, in flight and still in the playfield after its
move, against the player: the same, and the missile goes on an overlap and
stays without.  Missile `j` against a visible enemy `i`: on an overlap the
enemy and the missile go, the score rises by one (modulo 65536) and the line
is logged; without, the world is unchanged.  Missile `j` against the
mothership: on an overlap the missile goes and the mothership loses one point
of health; without, the world is unchanged. -/
theorem collision_test_is_open_box_overlap (env : Env) (fuel i j end_path : Nat) (w : World)
    (ax ay aw ah bx b_y bw bh : ℚ) :
    (overlaps ax ay aw ah bx b_y bw bh ↔
      (ax < bx + bw ∧ bx < ax + aw ∧ ay < b_y + bh ∧ b_y < ay + ah)) ∧
    (overlaps ax ay aw ah bx b_y bw bh ↔ overlaps bx b_y bw bh ax ay aw ah) ∧
    ((ax + aw = bx ∨ bx + bw = ax ∨ ay + ah = b_y ∨ b_y + bh = ay) →
      ¬ overlaps ax ay aw ah bx b_y bw bh) ∧
    ((enemyContactOutcome env fuel i end_path w).returned =
        enemyContact env fuel i end_path w ∧
      (enemyContactOutcome env fuel i end_path w).world.lives =
        (if overlaps (w.enemies i).x (w.enemies i).y EWIDTH EHEIGHT
            w.player.x w.player.y PWIDTH PHEIGHT then (w.lives + 255) % 256 else w.lives) ∧
      (enemyContactOutcome env fuel i end_path w).world.log =
        (if overlaps (w.enemies i).x (w.enemies i).y EWIDTH EHEIGHT
            w.player.x w.player.y PWIDTH PHEIGHT then w.log ++ [DebugMsg.alienKilledPlayer]
          else w.log) ∧
      (¬ overlaps (w.enemies i).x (w.enemies i).y EWIDTH EHEIGHT
          w.player.x w.player.y PWIDTH PHEIGHT →
        enemyContact env fuel i end_path w =
          some (if end_path ≠ 0 then stopEnemy env i w else w))) ∧
    ((mothershipContactOutcome env fuel end_path w).returned =
        mothershipContact env fuel end_path w ∧
      (mothershipContactOutcome env fuel end_path w).world.lives =
        (if overlaps w.mothership.x w.mothership.y MSWIDTH MSHEIGHT
            w.player.x w.player.y PWIDTH PHEIGHT then (w.lives + 255) % 256 else w.lives) ∧
      (mothershipContactOutcome env fuel end_path w).world.log =
        (if overlaps w.mothership.x w.mothership.y MSWIDTH MSHEIGHT
            w.player.x w.player.y PWIDTH PHEIGHT then
          w.log ++ [DebugMsg.mothershipDestroyedPlayer]
          else w.log) ∧
      (¬ overlaps w.mothership.x w.mothership.y MSWIDTH MSHEIGHT
          w.player.x w.player.y PWIDTH PHEIGHT →
        mothershipContact env fuel end_path w =
          some (if end_path ≠ 0 then stopMothership env w else w))) ∧
    ((motherMissileStepOutcome env fuel w).returned = motherMissileStep env fuel w ∧
      (w.mother_missile.is_visible ≠ 0 → ¬ outOfField (movedMotherMissile w) →
        ((motherMissileStepOutcome env fuel w).map (fun r => r.1)).world.lives =
          (if overlaps (movedMotherMissile w).x (movedMotherMissile w).y MWIDTH MHEIGHT
              w.player.x w.player.y PWIDTH PHEIGHT then (w.lives + 255) % 256 else w.lives) ∧
        ((motherMissileStepOutcome env fuel w).map (fun r => r.1)).world.log =
          (if overlaps (movedMotherMissile w).x (movedMotherMissile w).y MWIDTH MHEIGHT
              w.player.x w.player.y PWIDTH PHEIGHT then
            w.log ++ [DebugMsg.mothershipDestroyedPlayer]
            else w.log) ∧
        ((motherMissileStepOutcome env fuel w).map
            (fun r => r.1)).world.mother_missile.is_visible =
          (if overlaps (movedMotherMissile w).x (movedMotherMissile w).y MWIDTH MHEIGHT
              w.player.x w.player.y PWIDTH PHEIGHT then 0 else w.mother_missile.is_visible) ∧
        (¬ overlaps (movedMotherMissile w).x (movedMotherMissile w).y MWIDTH MHEIGHT
            w.player.x w.player.y PWIDTH PHEIGHT →
          motherMissileStep env fuel w = some (advanceMotherMissile w, false)))) ∧
    ((missileEnemyOutcome env fuel j i w).returned = missileEnemy env fuel j i w ∧
      ((w.enemies i).is_visible ≠ 0 →
        (missileEnemyOutcome env fuel j i w).world.score =
          (if overlaps (w.missiles j).x (w.missiles j).y MWIDTH MHEIGHT
              (w.enemies i).x (w.enemies i).y EWIDTH EHEIGHT then (w.score + 1) % 65536
            else w.score) ∧
        ((missileEnemyOutcome env fuel j i w).world.enemies i).is_visible =
          (if overlaps (w.missiles j).x (w.missiles j).y MWIDTH MHEIGHT
              (w.enemies i).x (w.enemies i).y EWIDTH EHEIGHT then 0
            else (w.enemies i).is_visible) ∧
        ((missileEnemyOutcome env fuel j i w).world.missiles j).is_visible =
          (if overlaps (w.missiles j).x (w.missiles j).y MWIDTH MHEIGHT
              (w.enemies i).x (w.enemies i).y EWIDTH EHEIGHT then 0
            else (w.missiles j).is_visible) ∧
        (missileEnemyOutcome env fuel j i w).world.log =
          (if overlaps (w.missiles j).x (w.missiles j).y MWIDTH MHEIGHT
              (w.enemies i).x (w.enemies i).y EWIDTH EHEIGHT then
            w.log ++ [DebugMsg.playerKilledAlien]
            else w.log)) ∧
      (¬ overlaps (w.missiles j).x (w.missiles j).y MWIDTH MHEIGHT
          (w.enemies i).x (w.enemies i).y EWIDTH EHEIGHT →
        missileEnemy env fuel j i w = some w)) ∧
    ((missileMothershipOutcome env fuel j w).returned = missileMothership env fuel j w ∧
      (missileMothershipOutcome env fuel j w).world.mother_health =
        (if overlaps (w.missiles j).x (w.missiles j).y MWIDTH MHEIGHT
            w.mothership.x w.mothership.y MSWIDTH MSHEIGHT then (w.mother_health + 255) % 256
          else w.mother_health) ∧
      ((missileMothershipOutcome env fuel j w).world.missiles j).is_visible =
        (if overlaps (w.missiles j).x (w.missiles j).y MWIDTH MHEIGHT
            w.mothership.x w.mothership.y MSWIDTH MSHEIGHT then 0
          else (w.missiles j).is_visible) ∧
      (¬ overlaps (w.missiles j).x (w.missiles j).y MWIDTH MHEIGHT
          w.mothership.x w.mothership.y MSWIDTH MSHEIGHT →
        missileMothership env fuel j w = some w)) := by
  refine ⟨overlaps_iff _ _ _ _ _ _ _ _, ?_, ?_, ?_, ?_, ?_, ?_, ?_⟩
  · rw [overlaps_iff, overlaps_iff]
    constructor
    · rintro ⟨h1, h2, h3, h4⟩; exact ⟨h2, h1, h4, h3⟩
    · rintro ⟨h1, h2, h3, h4⟩; exact ⟨h2, h1, h4, h3⟩
  · rw [overlaps_iff]
    rintro (e | e | e | e) ⟨h1, h2, h3, h4⟩
    · rw [e] at h2; exact lt_irrefl _ h2
    · rw [e] at h1; exact lt_irrefl _ h1
    · rw [e] at h4; exact lt_irrefl _ h4
    · rw [e] at h3; exact lt_irrefl _ h3
  · refine ⟨enemyContactOutcome_returned env fuel i end_path w,
      (enemyContactOutcome_site env fuel i end_path w).1,
      (enemyContactOutcome_site env fuel i end_path w).2, fun h => ?_⟩
    unfold enemyContact
    rw [if_neg h]
    rfl
  · refine ⟨mothershipContactOutcome_returned env fuel end_path w,
      (mothershipContactOutcome_site env fuel end_path w).1,
      (mothershipContactOutcome_site env fuel end_path w).2, fun h => ?_⟩
    unfold mothershipContact
    rw [if_neg h]
    rfl
  · refine ⟨motherMissileStepOutcome_returned env fuel w, fun hv hf => ?_⟩
    obtain ⟨s1, s2, s3⟩ := motherMissileStepOutcome_site env fuel w hv hf
    refine ⟨s1, s2, s3, fun h => ?_⟩
    unfold motherMissileStep
    rw [if_pos hv, if_neg (show ¬ (_ ∨ _ ∨ _ ∨ _) from hf), if_neg h]
  · refine ⟨missileEnemyOutcome_returned env fuel j i w,
      fun hv => missileEnemyOutcome_site env fuel i j w hv, fun h => ?_⟩
    unfold missileEnemy
    split_ifs
    · rfl
    · rfl
  · refine ⟨missileMothershipOutcome_returned env fuel j w,
      (missileMothershipOutcome_site env fuel j w).1,
      (missileMothershipOutcome_site env fuel j w).2, fun h => ?_⟩
    unfold missileMothership
    rw [if_neg h]

end AlienAdvance


/-! ## The switch to the mothership battle: the flag -/

namespace AlienAdvance

/-- C7.  A gameplay frame that starts in normal phase (with the live count
equal to the number of visible enemies, as it is from round initialisation
on) either returns or spins in one of its searches; `gameplayFrameOutcome`
gives the world it ends with in both cases, and returns what `gameplayFrame`
returns.  In that world the boss flag is set exactly when the kills logged in
the frame are at least one and as many as the live count at the start, that
is, when a missile kill of this frame took the count from 1 to 0; and then the
live count is 0.  The same holds of the world a frame returns.  The switch
sets the flag before it enters the search for the mothership's place, so the
flag is set whether that search returns or not.  The enemy branch, with its
hits, respawns and placements, ends with the flag clear, returning or
spinning, and the player movement hands it on clear. -/
theorem boss_flag_iff_kill_takes_count_to_zero (env : Env) (fuel : Nat) (inp : Input)
    (w : World) (hb : w.mothership_battle = 0) (hc : w.enemies_alive = visibleCount w) :
    (gameplayFrameOutcome env fuel inp w).returned = gameplayFrame env fuel inp w ∧
    (∃ new : List DebugMsg,
      (gameplayFrameOutcome env fuel inp w).world.log = w.log ++ new ∧
      ((gameplayFrameOutcome env fuel inp w).world.mothership_battle ≠ 0 ↔
        (1 ≤ killsLogged new ∧ killsLogged new = w.enemies_alive)) ∧
      ((gameplayFrameOutcome env fuel inp w).world.mothership_battle ≠ 0 →
        (gameplayFrameOutcome env fuel inp w).world.enemies_alive = 0)) ∧
    (∀ w', gameplayFrame env fuel inp w = some w' →
      ∃ new : List DebugMsg, w'.log = w.log ++ new ∧
        (w'.mothership_battle ≠ 0 ↔
          (1 ≤ killsLogged new ∧ killsLogged new = w.enemies_alive))) ∧
    (∀ v, (enterBossOutcome env fuel v).returned = enterBoss env fuel v ∧
      (enterBossOutcome env fuel v).world.mothership_battle = 1) ∧
    (enemiesPhaseOutcome env fuel (frameEntry inp w)).world.mothership_battle = 0 ∧
    (∀ w2, enemiesPhase env fuel (frameEntry inp w) = some w2 →
      (playerStep w2).mothership_battle = 0) := by
  have key := normalFrameOutcome_switch env fuel inp w hb hc
  have hq := holds_world _ _ (enemiesPhaseOutcome_quiet env fuel (frameEntry inp w))
  have he := frameEntry_quiet inp w
  refine ⟨gameplayFrameOutcome_returned env fuel inp w, holds_world _ _ key, fun w' h => ?_,
    fun v => ⟨enterBossOutcome_returned env fuel v, enterBossOutcome_flag env fuel v⟩,
    (hq.1.trans he.1).trans hb, fun w2 h1 => ?_⟩
  · rw [returned_done _ w' ((gameplayFrameOutcome_returned env fuel inp w).trans h)] at key
    obtain ⟨new, k1, k2, -⟩ := key
    exact ⟨new, k1, k2⟩
  · exact ((enemiesPhase_quiet env fuel _ _ h1).1.trans he.1).trans hb

set_option maxRecDepth 1000000 in
/-- C7, witness.  At `lastEnemyAtFive` one enemy is alive and a missile is about
to reach it.  With the library `demoEnv` the frame returns: one kill is
logged, the live count is 0 and the flag is set.  With the library `stuckEnv`,
whose draws put the first candidate of the mothership search on the player,
the frame does not return: it spins in that search, with one kill logged, the
live count at 0 and the flag set.  At the world before, with six enemies
alive, the frame kills one enemy and ends with the flag clear.  Each line
gives the flag, the kills logged in the frame and the live count. -/
theorem boss_flag_iff_kill_takes_count_to_zero_witness :
    lastEnemyAtFive.mothership_battle = 0 ∧
    lastEnemyAtFive.enemies_alive = visibleCount lastEnemyAtFive ∧
    lastEnemyAtFive.enemies_alive = 1 ∧
    (gameplayFrame demoEnv 10 quietInput lastEnemyAtFive).map
      (fun w' => (w'.mothership_battle, killsLogged (logSince lastEnemyAtFive w'),
        w'.enemies_alive)) = some (1, 1, 0) ∧
    (gameplayFrame stuckEnv 10 quietInput lastEnemyAtFive).isNone = true ∧
    ((gameplayFrameOutcome stuckEnv 10 quietInput lastEnemyAtFive).world.mothership_battle,
      killsLogged (logSince lastEnemyAtFive
        (gameplayFrameOutcome stuckEnv 10 quietInput lastEnemyAtFive).world),
      (gameplayFrameOutcome stuckEnv 10 quietInput lastEnemyAtFive).world.enemies_alive) =
      (1, 1, 0) ∧
    (gameplayFrame demoEnv 10 quietInput (afterRun missileNearEnemy)).map
      (fun w' => (w'.mothership_battle, killsLogged (logSince (afterRun missileNearEnemy) w'),
        w'.enemies_alive)) = some (0, 1, 5) ∧
    (∃ new : List DebugMsg,
      (gameplayFrameOutcome stuckEnv 10 quietInput lastEnemyAtFive).world.log =
        lastEnemyAtFive.log ++ new ∧
      ((gameplayFrameOutcome stuckEnv 10 quietInput lastEnemyAtFive).world.mothership_battle
          ≠ 0 ↔
        (1 ≤ killsLogged new ∧ killsLogged new = lastEnemyAtFive.enemies_alive)) ∧
      ((gameplayFrameOutcome stuckEnv 10 quietInput lastEnemyAtFive).world.mothership_battle
          ≠ 0 →
        (gameplayFrameOutcome stuckEnv 10 quietInput lastEnemyAtFive).world.enemies_alive =
          0)) :=
  ⟨by decide!, by decide!, by decide!, by decide!, by decide!, by decide!, by decide!,
    (boss_flag_iff_kill_takes_count_to_zero stuckEnv 10 quietInput lastEnemyAtFive
      (by decide!) (by decide!)).2.1⟩

end AlienAdvance


/-! ## The score of a frame: examples -/

namespace AlienAdvance

set_option maxRecDepth 1000000 in
/-- C6, witness: the frame in which the missile of the example run reaches
enemy 1, with six enemies visible and the score at 0.  The frame logs one
enemy kill and no mothership kill, enemy 1 is invisible after it, five enemies
are visible, and the score is 1.  The first line gives the score, the visible
enemies and the visibility of enemy 1 before the frame; the second the score,
the enemy kills and the mothership kills logged, the visible enemies and the
visibility of enemy 1 after it. -/
theorem score_counts_kills_modulo_65536_witness :
    (afterRun missileNearEnemy).score < 65536 ∧
    LiveCountInStep (afterRun missileNearEnemy) ∧
    ((afterRun missileNearEnemy).score, visibleCount (afterRun missileNearEnemy),
      ((afterRun missileNearEnemy).enemies 1).is_visible) = (0, 6, 1) ∧
    (gameplayFrame demoEnv 10 quietInput (afterRun missileNearEnemy)).map
      (fun w' => (w'.score, killsLogged (logSince (afterRun missileNearEnemy) w'),
        bossKillsLogged (logSince (afterRun missileNearEnemy) w'), visibleCount w',
        (w'.enemies 1).is_visible)) = some (1, 1, 0, 5, 0) ∧
    (∃ new : List DebugMsg,
      ((gameplayFrame demoEnv 10 quietInput (afterRun missileNearEnemy)).getD powerOn).log =
        (afterRun missileNearEnemy).log ++ new ∧
      ((gameplayFrame demoEnv 10 quietInput (afterRun missileNearEnemy)).getD powerOn).score =
        ((afterRun missileNearEnemy).score + killsLogged new + 10 * bossKillsLogged new) %
          65536 ∧
      ((afterRun missileNearEnemy).score + killsLogged new + 10 * bossKillsLogged new < 65536 →
        ((gameplayFrame demoEnv 10 quietInput (afterRun missileNearEnemy)).getD powerOn).score =
          (afterRun missileNearEnemy).score + killsLogged new + 10 * bossKillsLogged new ∧
        (afterRun missileNearEnemy).score ≤
          ((gameplayFrame demoEnv 10 quietInput (afterRun missileNearEnemy)).getD
            powerOn).score) ∧
      (LiveCountInStep (afterRun missileNearEnemy) →
        killsLogged new +
            visibleCount
              ((gameplayFrame demoEnv 10 quietInput (afterRun missileNearEnemy)).getD
                powerOn) =
          visibleCount (afterRun missileNearEnemy) + 6 * bossKillsLogged new ∧
        (((gameplayFrame demoEnv 10 quietInput (afterRun missileNearEnemy)).getD
              powerOn).score +
            ((gameplayFrame demoEnv 10 quietInput (afterRun missileNearEnemy)).getD
              powerOn).enemies_alive) % 16 =
          ((afterRun missileNearEnemy).score + (afterRun missileNearEnemy).enemies_alive) %
            16)) :=
  ⟨by decide!, by decide!, by decide!, by decide!,
    (score_counts_kills_modulo_65536 demoEnv 10 quietInput _ _ (by decide!)
      (eq_some_getD _ _ (by decide!))).1⟩

set_option maxRecDepth 1000000 in
/-- C6, counterexample.  The world `bossAtTopScore` is a world of the boss
phase as the code keeps it: the flag is set, no enemy is alive or visible, and
the score plus the live count leaves 6 when divided by 16, as it does from the
start of a round on (the score starts at 0 with six alive, a kill moves 1 from
the live count to the score, and a mothership kill adds 10 to the score and 6
to the live count); its score is 65526 and the mothership has 1 point of
health left.  The frame from it, in which the missile of slot 1 reaches the
mothership, logs one mothership kill and no enemy kill, and the score at its
end is 0: not 65526 + 10, and below the score at its start.  The last line
gives the score before, and after the frame the score, the enemy kills and
the mothership kills logged, and the visible enemies. -/
theorem score_wraps_at_65536 :
    bossAtTopScore.mothership_battle = 1 ∧
    LiveCountInStep bossAtTopScore ∧
    bossAtTopScore.enemies_alive = 0 ∧
    (bossAtTopScore.score + bossAtTopScore.enemies_alive) % 16 = 6 ∧
    bossAtTopScore.mother_health = 1 ∧
    (gameplayFrame demoEnv 10 quietInput bossAtTopScore).map
      (fun w' => (bossAtTopScore.score, w'.score, killsLogged (logSince bossAtTopScore w'),
        bossKillsLogged (logSince bossAtTopScore w'), visibleCount w')) =
      some (65526, 0, 0, 1, 6) := by
  refine ⟨?_, ?_, ?_, ?_, ?_, ?_⟩ <;> decide!

end AlienAdvance


/-! ## The five collisions of a frame: examples -/

namespace AlienAdvance

set_option maxRecDepth 1000000 in
/-- C17, witness.  Two boxes that touch along an edge, (0, 0) of size 2 by 2
and (2, 0) of size 5 by 5, do not overlap; moved one unit into each other they
do.  Each of the five collisions registers at an overlap.  In `respawnWorld`
enemy 1 overlaps the player: the contact takes a life (5 to 4) and logs one
hit.  In `playerUnderMothership` the mothership overlaps the player, and so
does its missile after its move: each takes a life and logs one hit, and the
missile goes.  In `missileOnEnemy` missile 0 overlaps enemy 1 and not enemy 0:
against enemy 1 the score goes from 0 to 1 and the enemy and the missile go,
against enemy 0 nothing changes.  In `bossAtSix` missile 1 overlaps the
mothership and missile 0 does not: missile 1 takes the health from 1 to 0 and
goes, missile 0 changes nothing. -/
theorem collision_test_is_open_box_overlap_witness :
    ¬ overlaps 0 0 2 2 2 0 5 5 ∧ overlaps 0 0 2 2 1 0 5 5 ∧
    (overlaps (respawnWorld.enemies 1).x (respawnWorld.enemies 1).y EWIDTH EHEIGHT
        respawnWorld.player.x respawnWorld.player.y PWIDTH PHEIGHT ∧
      respawnWorld.lives = 5 ∧
      (enemyContact rowEnv 10 1 0 respawnWorld).map
        (fun v => (v.lives, hitsLogged (logSince respawnWorld v))) = some (4, 1)) ∧
    (overlaps playerUnderMothership.mothership.x playerUnderMothership.mothership.y
        MSWIDTH MSHEIGHT playerUnderMothership.player.x playerUnderMothership.player.y
        PWIDTH PHEIGHT ∧
      playerUnderMothership.lives = 5 ∧
      (mothershipContact demoEnv 10 0 playerUnderMothership).map
        (fun v => (v.lives, hitsLogged (logSince playerUnderMothership v))) = some (4, 1)) ∧
    (overlaps (movedMotherMissile playerUnderMothership).x
        (movedMotherMissile playerUnderMothership).y MWIDTH MHEIGHT
        playerUnderMothership.player.x playerUnderMothership.player.y PWIDTH PHEIGHT ∧
      playerUnderMothership.mother_missile.is_visible = 1 ∧
      (motherMissileStep demoEnv 10 playerUnderMothership).map
        (fun r => (r.1.lives, hitsLogged (logSince playerUnderMothership r.1),
          r.1.mother_missile.is_visible)) = some (4, 1, 0)) ∧
    (overlaps (missileOnEnemy.missiles 0).x (missileOnEnemy.missiles 0).y MWIDTH MHEIGHT
        (missileOnEnemy.enemies 1).x (missileOnEnemy.enemies 1).y EWIDTH EHEIGHT ∧
      ¬ overlaps (missileOnEnemy.missiles 0).x (missileOnEnemy.missiles 0).y MWIDTH MHEIGHT
        (missileOnEnemy.enemies 0).x (missileOnEnemy.enemies 0).y EWIDTH EHEIGHT ∧
      (missileOnEnemy.score, (missileOnEnemy.enemies 1).is_visible,
        (missileOnEnemy.enemies 0).is_visible, (missileOnEnemy.missiles 0).is_visible) =
        (0, 1, 1, 1) ∧
      (missileEnemy demoEnv 10 0 1 missileOnEnemy).map
        (fun v => (v.score, (v.enemies 1).is_visible, (v.missiles 0).is_visible,
          killsLogged (logSince missileOnEnemy v))) = some (1, 0, 0, 1) ∧
      (missileEnemy demoEnv 10 0 0 missileOnEnemy).map
        (fun v => (v.score, (v.enemies 0).is_visible, (v.missiles 0).is_visible,
          killsLogged (logSince missileOnEnemy v))) = some (0, 1, 1, 0)) ∧
    (overlaps (bossAtSix.missiles 1).x (bossAtSix.missiles 1).y MWIDTH MHEIGHT
        bossAtSix.mothership.x bossAtSix.mothership.y MSWIDTH MSHEIGHT ∧
      ¬ overlaps (bossAtSix.missiles 0).x (bossAtSix.missiles 0).y MWIDTH MHEIGHT
        bossAtSix.mothership.x bossAtSix.mothership.y MSWIDTH MSHEIGHT ∧
      (bossAtSix.mother_health, (bossAtSix.missiles 1).is_visible) = (1, 1) ∧
      (missileMothership demoEnv 10 1 bossAtSix).map
        (fun v => (v.mother_health, (v.missiles 1).is_visible)) = some (0, 0) ∧
      (missileMothership demoEnv 10 0 bossAtSix).map
        (fun v => (v.mother_health, (v.missiles 1).is_visible)) = some (1, 1)) ∧
    (missileEnemyOutcome demoEnv 10 0 1 missileOnEnemy).world.score =
      (if overlaps (missileOnEnemy.missiles 0).x (missileOnEnemy.missiles 0).y MWIDTH MHEIGHT
          (missileOnEnemy.enemies 1).x (missileOnEnemy.enemies 1).y EWIDTH EHEIGHT then
        (missileOnEnemy.score + 1) % 65536
        else missileOnEnemy.score) :=
  ⟨(collision_test_is_open_box_overlap demoEnv 10 1 0 0 missileOnEnemy 0 0 2 2 2 0 5 5).2.2.1
      (Or.inl (by norm_num)),
    by decide!,
    ⟨by decide!, by decide!, by decide!⟩,
    ⟨by decide!, by decide!, by decide!⟩,
    ⟨by decide!, by decide!, by decide!⟩,
    ⟨by decide!, by decide!, by decide!, by decide!, by decide!⟩,
    ⟨by decide!, by decide!, by decide!, by decide!, by decide!⟩,
    ((collision_test_is_open_box_overlap demoEnv 10 1 0 0 missileOnEnemy 0 0 2 2 2 0 5
      5).2.2.2.2.2.2.1.2.1 (by decide!)).1⟩

end AlienAdvance
